import Mathlib

/-!
# Currency conversion utility: retry executor, error classifier, conversion fetcher

A shallow embedding of `pkg/retry/retry.go`, `internal/domain/errors.go`,
`internal/domain/currency.go`, `internal/domain/conversion.go`,
`internal/adapter/repository/coinmarketcap.go`, `internal/usecase/convert_currency.go` and
`internal/adapter/cli/parser.go`, followed by theorems about them.

Conventions of the embedding:

* Go `int`, `time.Duration` (int64 nanoseconds) are `Int`.
* A Go `float64` is a `Float64`: a finite number given by its exact value, the negative zero,
  an infinity or NaN. Conversion from an integer, multiplication and division are those of
  IEEE 754: the exact result rounded to the nearest float64, ties to even, with overflow to an
  infinity and gradual underflow. `math.Pow` is the algorithm of Go's package `math`.
* A Go `error` is a `GoError`; `nil` is `none : Option GoError`.
* A Go closure with captured variables is a state-passing function `σ → result × σ`.
* The context is an oracle that says, for each `select`, which channel is received first.
-/

namespace CurrencyConversion

/-! ## internal/domain/errors.go -/

/-- The package-level error variables of `internal/domain/errors.go`. Each is created once by
`errors.New`, so each is one distinct error value. -/
inductive DomainError
  | ErrInvalidCurrency
  | ErrInvalidAmount
  | ErrAPIKeyMissing
  | ErrAPIFailure
  | ErrUnauthorized
  | ErrForbidden
  | ErrRateLimitExceeded
  | ErrServerError
  | ErrNetworkFailure
  | ErrInvalidResponse
  deriving DecidableEq, Repr

/-- The text given to `errors.New` for each domain error. -/
def DomainError.text : DomainError → String
  | .ErrInvalidCurrency => "invalid currency symbol"
  | .ErrInvalidAmount => "invalid amount: must be greater than zero"
  | .ErrAPIKeyMissing => "API key is missing"
  | .ErrAPIFailure => "API request failed"
  | .ErrUnauthorized => "unauthorized: invalid API key"
  | .ErrForbidden => "forbidden: API key does not have access to this endpoint"
  | .ErrRateLimitExceeded => "rate limit exceeded: too many requests"
  | .ErrServerError => "server error: please try again later"
  | .ErrNetworkFailure => "network failure: could not connect to API"
  | .ErrInvalidResponse => "invalid API response"

/-- A non-nil Go `error` value.

* `domain d` is the package-level variable `domain.d`;
* `leaf msg` is an error that wraps nothing (an `errors.New` value of another package, a
  transport error, `context.Canceled`, a `fmt.Errorf` result without a wrapped operand);
* `wrapError msg err` is the `*fmt.wrapError` built by `fmt.Errorf` with one `%w` operand `err`,
  `msg` being the formatted text. -/
inductive GoError
  | domain (d : DomainError)
  | leaf (msg : String)
  | wrapError (msg : String) (err : GoError)
  deriving DecidableEq, Repr

/-- The method `Error()`. -/
def GoError.Error : GoError → String
  | .domain d => d.text
  | .leaf msg => msg
  | .wrapError msg _ => msg

/-- The function `errors.Unwrap`. -/
def GoError.Unwrap : GoError → Option GoError
  | .wrapError _ err => some err
  | _ => none

/-- The function `errors.Is`: `err` or an error in its `Unwrap` chain equals `target`. -/
def GoError.Is : GoError → GoError → Bool
  | .wrapError msg err, target => decide (GoError.wrapError msg err = target) || err.Is target
  | .domain d, target => decide (GoError.domain d = target)
  | .leaf msg, target => decide (GoError.leaf msg = target)

/-! ## float64 -/

/-- A value of Go's `float64`: a finite number given by its exact value (`finite 0` is the
positive zero), the negative zero, an infinity, or NaN. -/
inductive Float64
  | finite (q : ℚ)
  | negZero
  | posInf
  | negInf
  | nan
  deriving DecidableEq

/-- The comparison `x <= 0` of IEEE 754, false when `x` is NaN. -/
def Float64.leZero : Float64 → Bool
  | .finite q => decide (q ≤ 0)
  | .negZero => true
  | .posInf => false
  | .negInf => true
  | .nan => false

/-- The comparison `x > 0` of IEEE 754, false when `x` is NaN. -/
def Float64.gtZero : Float64 → Bool
  | .finite q => decide (0 < q)
  | .negZero => false
  | .posInf => true
  | .negInf => false
  | .nan => false

/-- Whether a `float64` is a finite number. -/
def Float64.isFinite : Float64 → Bool
  | .finite _ => true
  | .negZero => true
  | _ => false

/-- The function `math.IsNaN`. -/
def Float64.isNaN : Float64 → Bool
  | .nan => true
  | _ => false

/-- Whether a `float64` is one of the two infinities. -/
def Float64.isInf : Float64 → Bool
  | .posInf => true
  | .negInf => true
  | _ => false

/-- Whether a `float64` is one of the two zeros. -/
def Float64.isZero : Float64 → Bool
  | .finite q => decide (q = 0)
  | .negZero => true
  | _ => false

/-- The sign bit (`math.Signbit`); NaN is taken with a clear sign bit. -/
def Float64.signbit : Float64 → Bool
  | .finite q => decide (q < 0)
  | .negZero => true
  | .posInf => false
  | .negInf => true
  | .nan => false

/-- The exact value of a finite `float64`, 0 for the others. -/
def Float64.value : Float64 → ℚ
  | .finite q => q
  | _ => 0

/-- The zero with the given sign bit. -/
def Float64.signedZero (negative : Bool) : Float64 :=
  if negative then Float64.negZero else Float64.finite 0

/-- The infinity with the given sign bit. -/
def Float64.signedInf (negative : Bool) : Float64 :=
  if negative then Float64.negInf else Float64.posInf

/-- Number of binary digits of `n` added to `k`, counting at most `fuel` digits. -/
def bitLengthAux : Nat → Nat → Nat → Nat
  | 0, _, k => k
  | fuel + 1, n, k => if n = 0 then k else bitLengthAux fuel (n / 2) (k + 1)

/-- Number of binary digits of a natural number. -/
def bitLength (n : Nat) : Nat := bitLengthAux n n 0

/-- The power `2^e` for an integer `e`. -/
def twoPow (e : Int) : ℚ :=
  if 0 ≤ e then (2 : ℚ) ^ e.toNat else 1 / (2 : ℚ) ^ (-e).toNat

/-- The binary exponent of a rational `x ≠ 0`: the `e` with `2^e ≤ |x| < 2^(e+1)`. The
difference of the bit lengths of numerator and denominator is `e` or `e + 1`. -/
def exponent (x : ℚ) : Int :=
  if twoPow ((bitLength x.num.natAbs : Int) - (bitLength x.den : Int)) ≤ |x| then
    (bitLength x.num.natAbs : Int) - (bitLength x.den : Int)
  else
    (bitLength x.num.natAbs : Int) - (bitLength x.den : Int) - 1

/-- The distance between neighbouring float64 values at `x`: 53 significant binary digits for
`|x| ≥ 2^-1022`, the fixed step `2^-1074` below (the subnormal numbers). -/
def ulp (x : ℚ) : ℚ := twoPow (max (exponent x) (-1022) - 52)

/-- The integer nearest to `x`, a tie going to the even one. -/
def roundHalfEven (x : ℚ) : Int :=
  if x - ⌊x⌋ < 1 / 2 then ⌊x⌋
  else if 1 / 2 < x - ⌊x⌋ then ⌊x⌋ + 1
  else if ⌊x⌋ % 2 = 0 then ⌊x⌋
  else ⌊x⌋ + 1

/-- The multiple of `ulp x` nearest to `x`, ties to even: the float64 nearest to `x` when that
is below `2^1024` in magnitude. -/
def roundToFloat (x : ℚ) : ℚ := roundHalfEven (x / ulp x) * ulp x

/-- Rounding of IEEE 754 (to nearest, ties to even) of the exact result `x` of an operation:
a magnitude that rounds to `2^1024` or more overflows to an infinity, a negative result that
rounds to zero is the negative zero. -/
def Float64.round (x : ℚ) : Float64 :=
  if (2 : ℚ) ^ 1024 ≤ |roundToFloat x| then Float64.signedInf (decide (x < 0))
  else if roundToFloat x = 0 ∧ x < 0 then Float64.negZero
  else Float64.finite (roundToFloat x)

/-- The conversion `float64(i)` of an integer. -/
def Float64.ofInt (i : Int) : Float64 := Float64.round (i : ℚ)

/-- The product `a * b` of two `float64` values. -/
def Float64.mul (a b : Float64) : Float64 :=
  if a.isNaN || b.isNaN then Float64.nan
  else if a.isInf || b.isInf then
    (if a.isZero || b.isZero then Float64.nan
     else Float64.signedInf (xor a.signbit b.signbit))
  else if a.isZero || b.isZero then Float64.signedZero (xor a.signbit b.signbit)
  else Float64.round (a.value * b.value)

/-- The quotient `a / b` of two `float64` values. -/
def Float64.div (a b : Float64) : Float64 :=
  if a.isNaN || b.isNaN then Float64.nan
  else if a.isInf then
    (if b.isInf then Float64.nan else Float64.signedInf (xor a.signbit b.signbit))
  else if b.isInf then Float64.signedZero (xor a.signbit b.signbit)
  else if b.isZero then
    (if a.isZero then Float64.nan else Float64.signedInf (xor a.signbit b.signbit))
  else if a.isZero then Float64.signedZero (xor a.signbit b.signbit)
  else Float64.round (a.value / b.value)

/-- The loop `for i := int64(yi); i != 0; i >>= 1` of `math.Pow`, on the variables `a1`, `ae`,
`x1`, `xe`; the value is the pair `(a1, ae)` after the loop. `fuel` bounds the iterations
(one for each binary digit of `i`). -/
def powLoop : Nat → Nat → ℚ → Int → ℚ → Int → ℚ × Int
  | 0, _, a1, ae, _, _ => (a1, ae)
  | fuel + 1, i, a1, ae, x1, xe =>
    if i = 0 then (a1, ae)
    else if xe < -4096 ∨ 4096 < xe then (a1, ae + xe)
    else if roundToFloat (x1 * x1) < 1 / 2 then
      powLoop fuel (i / 2)
        (if i % 2 = 1 then roundToFloat (a1 * x1) else a1) (if i % 2 = 1 then ae + xe else ae)
        (roundToFloat (x1 * x1) + roundToFloat (x1 * x1)) (2 * xe - 1)
    else
      powLoop fuel (i / 2)
        (if i % 2 = 1 then roundToFloat (a1 * x1) else a1) (if i % 2 = 1 then ae + xe else ae)
        (roundToFloat (x1 * x1)) (2 * xe)

/-- The function `math.Ldexp(frac, exp)` for a finite `frac`: the float64 nearest to
`frac * 2^exp`, the exponent being tested for underflow and overflow first, as the source
does. -/
def Ldexp (frac : ℚ) (exp : Int) : Float64 :=
  if frac = 0 then Float64.finite 0
  else if exp + exponent frac < -1075 then Float64.signedZero (decide (frac < 0))
  else if 1023 < exp + exponent frac then Float64.signedInf (decide (frac < 0))
  else Float64.round (frac * twoPow exp)

/-- The function `math.Pow(x, y)` of Go's package `math` (the portable implementation, which
amd64 and arm64 use) for a finite `x` and a `y` that is a whole number and not negative, as
`float64(attempt)` is: the special cases, `Frexp`, the loop of repeated squaring, `Ldexp`. -/
def Pow (x y : ℚ) : Float64 :=
  if y = 0 ∨ x = 1 then Float64.finite 1
  else if y = 1 then Float64.finite x
  else if x = 0 then Float64.finite 0
  else if (2 : ℚ) ^ 63 ≤ y then
    (if x = -1 then Float64.finite 1
     else if |x| < 1 then Float64.finite 0
     else Float64.posInf)
  else
    Ldexp (powLoop 64 ⌊y⌋.toNat 1 0 (x / twoPow (exponent x + 1)) (exponent x + 1)).1
      (powLoop 64 ⌊y⌋.toNat 1 0 (x / twoPow (exponent x + 1)) (exponent x + 1)).2

/-! ## pkg/retry/retry.go -/

/-- The struct `retry.Strategy`; `Multiplier` is a finite float64, given by its exact value. -/
structure Strategy where
  MaxAttempts : Int
  InitialDelay : Int
  MaxDelay : Int
  Multiplier : ℚ

/-- The constant `time.Second` in nanoseconds. -/
def Second : Int := 1000000000

/-- The constant `time.Millisecond` in nanoseconds. -/
def Millisecond : Int := 1000000

/-- The function `retry.DefaultStrategy`. -/
def DefaultStrategy : Strategy :=
  { MaxAttempts := 4
    InitialDelay := 1 * Second
    MaxDelay := 10 * Second
    Multiplier := 2 }

/-- Smallest int64. -/
def minInt64 : Int := -9223372036854775808

/-- Largest int64. -/
def maxInt64 : Int := 9223372036854775807

/-- Truncation of a rational toward zero. -/
def truncate (x : ℚ) : Int := Int.tdiv x.num x.den

/-- The conversion `time.Duration(delay)` of a float64 to int64: the fractional part is
discarded; when the value is NaN, an infinity or a number whose truncated value is not an int64
the Go specification leaves the result implementation-dependent, and `outOfRange` supplies it
(`math.MinInt64` on amd64). -/
def toDuration (outOfRange : Float64 → Int) (x : Float64) : Int :=
  match x with
  | .finite q => if minInt64 ≤ truncate q ∧ truncate q ≤ maxInt64 then truncate q else outOfRange x
  | .negZero => 0
  | _ => outOfRange x

/-- The method `Strategy.calculateDelay`, for the loop counter `attempt ≥ 0`; `roundToFloat` of
the counter is `float64(attempt)`. -/
def Strategy.calculateDelay (outOfRange : Float64 → Int) (s : Strategy) (attempt : Nat) : Int :=
  let delay : Float64 :=
    Float64.mul (Float64.ofInt s.InitialDelay) (Pow s.Multiplier (roundToFloat (attempt : ℚ)))
  let delayDuration := toDuration outOfRange delay
  if delayDuration > s.MaxDelay then s.MaxDelay else delayDuration

/-- What a run of `retry.Do` does, in order. -/
inductive Event
  | invoke (result : Option GoError)
  | wait (delay : Int)
  | cancelled (delay : Int) (err : GoError)
  deriving DecidableEq, Repr

/-- Whether an event is an invocation of the operation. -/
def Event.isInvoke : Event → Bool
  | .invoke _ => true
  | _ => false

/-- The result of a run of `retry.Do`: the returned error (`none` is `nil`), the state of the
operation's captured variables afterwards, and the events of the run. -/
structure DoResult (σ : Type) where
  err : Option GoError
  state : σ
  trace : List Event

/-- Number of invocations of the operation in a run. -/
def DoResult.calls {σ : Type} (r : DoResult σ) : Nat :=
  (r.trace.filter Event.isInvoke).length

/-- The delays of the timers that ran to completion, in order. -/
def waitsOf : List Event → List Int
  | [] => []
  | Event.wait d :: rest => d :: waitsOf rest
  | _ :: rest => waitsOf rest

/-- The error of the last statement of `Do`:
`fmt.Errorf("max retry attempts (%d) exceeded: %w", strategy.MaxAttempts, lastErr)`.
With a nil `lastErr` the verb prints `%!w(<nil>)` and the result wraps nothing. -/
def exhaustedErr (strategy : Strategy) : Option GoError → GoError
  | some lastErr =>
      GoError.wrapError
        ("max retry attempts (" ++ toString strategy.MaxAttempts ++ ") exceeded: " ++ lastErr.Error)
        lastErr
  | none =>
      GoError.leaf
        ("max retry attempts (" ++ toString strategy.MaxAttempts ++ ") exceeded: %!w(<nil>)")

/-- The error `fmt.Errorf("retry cancelled: %w", ctx.Err())`. -/
def cancelledErr (ctxErr : GoError) : GoError :=
  GoError.wrapError ("retry cancelled: " ++ ctxErr.Error) ctxErr

/-- The `for` loop of `retry.Do` from the loop test with counter `attempt`, followed by the
final `return`. `fuel` bounds the number of iterations still to run.

* `fn st` is one call `fn(ctx)` in state `st` of the captured variables;
* `ctx attempt` is the outcome of the `select` of iteration `attempt`: `some e` when
  `ctx.Done()` is received first and `ctx.Err()` is `e`, `none` when the timer fires first. -/
def doLoop {σ : Type} (outOfRange : Float64 → Int) (strategy : Strategy)
    (shouldRetry : GoError → Bool) (fn : σ → Option GoError × σ) (ctx : Nat → Option GoError) :
    Nat → Nat → Option GoError → σ → DoResult σ
  | 0, _, lastErr, st => ⟨some (exhaustedErr strategy lastErr), st, []⟩
  | fuel + 1, attempt, lastErr, st =>
    if (attempt : Int) < strategy.MaxAttempts then
      match fn st with
      | (none, st1) => ⟨none, st1, [Event.invoke none]⟩
      | (some err, st1) =>
        if !shouldRetry err then
          ⟨some err, st1, [Event.invoke (some err)]⟩
        else if (attempt : Int) = strategy.MaxAttempts - 1 then
          ⟨some (exhaustedErr strategy (some err)), st1, [Event.invoke (some err)]⟩
        else
          let delay := strategy.calculateDelay outOfRange attempt
          match ctx attempt with
          | some ctxErr =>
            ⟨some (cancelledErr ctxErr), st1,
              [Event.invoke (some err), Event.cancelled delay ctxErr]⟩
          | none =>
            let r := doLoop outOfRange strategy shouldRetry fn ctx fuel (attempt + 1) (some err) st1
            ⟨r.err, r.state, Event.invoke (some err) :: Event.wait delay :: r.trace⟩
    else
      ⟨some (exhaustedErr strategy lastErr), st, []⟩

/-- The function `retry.Do`. The loop runs at most `MaxAttempts` iterations, which is the fuel
given to `doLoop`; `doLoop_fuel` shows that more fuel changes nothing. -/
def Do {σ : Type} (outOfRange : Float64 → Int) (ctx : Nat → Option GoError) (strategy : Strategy)
    (shouldRetry : GoError → Bool) (fn : σ → Option GoError × σ) (st : σ) : DoResult σ :=
  doLoop outOfRange strategy shouldRetry fn ctx strategy.MaxAttempts.toNat 0 none st

/-- State of the captured variables after `i` invocations of `fn` from `st`. -/
def stateAfter {σ : Type} (fn : σ → Option GoError × σ) (st : σ) : Nat → σ
  | 0 => st
  | i + 1 => stateAfter fn (fn st).2 i

/-- What the invocation number `i` (from zero) of `fn` returns when the first is made in `st`. -/
def outcome {σ : Type} (fn : σ → Option GoError × σ) (st : σ) (i : Nat) : Option GoError :=
  (fn (stateAfter fn st i)).1

/-- The events of `j` consecutive failed attempts that are each followed by a completed wait,
the first of them having loop counter `attempt` and starting in state `st`. -/
def retryTrace {σ : Type} (outOfRange : Float64 → Int) (strategy : Strategy)
    (fn : σ → Option GoError × σ) : σ → Nat → Nat → List Event
  | _, _, 0 => []
  | st, attempt, j + 1 =>
    Event.invoke (fn st).1 :: Event.wait (strategy.calculateDelay outOfRange attempt) ::
      retryTrace outOfRange strategy fn (fn st).2 (attempt + 1) j

/-! ## pkg/retry/retry_test.go: the inputs of the tests -/

/-- The function `context.Background`: a context that is never done. -/
def Background : Nat → Option GoError := fun _ => none

/-- The error `context.Canceled`. -/
def ctxCanceled : GoError := GoError.leaf "context canceled"

/-- A context cancelled while `Do` waits after attempt number `j` (from zero): the selects
before that wait see the timer first, that select and the later ones see `ctx.Done()`. -/
def cancelledDuringWait (j : Nat) : Nat → Option GoError :=
  fun i => if j ≤ i then some ctxCanceled else none

/-- Conversion of an out-of-range float64 on amd64: the result is `math.MinInt64`. -/
def amd64OutOfRange : Float64 → Int := fun _ => minInt64

/-- The strategy of `TestDo_SuccessAfterRetries` and `TestDo_MaxRetriesExceeded`. -/
def testStrategy3 : Strategy :=
  { MaxAttempts := 3
    InitialDelay := 10 * Millisecond
    MaxDelay := 100 * Millisecond
    Multiplier := 2 }

/-- The strategy of `TestDo_ContextCancellation`. -/
def testStrategy5 : Strategy :=
  { MaxAttempts := 5
    InitialDelay := 100 * Millisecond
    MaxDelay := 1 * Second
    Multiplier := 2 }

/-- The strategy of `TestStrategy_calculateDelay` (it leaves `MaxAttempts` zero). -/
def testStrategyDelay : Strategy :=
  { MaxAttempts := 0
    InitialDelay := 1 * Second
    MaxDelay := 10 * Second
    Multiplier := 2 }

/-- A strategy whose product `InitialDelay * Multiplier^1` is not a whole number of
nanoseconds: 1ns times 1.5. -/
def fractionalStrategy : Strategy :=
  { MaxAttempts := 4
    InitialDelay := 1
    MaxDelay := 10
    Multiplier := 3 / 2 }

/-- A strategy whose float64 product is rounded: 1s times the float64 nearest to 1.2, which is
5404319552844595 / 2^52, a little below 1.2. -/
def roundedStrategy : Strategy :=
  { MaxAttempts := 4
    InitialDelay := 1 * Second
    MaxDelay := 10 * Second
    Multiplier := 5404319552844595 / 4503599627370496 }

/-- The retry predicate of the tests, a function literal returning `err == target`. -/
def isErr (target : GoError) : GoError → Bool :=
  fun err => decide (err = target)

/-- The operation `callCount++; return err` of the tests; the state is `callCount`. -/
def alwaysFail (err : GoError) : Nat → Option GoError × Nat :=
  fun callCount => (some err, callCount + 1)

/-- The operation of `TestDo_SuccessAfterRetries`:
`callCount++; if callCount < 3 { return testErr }; return nil`. -/
def failTwice (testErr : GoError) : Nat → Option GoError × Nat :=
  fun callCount => if callCount + 1 < 3 then (some testErr, callCount + 1) else (none, callCount + 1)

/-! ## internal/domain/currency.go and internal/domain/conversion.go -/

/-- The struct `domain.Currency`. -/
structure Currency where
  Symbol : String
  deriving DecidableEq, Repr

/-- The two functions of package `strings` that `NewCurrency` calls. -/
structure StringsPkg where
  TrimSpace : String → String
  ToUpper : String → String

/-- The function `domain.NewCurrency`; `len` is the length in bytes. -/
def NewCurrency (strs : StringsPkg) (symbol : String) : Option Currency × Option GoError :=
  let symbol := strs.ToUpper (strs.TrimSpace symbol)
  if symbol = "" then
    (none, some (GoError.domain DomainError.ErrInvalidCurrency))
  else if symbol.utf8ByteSize < 2 ∨ symbol.utf8ByteSize > 10 then
    (none, some (GoError.domain DomainError.ErrInvalidCurrency))
  else
    (some { Symbol := symbol }, none)

/-- A value of `time.Time`. -/
structure Time where
  unixNano : Int
  deriving DecidableEq, Repr

/-- The struct `domain.ConversionResult`; the two currencies are pointers. -/
structure ConversionResult where
  OriginalAmount : Float64
  ConvertedAmount : Float64
  FromCurrency : Option Currency
  ToCurrency : Option Currency
  ExchangeRate : Float64
  Timestamp : Time
  LastUpdated : Time
  deriving DecidableEq

/-- The function `domain.NewConversionResult`. -/
def NewConversionResult (originalAmount convertedAmount exchangeRate : Float64)
    (fromCur toCur : Option Currency) (timestamp lastUpdated : Time) : ConversionResult :=
  { OriginalAmount := originalAmount
    ConvertedAmount := convertedAmount
    FromCurrency := fromCur
    ToCurrency := toCur
    ExchangeRate := exchangeRate
    Timestamp := timestamp
    LastUpdated := lastUpdated }

/-! ## internal/adapter/repository/coinmarketcap.go -/

/-- The struct `CoinMarketCapRepository`. The behaviour of its `httpClient` is given by the
world passed to `GetConversionPrice`. -/
structure CoinMarketCapRepository where
  apiKey : String
  baseURL : String
  retry : Strategy

/-- The function `NewCoinMarketCapRepository`. -/
def NewCoinMarketCapRepository (apiKey baseURL : String) : CoinMarketCapRepository :=
  { apiKey := apiKey
    baseURL := baseURL
    retry := DefaultStrategy }

/-- The struct `StatusObject`. -/
structure StatusObject where
  Timestamp : Time
  ErrorCode : Int
  ErrorMessage : Option String
  Elapsed : Int
  CreditCount : Int

/-- The struct `APIResponse`; `Data` is the type of the values an `interface{}` decoded from
JSON can hold. -/
structure APIResponse (Data : Type) where
  Status : StatusObject
  Data : Data

/-- The struct `QuoteDetail`. -/
structure QuoteDetail where
  Price : Float64
  LastUpdated : Time
  deriving DecidableEq

/-- The struct `PriceConversionData`; the map `Quote` is an association list, looked up by key
(a nil or empty map is the empty list). -/
structure PriceConversionData where
  Symbol : String
  ID : Int
  Name : String
  Amount : Float64
  LastUpdated : Time
  Quote : List (String × QuoteDetail)

/-- The calls of package `encoding/json` made by the repository, each with its error result. -/
structure JSONPkg (Data : Type) where
  UnmarshalAPIResponse : String → Except GoError (APIResponse Data)
  Marshal : Data → Except GoError String
  UnmarshalPriceConversionData : String → Except GoError PriceConversionData

/-- What the network does with the request of one call of `fetchConversionPrice`:
`http.NewRequestWithContext` fails, `httpClient.Do` fails, `io.ReadAll` fails, or a response
with a status code and a body is read. -/
inductive Exchange
  | newRequestFailed (err : GoError)
  | sendFailed (err : GoError)
  | readFailed (statusCode : Int) (err : GoError)
  | response (statusCode : Int) (body : String)

/-- What the outside world supplies to one call of `fetchConversionPrice`: the HTTP exchange and
the value of `time.Now()`. -/
structure Attempt where
  exchange : Exchange
  now : Time

/-- The constant `http.StatusOK`. -/
def StatusOK : Int := 200

/-- The constant `http.StatusBadRequest`. -/
def StatusBadRequest : Int := 400

/-- The constant `http.StatusUnauthorized`. -/
def StatusUnauthorized : Int := 401

/-- The constant `http.StatusForbidden`. -/
def StatusForbidden : Int := 403

/-- The constant `http.StatusTooManyRequests`. -/
def StatusTooManyRequests : Int := 429

/-- The constant `http.StatusInternalServerError`. -/
def StatusInternalServerError : Int := 500

/-- The constant `http.StatusBadGateway`. -/
def StatusBadGateway : Int := 502

/-- The constant `http.StatusServiceUnavailable`. -/
def StatusServiceUnavailable : Int := 503

/-- The constant `http.StatusGatewayTimeout`. -/
def StatusGatewayTimeout : Int := 504

/-- The error `fmt.Errorf("%w: " + detail, d)` for a domain error `d`. -/
def wrapDomain (d : DomainError) (detail : String) : GoError :=
  GoError.wrapError (d.text ++ ": " ++ detail) (GoError.domain d)

/-- The method `handleHTTPError`. -/
def handleHTTPError (statusCode : Int) (body : String) : GoError :=
  if statusCode = StatusBadRequest then
    wrapDomain DomainError.ErrInvalidCurrency body
  else if statusCode = StatusUnauthorized then
    GoError.domain DomainError.ErrUnauthorized
  else if statusCode = StatusForbidden then
    GoError.domain DomainError.ErrForbidden
  else if statusCode = StatusTooManyRequests then
    GoError.domain DomainError.ErrRateLimitExceeded
  else if statusCode = StatusInternalServerError ∨ statusCode = StatusBadGateway ∨
      statusCode = StatusServiceUnavailable ∨ statusCode = StatusGatewayTimeout then
    GoError.domain DomainError.ErrServerError
  else
    wrapDomain DomainError.ErrAPIFailure ("HTTP " ++ toString statusCode)

/-- The method `handleAPIError`. -/
def handleAPIError (errorCode : Int) (errorMsg : Option String) : GoError :=
  let msg := match errorMsg with
    | some m => m
    | none => ""
  if errorCode = 1001 ∨ errorCode = 1002 then
    GoError.domain DomainError.ErrUnauthorized
  else if errorCode = 1005 ∨ errorCode = 1006 ∨ errorCode = 1007 then
    GoError.domain DomainError.ErrForbidden
  else if errorCode = 1008 ∨ errorCode = 1009 ∨ errorCode = 1010 ∨ errorCode = 1011 then
    GoError.domain DomainError.ErrRateLimitExceeded
  else
    wrapDomain DomainError.ErrAPIFailure ("code " ++ toString errorCode ++ " - " ++ msg)

/-- The method `shouldRetry`: `==` against three package-level error values. -/
def shouldRetry (err : GoError) : Bool :=
  decide (err = GoError.domain DomainError.ErrRateLimitExceeded) ||
  decide (err = GoError.domain DomainError.ErrServerError) ||
  decide (err = GoError.domain DomainError.ErrNetworkFailure)

/-- The method `parseConversionData`. -/
def parseConversionData {Data : Type} (json : JSONPkg Data) (strs : StringsPkg) (now : Time)
    (data : Data) (amount : Float64) (fromSym toSym : String) :
    Option ConversionResult × Option GoError :=
  match json.Marshal data with
  | .error _ => (none, some (wrapDomain DomainError.ErrInvalidResponse "failed to marshal data"))
  | .ok dataBytes =>
    match json.UnmarshalPriceConversionData dataBytes with
    | .error _ =>
      (none, some (wrapDomain DomainError.ErrInvalidResponse "failed to parse conversion data"))
    | .ok convData =>
      match convData.Quote.lookup toSym with
      | none =>
        (none, some (wrapDomain DomainError.ErrInvalidResponse ("no quote found for " ++ toSym)))
      | some quoteDetail =>
        match NewCurrency strs fromSym with
        | (_, some err) => (none, some err)
        | (fromCurrency, none) =>
          match NewCurrency strs toSym with
          | (_, some err) => (none, some err)
          | (toCurrency, none) =>
            let convertedAmount := quoteDetail.Price
            let exchangeRate := Float64.div convertedAmount amount
            (some (NewConversionResult amount convertedAmount exchangeRate fromCurrency
              toCurrency now quoteDetail.LastUpdated), none)

/-- The method `fetchConversionPrice`, given what the network does with its request. -/
def fetchConversionPrice {Data : Type} (json : JSONPkg Data) (strs : StringsPkg)
    (att : Attempt) (amount : Float64) (fromSym toSym : String) :
    Option ConversionResult × Option GoError :=
  match att.exchange with
  | .newRequestFailed err => (none, some (wrapDomain DomainError.ErrAPIFailure err.Error))
  | .sendFailed err => (none, some (wrapDomain DomainError.ErrNetworkFailure err.Error))
  | .readFailed _ _ =>
    (none, some (wrapDomain DomainError.ErrAPIFailure "failed to read response body"))
  | .response statusCode body =>
    if statusCode ≠ StatusOK then
      (none, some (handleHTTPError statusCode body))
    else
      match json.UnmarshalAPIResponse body with
      | .error err => (none, some (wrapDomain DomainError.ErrInvalidResponse err.Error))
      | .ok apiResp =>
        if apiResp.Status.ErrorCode ≠ 0 then
          (none, some (handleAPIError apiResp.Status.ErrorCode apiResp.Status.ErrorMessage))
        else
          parseConversionData json strs att.now apiResp.Data amount fromSym toSym

/-- The variables captured by the closure of `GetConversionPrice`, with the state `world` of
the outside world. -/
structure FetchState (ω : Type) where
  world : ω
  result : Option ConversionResult
  lastErr : Option GoError

/-- The closure passed to `retry.Do` by `GetConversionPrice`:
`result, err = c.fetchConversionPrice(...); lastErr = err; return err`. -/
def fetchClosure {Data ω : Type} (json : JSONPkg Data) (strs : StringsPkg)
    (net : ω → Attempt × ω) (amount : Float64) (fromSym toSym : String) :
    FetchState ω → Option GoError × FetchState ω :=
  fun st =>
    let r := fetchConversionPrice json strs (net st.world).1 amount fromSym toSym
    (r.2, { world := (net st.world).2, result := r.1, lastErr := r.2 })

/-- The call `retry.Do(ctx, c.retry, c.shouldRetry, func ...)` made by `GetConversionPrice`,
with `result` and `lastErr` nil at the start. -/
def getConversionPriceDo {Data ω : Type} (outOfRange : Float64 → Int) (json : JSONPkg Data)
    (strs : StringsPkg) (c : CoinMarketCapRepository) (net : ω → Attempt × ω)
    (ctx : Nat → Option GoError) (w : ω) (amount : Float64) (fromSym toSym : String) :
    DoResult (FetchState ω) :=
  Do outOfRange ctx c.retry shouldRetry (fetchClosure json strs net amount fromSym toSym)
    { world := w, result := none, lastErr := none }

/-- The method `GetConversionPrice`. -/
def GetConversionPrice {Data ω : Type} (outOfRange : Float64 → Int) (json : JSONPkg Data)
    (strs : StringsPkg) (c : CoinMarketCapRepository) (net : ω → Attempt × ω)
    (ctx : Nat → Option GoError) (w : ω) (amount : Float64) (fromSym toSym : String) :
    Option ConversionResult × Option GoError :=
  let r := getConversionPriceDo outOfRange json strs c net ctx w amount fromSym toSym
  if r.err ≠ none then (none, r.state.lastErr) else (r.state.result, none)

/-- The domain error values an error matches under `errors.Is`. -/
def kindsOf (err : GoError) : List DomainError :=
  [DomainError.ErrInvalidCurrency, DomainError.ErrInvalidAmount, DomainError.ErrAPIKeyMissing,
   DomainError.ErrAPIFailure, DomainError.ErrUnauthorized, DomainError.ErrForbidden,
   DomainError.ErrRateLimitExceeded, DomainError.ErrServerError, DomainError.ErrNetworkFailure,
   DomainError.ErrInvalidResponse].filter (fun d => err.Is (GoError.domain d))

/-- Whether an error has one of the two forms of the errors that `fetchConversionPrice`
returns: a package-level value of `internal/domain/errors.go` other than `ErrNetworkFailure`, or
an error built by `fmt.Errorf` with a package-level value other than `ErrRateLimitExceeded` and
`ErrServerError` as its `%w` operand. -/
def isFetchError : GoError → Bool
  | .domain d => decide (d ≠ DomainError.ErrNetworkFailure)
  | .wrapError _ (.domain d) =>
    decide (d ≠ DomainError.ErrRateLimitExceeded ∧ d ≠ DomainError.ErrServerError)
  | _ => false

/-! ## The policy table of the specification, section 4.3 -/

/-- The rows of the policy table for HTTP status codes: status, classified kind, retryable. -/
def httpPolicyTable : List (Int × (DomainError × Bool)) :=
  [(400, (DomainError.ErrInvalidCurrency, false)),
   (401, (DomainError.ErrUnauthorized, false)),
   (403, (DomainError.ErrForbidden, false)),
   (429, (DomainError.ErrRateLimitExceeded, true)),
   (500, (DomainError.ErrServerError, true)),
   (502, (DomainError.ErrServerError, true)),
   (503, (DomainError.ErrServerError, true)),
   (504, (DomainError.ErrServerError, true))]

/-- The policy table on a status code: its row, or "any other status: APIFailure, no". -/
def httpPolicy (statusCode : Int) : DomainError × Bool :=
  (httpPolicyTable.lookup statusCode).getD (DomainError.ErrAPIFailure, false)

/-- The rows of the policy table for provider error codes: code, classified kind, retryable. -/
def providerPolicyTable : List (Int × (DomainError × Bool)) :=
  [(1001, (DomainError.ErrUnauthorized, false)),
   (1002, (DomainError.ErrUnauthorized, false)),
   (1005, (DomainError.ErrForbidden, false)),
   (1006, (DomainError.ErrForbidden, false)),
   (1007, (DomainError.ErrForbidden, false)),
   (1008, (DomainError.ErrRateLimitExceeded, true)),
   (1009, (DomainError.ErrRateLimitExceeded, true)),
   (1010, (DomainError.ErrRateLimitExceeded, true)),
   (1011, (DomainError.ErrRateLimitExceeded, true))]

/-- The policy table on a provider error code: its row, or "every other code: APIFailure,
no". -/
def providerPolicy (errorCode : Int) : DomainError × Bool :=
  (providerPolicyTable.lookup errorCode).getD (DomainError.ErrAPIFailure, false)

/-! ## Inputs used to evaluate the repository -/

/-- A JSON package whose every call fails; enough where the body is never decoded. -/
def failingJSON : JSONPkg Unit :=
  { UnmarshalAPIResponse := fun _ => .error (GoError.leaf "unexpected end of JSON input")
    Marshal := fun _ => .error (GoError.leaf "json: unsupported value")
    UnmarshalPriceConversionData := fun _ => .error (GoError.leaf "unexpected end of JSON input") }

/-- The functions of package `strings` restricted to ASCII. -/
def asciiStrings : StringsPkg :=
  { TrimSpace := String.trim
    ToUpper := String.toUpper }

/-- A network on which every exchange is the same; the state of the world counts them. -/
def constantNet (x : Exchange) : Nat → Attempt × Nat :=
  fun n => ({ exchange := x, now := { unixNano := 0 } }, n + 1)


/-! ## Further inputs and descriptions of runs -/

/-- A context already cancelled when `Do` is entered: `ctx.Done()` is ready at every select and
is the channel received. -/
def cancelledOnEntry : Nat → Option GoError := fun _ => some ctxCanceled

/-- The duration of the timer of a select, for the two events that come from a select. -/
def Event.timer : Event → Option Int
  | .invoke _ => none
  | .wait d => some d
  | .cancelled d _ => some d

/-- The events of a run without cancellation whose invocations return `results`, the first of
them having loop counter `attempt`: a wait between consecutive invocations, none before the
first and none after the last. -/
def alternating (outOfRange : Float64 → Int) (strategy : Strategy) :
    Nat → List (Option GoError) → List Event
  | _, [] => []
  | _, [r] => [Event.invoke r]
  | attempt, r :: r1 :: rest =>
    Event.invoke r :: Event.wait (strategy.calculateDelay outOfRange attempt) ::
      alternating outOfRange strategy (attempt + 1) (r1 :: rest)

/-- The functions of package `strings` on symbols that are already trimmed and upper-case: both
leave such a symbol as it is. -/
def identityStrings : StringsPkg :=
  { TrimSpace := id
    ToUpper := id }

/-- A data block for one BTC with a single quote, keyed `USD`, of 50000. -/
def sampleData : PriceConversionData :=
  { Symbol := "BTC"
    ID := 1
    Name := "Bitcoin"
    Amount := Float64.finite 1
    LastUpdated := { unixNano := 1700000000 }
    Quote :=
      [("USD", { Price := Float64.finite 50000, LastUpdated := { unixNano := 1700000000 } })] }

/-- An envelope around `sampleData` with the given status error code and message. -/
def sampleEnvelope (errorCode : Int) (errorMessage : Option String) :
    APIResponse PriceConversionData :=
  { Status :=
      { Timestamp := { unixNano := 1700000001 }
        ErrorCode := errorCode
        ErrorMessage := errorMessage
        Elapsed := 10
        CreditCount := 1 }
    Data := sampleData }

/-- A JSON package for bodies that decode to the envelope `resp`: the envelope decodes to
`resp`, and its data block, encoded and decoded again, to `resp.Data`. -/
def decodesTo (resp : APIResponse PriceConversionData) : JSONPkg PriceConversionData :=
  { UnmarshalAPIResponse := fun _ => .ok resp
    Marshal := fun _ => .ok ""
    UnmarshalPriceConversionData := fun _ => .ok resp.Data }

/-- The result that `parseConversionData` builds from `sampleData` for one BTC in USD when the
clock shows `now`. -/
def sampleResult (now : Time) : ConversionResult :=
  NewConversionResult (Float64.finite 1) (Float64.finite 50000)
    (Float64.div (Float64.finite 50000) (Float64.finite 1)) (some { Symbol := "BTC" })
    (some { Symbol := "USD" }) now { unixNano := 1700000000 }

/-- The result that `parseConversionData` builds from `sampleData` for three BTC in USD when
the clock shows `now`. -/
def threeBTC (now : Time) : ConversionResult :=
  NewConversionResult (Float64.finite 3) (Float64.finite 50000)
    (Float64.div (Float64.finite 50000) (Float64.finite 3)) (some { Symbol := "BTC" })
    (some { Symbol := "USD" }) now { unixNano := 1700000000 }

/-- An envelope with status error code 0 whose single quote, keyed `USD`, has the price
`2^-1074`, the smallest float64 above zero. -/
def tinyEnvelope : APIResponse PriceConversionData :=
  { Status :=
      { Timestamp := { unixNano := 1700000001 }
        ErrorCode := 0
        ErrorMessage := none
        Elapsed := 10
        CreditCount := 1 }
    Data :=
      { Symbol := "BTC"
        ID := 1
        Name := "Bitcoin"
        Amount := Float64.finite (2 ^ 1023)
        LastUpdated := { unixNano := 1700000000 }
        Quote :=
          [("USD", { Price := Float64.finite (1 / 2 ^ 1074),
                     LastUpdated := { unixNano := 1700000000 } })] } }

/-! ## internal/domain/currency.go and conversion.go: the remaining functions -/

/-- The method `Currency.String`. -/
def Currency.String (c : Currency) : String := c.Symbol

/-- The method `Currency.Equals`; `other` is a pointer, `none` is nil. -/
def Currency.Equals (c : Currency) (other : Option Currency) : Bool :=
  match other with
  | none => false
  | some o => decide (c.Symbol = o.Symbol)

/-- The struct `domain.ConversionRequest`; the two currencies are pointers. -/
structure ConversionRequest where
  Amount : Float64
  FromCurrency : Option Currency
  ToCurrency : Option Currency
  deriving DecidableEq

/-- The function `domain.NewConversionRequest`. -/
def NewConversionRequest (amount : Float64) (fromCur toCur : Option Currency) :
    Option ConversionRequest × Option GoError :=
  if amount.leZero then
    (none, some (GoError.domain DomainError.ErrInvalidAmount))
  else if fromCur = none ∨ toCur = none then
    (none, some (GoError.domain DomainError.ErrInvalidCurrency))
  else
    (some { Amount := amount, FromCurrency := fromCur, ToCurrency := toCur }, none)

/-! ## internal/usecase/convert_currency.go -/

/-- A value of the interface `domain.PriceRepository` with internal state `ρ`: the method
`GetConversionPrice(ctx, amount, from, to)`. -/
abbrev PriceRepository (ρ : Type) : Type :=
  ρ → Float64 → String → String → (Option ConversionResult × Option GoError) × ρ

/-- What a call of `Execute` does: the two values it returns, the state of the repository
afterwards, and the arguments of the calls of `GetConversionPrice` it made, in order. -/
structure ExecuteResult (ρ : Type) where
  result : Option ConversionResult
  err : Option GoError
  repoState : ρ
  calls : List (Float64 × String × String)

/-- The method `ConvertCurrencyUseCase.Execute`. The value is `none` when the call panics on a
nil pointer (`request.Amount` or `request.FromCurrency.String()` with a nil pointer). -/
def Execute {ρ : Type} (strs : StringsPkg) (priceRepo : PriceRepository ρ) (st : ρ)
    (amount : Float64) (fromSymbol toSymbol : String) : Option (ExecuteResult ρ) :=
  match NewCurrency strs fromSymbol with
  | (_, some err) => some ⟨none, some err, st, []⟩
  | (fromCurrency, none) =>
    match NewCurrency strs toSymbol with
    | (_, some err) => some ⟨none, some err, st, []⟩
    | (toCurrency, none) =>
      match NewConversionRequest amount fromCurrency toCurrency with
      | (_, some err) => some ⟨none, some err, st, []⟩
      | (none, none) => none
      | (some request, none) =>
        match request.FromCurrency, request.ToCurrency with
        | some f, some t =>
          match priceRepo st request.Amount f.String t.String with
          | ((_, some err), st1) =>
            some ⟨none, some err, st1, [(request.Amount, f.String, t.String)]⟩
          | ((result, none), st1) =>
            some ⟨result, none, st1, [(request.Amount, f.String, t.String)]⟩
        | _, _ => none

/-! ## internal/adapter/cli/parser.go -/

/-- The struct `cli.Args`. -/
structure Args where
  Amount : Float64
  FromCurrency : String
  ToCurrency : String
  Verbose : Bool
  ShowHelp : Bool
  ShowVersion : Bool
  deriving DecidableEq

/-- The library calls made by `ParseArgs`.

* `Parse args` is `fs.Parse(args)` on a flag set with the boolean flags `verbose`, `help` and
  `version`: an error, or the values of the three flags (in that order) with `fs.Args()`;
* `ParseFloat s` is `strconv.ParseFloat(s, 64)`;
* `FormatF x` is the text of `x` under the verb `%f`. -/
structure CliPkg where
  Parse : List String → Except GoError ((Bool × Bool × Bool) × List String)
  ParseFloat : String → Except GoError Float64
  FormatF : Float64 → String

/-- The function `cli.ParseArgs`. The zero value of `Args` has amount 0 and empty strings. -/
def ParseArgs (lib : CliPkg) (args : List String) : Option Args × Option GoError :=
  match lib.Parse args with
  | .error err => (none, some err)
  | .ok ((verbose, help, version), remaining) =>
    let result : Args :=
      { Amount := Float64.finite 0
        FromCurrency := ""
        ToCurrency := ""
        Verbose := verbose
        ShowHelp := help
        ShowVersion := version }
    if result.ShowHelp || result.ShowVersion then
      (some result, none)
    else if remaining.length ≠ 3 then
      (none, some (GoError.leaf
        ("invalid number of arguments: expected 3 (amount, from_currency, to_currency), got " ++
          toString remaining.length)))
    else
      match lib.ParseFloat (remaining.getD 0 "") with
      | .error _ =>
        (none, some (GoError.leaf
          ("invalid amount '" ++ remaining.getD 0 "" ++ "': must be a number")))
      | .ok amount =>
        if amount.leZero then
          (none, some (GoError.leaf
            ("invalid amount '" ++ lib.FormatF amount ++ "': must be greater than zero")))
        else
          (some { result with
            Amount := amount
            FromCurrency := remaining.getD 1 ""
            ToCurrency := remaining.getD 2 "" }, none)

/-! ## Inputs used to evaluate the validation layer -/

/-- The currency `BTC`, as `NewCurrency("BTC")` returns it. -/
def btc : Currency := { Symbol := "BTC" }

/-- The currency `USD`, as `NewCurrency("USD")` returns it. -/
def usd : Currency := { Symbol := "USD" }

/-- The mock repository of `TestConvertCurrencyUseCase_Execute` set up to return `ret`; its
state counts the calls. -/
def mockRepo (ret : Option ConversionResult × Option GoError) : PriceRepository Nat :=
  fun n _ _ _ => (ret, n + 1)

/-- The library calls of `ParseArgs` on the argument lists used here: lists that carry no flag,
so that all arguments remain, together with the values of `strconv.ParseFloat` on the texts
`100`, `123.45`, `0`, `NaN` and `+Inf`, an error on any other text (as on `abc`), and the text
of 0 under `%f`, the only amount that is formatted here. -/
def sampleCli : CliPkg :=
  { Parse := fun args => .ok ((false, false, false), args)
    ParseFloat := fun s =>
      if s = "100" then .ok (Float64.finite 100)
      else if s = "123.45" then .ok (Float64.round (12345 / 100))
      else if s = "0" then .ok (Float64.finite 0)
      else if s = "NaN" then .ok Float64.nan
      else if s = "+Inf" then .ok Float64.posInf
      else .error (GoError.leaf "strconv.ParseFloat: parsing: invalid syntax")
    FormatF := fun _ => "0.000000" }

/-- The values of `strings.TrimSpace` and `strings.ToUpper` on the symbols of
`TestNewCurrency` (`  USD  `, `eth`, `btc`, `usd`); the other symbols used here are trimmed and
upper-case already and are left as they are. -/
def testStrings : StringsPkg :=
  { TrimSpace := fun s => if s = "  USD  " then "USD" else if s = " btc " then "btc" else s
    ToUpper := fun s =>
      if s = "eth" then "ETH" else if s = "btc" then "BTC" else if s = "usd" then "USD" else s }

/-! ## Theorems -/

/-- No binary digit is counted for zero. -/
theorem bitLengthAux_zero (fuel k : Nat) : bitLengthAux fuel 0 k = k := by
  cases fuel <;> simp [bitLengthAux]

/-- The count `j` of binary digits of `n` satisfies `n < 2^j`, and `2^j ≤ 2 * n` when
`n ≠ 0`. -/
theorem bitLengthAux_spec : ∀ (fuel n k : Nat), n ≤ fuel →
    ∃ j, bitLengthAux fuel n k = k + j ∧ n < 2 ^ j ∧ (n ≠ 0 → 2 ^ j ≤ 2 * n) := by
  intro fuel
  induction fuel with
  | zero =>
    intro n k hn
    have h0 : n = 0 := by omega
    subst h0
    exact ⟨0, by simp [bitLengthAux], by simp, fun h => absurd rfl h⟩
  | succ f ih =>
    intro n k hn
    by_cases h0 : n = 0
    · subst h0
      exact ⟨0, by simp [bitLengthAux], by simp, fun h => absurd rfl h⟩
    · have hunfold : bitLengthAux (f + 1) n k = bitLengthAux f (n / 2) (k + 1) := by
        simp [bitLengthAux, h0]
      obtain ⟨j, hj, h1, h2⟩ := ih (n / 2) (k + 1) (by omega)
      refine ⟨j + 1, by rw [hunfold, hj]; omega, ?_, ?_⟩
      · rw [pow_succ]
        omega
      · intro _
        by_cases hh : n / 2 = 0
        · have hj0 : j = 0 := by
            rw [hh, bitLengthAux_zero] at hj
            omega
          subst hj0
          omega
        · have := h2 hh
          rw [pow_succ]
          omega

/-- The bit length `j` of `n` satisfies `n < 2^j`, and `2^j ≤ 2 * n` when `n ≠ 0`. -/
theorem bitLength_spec (n : Nat) :
    n < 2 ^ bitLength n ∧ (n ≠ 0 → 2 ^ bitLength n ≤ 2 * n) := by
  obtain ⟨j, hj, h1, h2⟩ := bitLengthAux_spec n n 0 (le_refl n)
  have hb : bitLength n = j := by
    unfold bitLength
    rw [hj, Nat.zero_add]
  rw [hb]
  exact ⟨h1, h2⟩

/-- The function `twoPow` is the integer power of 2. -/
theorem twoPow_eq (e : Int) : twoPow e = (2 : ℚ) ^ e := by
  unfold twoPow
  split_ifs with h
  · conv_rhs => rw [← Int.toNat_of_nonneg h]
    rw [zpow_natCast]
  · have h1 : 0 ≤ -e := by omega
    have h2 : e = -((-e).toNat : Int) := by rw [Int.toNat_of_nonneg h1]; ring
    conv_rhs => rw [h2]
    rw [zpow_neg, zpow_natCast, one_div]

/-- The binary exponent of a nonzero rational: `2^e ≤ |x| < 2^(e+1)`. -/
theorem exponent_spec (x : ℚ) (hx : x ≠ 0) :
    (2 : ℚ) ^ exponent x ≤ |x| ∧ |x| < (2 : ℚ) ^ (exponent x + 1) := by
  have hnum : x.num.natAbs ≠ 0 := by
    simpa using Rat.num_ne_zero.mpr hx
  obtain ⟨hn1, hn2⟩ := bitLength_spec x.num.natAbs
  have hn2 := hn2 hnum
  obtain ⟨hd1, hd2⟩ := bitLength_spec x.den
  have hd2 := hd2 x.den_nz
  have habs : |x| = (x.num.natAbs : ℚ) / (x.den : ℚ) := by
    conv_lhs => rw [← Rat.num_div_den x]
    rw [abs_div, Nat.abs_cast, Nat.cast_natAbs, Int.cast_abs]
  have hdpos : (0 : ℚ) < (x.den : ℚ) := by exact_mod_cast x.den_pos
  have h2 : (0 : ℚ) < 2 := by norm_num
  have hn1q : (x.num.natAbs : ℚ) < (2 : ℚ) ^ (bitLength x.num.natAbs) := by exact_mod_cast hn1
  have hn2q : (2 : ℚ) ^ (bitLength x.num.natAbs) ≤ 2 * (x.num.natAbs : ℚ) := by
    exact_mod_cast hn2
  have hd1q : (x.den : ℚ) < (2 : ℚ) ^ (bitLength x.den) := by exact_mod_cast hd1
  have hd2q : (2 : ℚ) ^ (bitLength x.den) ≤ 2 * (x.den : ℚ) := by exact_mod_cast hd2
  have hpn : (0 : ℚ) < (2 : ℚ) ^ (bitLength x.num.natAbs) := by positivity
  have hpd : (0 : ℚ) < (2 : ℚ) ^ (bitLength x.den) := by positivity
  have hsub : (2 : ℚ) ^ ((bitLength x.num.natAbs : Int) - (bitLength x.den : Int)) =
      (2 : ℚ) ^ (bitLength x.num.natAbs) / (2 : ℚ) ^ (bitLength x.den) := by
    rw [zpow_sub₀ (by norm_num : (2 : ℚ) ≠ 0), zpow_natCast, zpow_natCast]
  unfold exponent
  rw [twoPow_eq]
  split_ifs with h
  · refine ⟨h, ?_⟩
    rw [zpow_add_one₀ (by norm_num : (2 : ℚ) ≠ 0), hsub, habs, div_lt_iff₀ hdpos]
    have : (2 : ℚ) ^ (bitLength x.num.natAbs) / (2 : ℚ) ^ (bitLength x.den) * 2 * (x.den : ℚ) =
        (2 : ℚ) ^ (bitLength x.num.natAbs) * (2 * (x.den : ℚ) / (2 : ℚ) ^ (bitLength x.den)) := by
      field_simp
      ring
    rw [this]
    have h1 : (1 : ℚ) ≤ 2 * (x.den : ℚ) / (2 : ℚ) ^ (bitLength x.den) := by
      rw [le_div_iff₀ hpd]; linarith
    calc (x.num.natAbs : ℚ) < (2 : ℚ) ^ (bitLength x.num.natAbs) := hn1q
      _ = (2 : ℚ) ^ (bitLength x.num.natAbs) * 1 := by ring
      _ ≤ _ := mul_le_mul_of_nonneg_left h1 (le_of_lt hpn)
  · constructor
    · rw [zpow_sub_one₀ (by norm_num : (2 : ℚ) ≠ 0), hsub, habs, le_div_iff₀ hdpos]
      have : (2 : ℚ) ^ (bitLength x.num.natAbs) / (2 : ℚ) ^ (bitLength x.den) * 2⁻¹ * (x.den : ℚ) =
          (2 : ℚ) ^ (bitLength x.num.natAbs) / 2 * ((x.den : ℚ) / (2 : ℚ) ^ (bitLength x.den)) := by
        field_simp
        ring
      rw [this]
      have h1 : (x.den : ℚ) / (2 : ℚ) ^ (bitLength x.den) ≤ 1 := by
        rw [div_le_iff₀ hpd]; linarith
      have h3 : (2 : ℚ) ^ (bitLength x.num.natAbs) / 2 ≤ (x.num.natAbs : ℚ) := by
        rw [div_le_iff₀ h2]; linarith
      have h4 : (0 : ℚ) ≤ (2 : ℚ) ^ (bitLength x.num.natAbs) / 2 := by positivity
      calc _ ≤ (2 : ℚ) ^ (bitLength x.num.natAbs) / 2 * 1 := mul_le_mul_of_nonneg_left h1 h4
        _ = (2 : ℚ) ^ (bitLength x.num.natAbs) / 2 := by ring
        _ ≤ _ := h3
    · have : (bitLength x.num.natAbs : Int) - (bitLength x.den : Int) - 1 + 1 =
          (bitLength x.num.natAbs : Int) - (bitLength x.den : Int) := by ring
      rw [this]
      exact not_le.mp h

/-- The nearest integer is within one half. -/
theorem roundHalfEven_error (x : ℚ) : |(roundHalfEven x : ℚ) - x| ≤ 1 / 2 := by
  have h1 := Int.floor_le x
  have h2 := Int.lt_floor_add_one x
  unfold roundHalfEven
  split_ifs with ha hb hc
  · rw [abs_le]; constructor <;> linarith
  · rw [abs_le]; push_cast; constructor <;> linarith
  · rw [abs_le]; constructor <;> linarith
  · rw [abs_le]; push_cast; constructor <;> linarith

/-- Rounding to float64 of a number of magnitude `2^-1022` or more changes it by at most the
fraction `2^-53` of its magnitude. -/
theorem roundToFloat_error (x : ℚ) (hx : (1 : ℚ) / 2 ^ 1022 ≤ |x|) :
    |roundToFloat x - x| ≤ |x| / 2 ^ 53 := by
  have hx0 : x ≠ 0 := by
    intro h
    rw [h, abs_zero] at hx
    have : (0 : ℚ) < (1 : ℚ) / 2 ^ 1022 := by positivity
    linarith
  obtain ⟨hlo, hhi⟩ := exponent_spec x hx0
  have he : (-1022 : Int) ≤ exponent x := by
    have h1022 : (2 : ℚ) ^ (-1022 : Int) = (1 : ℚ) / 2 ^ 1022 := by
      rw [show (-1022 : Int) = -((1022 : ℕ) : Int) from rfl, zpow_neg, zpow_natCast, one_div]
    have hlt : (2 : ℚ) ^ (-1022 : Int) < (2 : ℚ) ^ (exponent x + 1) := by
      rw [h1022]; exact lt_of_le_of_lt hx hhi
    have := (zpow_lt_zpow_iff_right₀ (by norm_num : (1 : ℚ) < 2)).mp hlt
    omega
  have hulp : ulp x = (2 : ℚ) ^ (exponent x - 52) := by
    unfold ulp
    rw [max_eq_left he, twoPow_eq]
  have hupos : (0 : ℚ) < ulp x := by rw [hulp]; positivity
  have herr := roundHalfEven_error (x / ulp x)
  have hrw : roundToFloat x - x = ((roundHalfEven (x / ulp x) : ℚ) - x / ulp x) * ulp x := by
    unfold roundToFloat
    field_simp
  rw [hrw, abs_mul, abs_of_pos hupos]
  have h53 : ulp x = (2 : ℚ) ^ exponent x / 2 ^ 52 := by
    rw [hulp, zpow_sub₀ (by norm_num : (2 : ℚ) ≠ 0)]
    norm_num
  calc |(roundHalfEven (x / ulp x) : ℚ) - x / ulp x| * ulp x ≤ 1 / 2 * ulp x :=
        mul_le_mul_of_nonneg_right herr (le_of_lt hupos)
    _ = (2 : ℚ) ^ exponent x / 2 ^ 53 := by rw [h53]; ring
    _ ≤ |x| / 2 ^ 53 := by
        apply div_le_div_of_nonneg_right hlo
        positivity

/-- A rounded result that is a finite number is the nearest float64. -/
theorem Float64.round_eq_finite (x ρ : ℚ) (h : Float64.round x = Float64.finite ρ) :
    ρ = roundToFloat x := by
  unfold Float64.round at h
  split_ifs at h with h1 h2
  · unfold Float64.signedInf at h
    split_ifs at h
  · injection h with h3
    exact h3.symm

/-- The quotient of two finite numbers other than zero is the rounded exact quotient. -/
theorem Float64.div_finite (c a : ℚ) (hc : c ≠ 0) (ha : a ≠ 0) :
    Float64.div (Float64.finite c) (Float64.finite a) = Float64.round (c / a) := by
  simp [Float64.div, Float64.isNaN, Float64.isInf, Float64.isZero, Float64.value, hc, ha]

/-- The float64 quotient `c / a` for `a > 0`, when it is a finite number `ρ` and the exact
quotient is zero or of magnitude `2^-1022` or more: `ρ * a` is within `2^-53 * |c|` of `c`. -/
theorem Float64.div_error (c a ρ : ℚ) (ha : 0 < a)
    (h : Float64.div (Float64.finite c) (Float64.finite a) = Float64.finite ρ)
    (hn : c = 0 ∨ (1 : ℚ) / 2 ^ 1022 ≤ |c / a|) :
    |ρ * a - c| ≤ |c| / 2 ^ 53 := by
  have ha0 : a ≠ 0 := ne_of_gt ha
  by_cases hc : c = 0
  · subst hc
    have h0 : Float64.div (Float64.finite 0) (Float64.finite a) = Float64.finite 0 := by
      simp [Float64.div, Float64.isNaN, Float64.isInf, Float64.isZero, Float64.signbit,
        Float64.signedZero, ha0, not_lt.mpr (le_of_lt ha)]
    rw [h0] at h
    injection h with h1
    rw [← h1]
    simp
  · have hn1 : (1 : ℚ) / 2 ^ 1022 ≤ |c / a| := by
      rcases hn with h0 | h0
      · exact absurd h0 hc
      · exact h0
    rw [Float64.div_finite c a hc ha0] at h
    have hρ := Float64.round_eq_finite _ _ h
    have herr := roundToFloat_error (c / a) hn1
    rw [← hρ] at herr
    have hrw : ρ * a - c = (ρ - c / a) * a := by
      field_simp
    rw [hrw, abs_mul, abs_of_pos ha]
    have hrw2 : |c| / 2 ^ 53 = |c / a| / 2 ^ 53 * a := by
      rw [abs_div, abs_of_pos ha]
      field_simp
      ring
    rw [hrw2]
    exact mul_le_mul_of_nonneg_right herr (le_of_lt ha)

section RetryLemmas

variable {σ : Type} (oor : Float64 → Int) (s : Strategy) (sr : GoError → Bool)
  (fn : σ → Option GoError × σ) (ctx : Nat → Option GoError)

/-- One iteration: the loop test fails. -/
theorem doLoop_exit (fuel a : Nat) (l : Option GoError) (st : σ)
    (h : ¬ ((a : Int) < s.MaxAttempts)) :
    doLoop oor s sr fn ctx fuel a l st = ⟨some (exhaustedErr s l), st, []⟩ := by
  cases fuel with
  | zero => rfl
  | succ n => simp [doLoop, h]

/-- One iteration: the operation returns nil. -/
theorem doLoop_success (fuel a : Nat) (l : Option GoError) (st st1 : σ)
    (h : (a : Int) < s.MaxAttempts) (hfn : fn st = (none, st1)) :
    doLoop oor s sr fn ctx (fuel + 1) a l st = ⟨none, st1, [Event.invoke none]⟩ := by
  simp [doLoop, h, hfn]

/-- One iteration: the operation returns an error that is not to be retried. -/
theorem doLoop_stop (fuel a : Nat) (l : Option GoError) (st st1 : σ) (e : GoError)
    (h : (a : Int) < s.MaxAttempts) (hfn : fn st = (some e, st1)) (hsr : sr e = false) :
    doLoop oor s sr fn ctx (fuel + 1) a l st = ⟨some e, st1, [Event.invoke (some e)]⟩ := by
  simp [doLoop, h, hfn, hsr]

/-- One iteration: a retryable error on the last allowed attempt. -/
theorem doLoop_last (fuel a : Nat) (l : Option GoError) (st st1 : σ) (e : GoError)
    (hfn : fn st = (some e, st1)) (hsr : sr e = true)
    (hlast : (a : Int) = s.MaxAttempts - 1) :
    doLoop oor s sr fn ctx (fuel + 1) a l st =
      ⟨some (exhaustedErr s (some e)), st1, [Event.invoke (some e)]⟩ := by
  have h : (a : Int) < s.MaxAttempts := by omega
  simp [doLoop, h, hfn, hsr, hlast]

/-- One iteration: a retryable error, then the context is done before the timer fires. -/
theorem doLoop_cancel (fuel a : Nat) (l : Option GoError) (st st1 : σ) (e ce : GoError)
    (h : (a : Int) < s.MaxAttempts) (hfn : fn st = (some e, st1)) (hsr : sr e = true)
    (hlast : (a : Int) ≠ s.MaxAttempts - 1) (hctx : ctx a = some ce) :
    doLoop oor s sr fn ctx (fuel + 1) a l st =
      ⟨some (cancelledErr ce), st1,
        [Event.invoke (some e), Event.cancelled (s.calculateDelay oor a) ce]⟩ := by
  simp [doLoop, h, hfn, hsr, hlast, hctx]

/-- One iteration: a retryable error, then the timer fires and the loop goes on. -/
theorem doLoop_next (fuel a : Nat) (l : Option GoError) (st st1 : σ) (e : GoError)
    (h : (a : Int) < s.MaxAttempts) (hfn : fn st = (some e, st1)) (hsr : sr e = true)
    (hlast : (a : Int) ≠ s.MaxAttempts - 1) (hctx : ctx a = none) :
    doLoop oor s sr fn ctx (fuel + 1) a l st =
      ⟨(doLoop oor s sr fn ctx fuel (a + 1) (some e) st1).err,
        (doLoop oor s sr fn ctx fuel (a + 1) (some e) st1).state,
        Event.invoke (some e) :: Event.wait (s.calculateDelay oor a) ::
          (doLoop oor s sr fn ctx fuel (a + 1) (some e) st1).trace⟩ := by
  simp [doLoop, h, hfn, hsr, hlast, hctx]

/-- The six ways an iteration of the loop can go. -/
theorem doLoop_cases (a : Nat) (st : σ) :
    (¬ ((a : Int) < s.MaxAttempts)) ∨
    ((a : Int) < s.MaxAttempts ∧ ∃ st1, fn st = (none, st1)) ∨
    ((a : Int) < s.MaxAttempts ∧ ∃ e st1, fn st = (some e, st1) ∧ sr e = false) ∨
    (∃ e st1, fn st = (some e, st1) ∧ sr e = true ∧ (a : Int) = s.MaxAttempts - 1) ∨
    ((a : Int) < s.MaxAttempts ∧ ∃ e st1 ce, fn st = (some e, st1) ∧ sr e = true ∧
      (a : Int) ≠ s.MaxAttempts - 1 ∧ ctx a = some ce) ∨
    ((a : Int) < s.MaxAttempts ∧ ∃ e st1, fn st = (some e, st1) ∧ sr e = true ∧
      (a : Int) ≠ s.MaxAttempts - 1 ∧ ctx a = none) := by
  by_cases h : (a : Int) < s.MaxAttempts
  · rcases hfn : fn st with ⟨_ | e, st1⟩
    · exact Or.inr (Or.inl ⟨h, st1, rfl⟩)
    · cases hsr : sr e
      · exact Or.inr (Or.inr (Or.inl ⟨h, e, st1, rfl, hsr⟩))
      · by_cases hlast : (a : Int) = s.MaxAttempts - 1
        · exact Or.inr (Or.inr (Or.inr (Or.inl ⟨e, st1, rfl, hsr, hlast⟩)))
        · rcases hctx : ctx a with _ | ce
          · exact Or.inr (Or.inr (Or.inr (Or.inr (Or.inr ⟨h, e, st1, rfl, hsr, hlast, rfl⟩))))
          · exact Or.inr (Or.inr (Or.inr (Or.inr (Or.inl ⟨h, e, st1, ce, rfl, hsr, hlast, rfl⟩))))
  · exact Or.inl h

/-- More fuel than the iterations left changes nothing. -/
theorem doLoop_fuel : ∀ (fuel a : Nat) (l : Option GoError) (st : σ),
    s.MaxAttempts.toNat - a ≤ fuel →
    doLoop oor s sr fn ctx (fuel + 1) a l st = doLoop oor s sr fn ctx fuel a l st := by
  intro fuel
  induction fuel with
  | zero =>
    intro a l st h
    have : ¬ ((a : Int) < s.MaxAttempts) := by omega
    rw [doLoop_exit oor s sr fn ctx _ a l st this, doLoop_exit oor s sr fn ctx _ a l st this]
  | succ n ih =>
    intro a l st h
    rcases doLoop_cases s sr fn ctx a st with h1 | ⟨h1, st1, hfn⟩ |
      ⟨h1, e, st1, hfn, hsr⟩ | ⟨e, st1, hfn, hsr, hlast⟩ | ⟨h1, e, st1, ce, hfn, hsr, hlast, hctx⟩ |
      ⟨h1, e, st1, hfn, hsr, hlast, hctx⟩
    · rw [doLoop_exit oor s sr fn ctx _ a l st h1, doLoop_exit oor s sr fn ctx _ a l st h1]
    · rw [doLoop_success oor s sr fn ctx _ a l st st1 h1 hfn,
        doLoop_success oor s sr fn ctx _ a l st st1 h1 hfn]
    · rw [doLoop_stop oor s sr fn ctx _ a l st st1 e h1 hfn hsr,
        doLoop_stop oor s sr fn ctx _ a l st st1 e h1 hfn hsr]
    · rw [doLoop_last oor s sr fn ctx _ a l st st1 e hfn hsr hlast,
        doLoop_last oor s sr fn ctx _ a l st st1 e hfn hsr hlast]
    · rw [doLoop_cancel oor s sr fn ctx _ a l st st1 e ce h1 hfn hsr hlast hctx,
        doLoop_cancel oor s sr fn ctx _ a l st st1 e ce h1 hfn hsr hlast hctx]
    · rw [doLoop_next oor s sr fn ctx _ a l st st1 e h1 hfn hsr hlast hctx,
        doLoop_next oor s sr fn ctx _ a l st st1 e h1 hfn hsr hlast hctx,
        ih (a + 1) (some e) st1 (by omega)]

/-- From counter `a` the loop invokes the operation at most `MaxAttempts - a` times. -/
theorem doLoop_calls_le : ∀ (fuel a : Nat) (l : Option GoError) (st : σ),
    (doLoop oor s sr fn ctx fuel a l st).calls ≤ s.MaxAttempts.toNat - a := by
  intro fuel
  induction fuel with
  | zero => intro a l st; simp [doLoop, DoResult.calls]
  | succ n ih =>
    intro a l st
    rcases doLoop_cases s sr fn ctx a st with h1 | ⟨h1, st1, hfn⟩ |
      ⟨h1, e, st1, hfn, hsr⟩ | ⟨e, st1, hfn, hsr, hlast⟩ | ⟨h1, e, st1, ce, hfn, hsr, hlast, hctx⟩ |
      ⟨h1, e, st1, hfn, hsr, hlast, hctx⟩
    · rw [doLoop_exit oor s sr fn ctx _ a l st h1]; simp [DoResult.calls]
    · rw [doLoop_success oor s sr fn ctx _ a l st st1 h1 hfn]
      simp [DoResult.calls, Event.isInvoke]; omega
    · rw [doLoop_stop oor s sr fn ctx _ a l st st1 e h1 hfn hsr]
      simp [DoResult.calls, Event.isInvoke]; omega
    · rw [doLoop_last oor s sr fn ctx _ a l st st1 e hfn hsr hlast]
      simp [DoResult.calls, Event.isInvoke]; omega
    · rw [doLoop_cancel oor s sr fn ctx _ a l st st1 e ce h1 hfn hsr hlast hctx]
      simp [DoResult.calls, Event.isInvoke]; omega
    · rw [doLoop_next oor s sr fn ctx _ a l st st1 e h1 hfn hsr hlast hctx]
      have := ih (a + 1) (some e) st1
      simp [DoResult.calls, Event.isInvoke] at this ⊢
      omega

end RetryLemmas

section RetryRuns

variable {σ : Type} (oor : Float64 → Int) (s : Strategy) (sr : GoError → Bool)
  (fn : σ → Option GoError × σ) (ctx : Nat → Option GoError)

/-- An error matches itself under `errors.Is`. -/
theorem GoError.Is_self (e : GoError) : e.Is e = true := by
  cases e <;> simp [GoError.Is]

/-- An error built by `fmt.Errorf` around `e` is not `e` itself. -/
theorem GoError.wrapError_ne_self (msg : String) (e : GoError) :
    GoError.wrapError msg e ≠ e := by
  intro h
  have hs := congrArg sizeOf h
  simp at hs

/-- An error built with `%w` matches its operand under `errors.Is`. -/
theorem GoError.Is_wrapError (msg : String) (e : GoError) :
    (GoError.wrapError msg e).Is e = true := by
  simp [GoError.Is, GoError.Is_self]

/-- The texts of the two terminal errors of `Do` start with different letters. -/
theorem cancelled_text_ne (x y : String) :
    "retry cancelled: " ++ x ≠ "max retry attempts (" ++ y := by
  intro h
  have h1 := congrArg (fun t : String => t.data.head?) h
  simp [String.data_append] at h1

/-- The cancellation error of `Do` is never its attempts-exhausted error. -/
theorem cancelledErr_ne_exhaustedErr (ce : GoError) (l : Option GoError) :
    cancelledErr ce ≠ exhaustedErr s l := by
  cases l with
  | none => simp [cancelledErr, exhaustedErr]
  | some e =>
    intro h
    simp only [cancelledErr, exhaustedErr, GoError.wrapError.injEq] at h
    exact cancelled_text_ne _ _ (by simpa [String.append_assoc] using h.1)

/-- One more invocation moves the state of the captured variables one step. -/
theorem stateAfter_succ : ∀ (k : Nat) (t : σ),
    (fn (stateAfter fn t k)).2 = stateAfter fn t (k + 1) := by
  intro k
  induction k with
  | zero => intro t; rfl
  | succ k ih => intro t; exact ih (fn t).2

/-- There is one invocation in each failed attempt of `retryTrace`. -/
theorem retryTrace_calls : ∀ (j : Nat) (st : σ) (a : Nat),
    ((retryTrace oor s fn st a j).filter Event.isInvoke).length = j := by
  intro j
  induction j with
  | zero => intro st a; rfl
  | succ j ih =>
    intro st a
    simp [retryTrace, Event.isInvoke, ih]

/-- While attempts fail with retryable errors, attempts are left and the timers fire, the loop
goes on: `j` such iterations produce `retryTrace` and leave the loop at counter `a + j`. -/
theorem doLoop_retryTrace : ∀ (j fuel a : Nat) (l : Option GoError) (st : σ),
    (a : Int) + j < s.MaxAttempts →
    (∀ i, i < j → ∃ e, outcome fn st i = some e ∧ sr e = true) →
    (∀ i, i < j → ctx (a + i) = none) →
    ∃ l1, doLoop oor s sr fn ctx (fuel + j) a l st =
      ⟨(doLoop oor s sr fn ctx fuel (a + j) l1 (stateAfter fn st j)).err,
        (doLoop oor s sr fn ctx fuel (a + j) l1 (stateAfter fn st j)).state,
        retryTrace oor s fn st a j ++
          (doLoop oor s sr fn ctx fuel (a + j) l1 (stateAfter fn st j)).trace⟩ := by
  intro j
  induction j with
  | zero =>
    intro fuel a l st _ _ _
    exact ⟨l, rfl⟩
  | succ j ih =>
    intro fuel a l st ha hfail hctx
    obtain ⟨e, he, hsr⟩ := hfail 0 (Nat.succ_pos j)
    have hfn : fn st = (some e, (fn st).2) := by
      have : (fn st).1 = some e := he
      rw [← this]
    have h1 : (a : Int) < s.MaxAttempts := by omega
    have h2 : (a : Int) ≠ s.MaxAttempts - 1 := by omega
    have h3 : ctx a = none := by simpa using hctx 0 (Nat.succ_pos j)
    obtain ⟨l1, hl1⟩ := ih fuel (a + 1) (some e) (fn st).2 (by push_cast; omega)
      (fun i hi => hfail (i + 1) (by omega))
      (fun i hi => by have := hctx (i + 1) (by omega); rwa [Nat.add_assoc, Nat.add_comm 1 i])
    refine ⟨l1, ?_⟩
    have hfuel : fuel + (j + 1) = (fuel + j) + 1 := rfl
    rw [hfuel, doLoop_next oor s sr fn ctx _ a l st _ e h1 hfn hsr h2 h3, hl1]
    have hidx : a + 1 + j = a + (j + 1) := by omega
    simp only [hidx, stateAfter, retryTrace, List.cons_append]
    rw [show (fn st).1 = some e from he]

end RetryRuns

section RetryClaims

variable {σ : Type} (oor : Float64 → Int) (s : Strategy) (sr : GoError → Bool)
  (fn : σ → Option GoError × σ) (ctx : Nat → Option GoError)

/-- An invocation that returns a non-retryable error is the last event of the loop, and its
error is what the loop returns. -/
theorem doLoop_nonretryable : ∀ (fuel a : Nat) (l : Option GoError) (st : σ) (e : GoError),
    Event.invoke (some e) ∈ (doLoop oor s sr fn ctx fuel a l st).trace → sr e = false →
    (doLoop oor s sr fn ctx fuel a l st).err = some e ∧
    ∃ pre, (doLoop oor s sr fn ctx fuel a l st).trace = pre ++ [Event.invoke (some e)] ∧
      Event.invoke (some e) ∉ pre := by
  intro fuel
  induction fuel with
  | zero => intro a l st e hin _; simp [doLoop] at hin
  | succ n ih =>
    intro a l st e hin hns
    rcases doLoop_cases s sr fn ctx a st with h1 | ⟨h1, st1, hfn⟩ |
      ⟨h1, e1, st1, hfn, hsr⟩ | ⟨e1, st1, hfn, hsr, hlast⟩ |
      ⟨h1, e1, st1, ce, hfn, hsr, hlast, hctx⟩ | ⟨h1, e1, st1, hfn, hsr, hlast, hctx⟩
    · rw [doLoop_exit oor s sr fn ctx _ a l st h1] at hin; simp at hin
    · rw [doLoop_success oor s sr fn ctx _ a l st st1 h1 hfn] at hin; simp at hin
    · rw [doLoop_stop oor s sr fn ctx _ a l st st1 e1 h1 hfn hsr] at hin ⊢
      have he : e = e1 := by simpa using hin
      subst he
      exact ⟨rfl, [], rfl, by simp⟩
    · rw [doLoop_last oor s sr fn ctx _ a l st st1 e1 hfn hsr hlast] at hin
      have he : e = e1 := by simpa using hin
      subst he
      rw [hsr] at hns; cases hns
    · rw [doLoop_cancel oor s sr fn ctx _ a l st st1 e1 ce h1 hfn hsr hlast hctx] at hin
      have he : e = e1 := by simpa using hin
      subst he
      rw [hsr] at hns; cases hns
    · rw [doLoop_next oor s sr fn ctx _ a l st st1 e1 h1 hfn hsr hlast hctx] at hin ⊢
      have hne : e ≠ e1 := by
        intro he; subst he; rw [hsr] at hns; cases hns
      have hin1 : Event.invoke (some e) ∈
          (doLoop oor s sr fn ctx n (a + 1) (some e1) st1).trace := by
        simpa [hne] using hin
      obtain ⟨herr, pre, hpre, hnot⟩ := ih (a + 1) (some e1) st1 e hin1 hns
      refine ⟨herr, Event.invoke (some e1) :: Event.wait (s.calculateDelay oor a) :: pre, ?_, ?_⟩
      · simp [hpre]
      · simp [hne, hnot]

/-- C1: for every strategy, every retry predicate, every operation and every cancellation
timing, a single call to `retry.Do` invokes the operation at most `MaxAttempts` times (and not
at all when `MaxAttempts` is zero or negative). -/
theorem Do_calls_le_MaxAttempts (st : σ) :
    ((Do oor ctx s sr fn st).calls : Int) ≤ max s.MaxAttempts 0 := by
  have h := doLoop_calls_le oor s sr fn ctx s.MaxAttempts.toNat 0 none st
  have h2 : ((Do oor ctx s sr fn st).calls : Int) ≤ (s.MaxAttempts.toNat : Int) := by
    unfold Do; exact_mod_cast (by simpa using h)
  rw [Int.toNat_eq_max] at h2
  exact h2

/-- C2: if an invocation of the operation returns an error `e` with `shouldRetry e` false,
`retry.Do` returns exactly `e`, and that invocation is the last event of the run (no wait and
no invocation after it); in particular a non-retryable failure of the first attempt gives a
run of exactly one invocation, whatever `MaxAttempts ≥ 1` is. -/
theorem Do_nonretryable_returns_unchanged (st : σ) :
    (∀ e, Event.invoke (some e) ∈ (Do oor ctx s sr fn st).trace → sr e = false →
      (Do oor ctx s sr fn st).err = some e ∧
      ∃ pre, (Do oor ctx s sr fn st).trace = pre ++ [Event.invoke (some e)] ∧
        Event.invoke (some e) ∉ pre) ∧
    (∀ e, 1 ≤ s.MaxAttempts → (fn st).1 = some e → sr e = false →
      (Do oor ctx s sr fn st).err = some e ∧
      (Do oor ctx s sr fn st).trace = [Event.invoke (some e)] ∧
      (Do oor ctx s sr fn st).calls = 1) := by
  constructor
  · intro e hin hns
    exact doLoop_nonretryable oor s sr fn ctx _ 0 none st e hin hns
  · intro e hmax he hns
    obtain ⟨f, hf⟩ : ∃ f, s.MaxAttempts.toNat = f + 1 := ⟨s.MaxAttempts.toNat - 1, by omega⟩
    have hfn : fn st = (some e, (fn st).2) := by rw [← he]
    have h0 : ((0 : Nat) : Int) < s.MaxAttempts := by omega
    unfold Do
    rw [hf, doLoop_stop oor s sr fn ctx f 0 none st _ e h0 hfn hns]
    exact ⟨rfl, rfl, rfl⟩

end RetryClaims

section RetryRunShapes

variable {σ : Type} (oor : Float64 → Int) (s : Strategy) (sr : GoError → Bool)
  (fn : σ → Option GoError × σ) (ctx : Nat → Option GoError)

/-- The whole run when `n = MaxAttempts ≥ 1` attempts all fail with retryable errors and no
wait is cut short. -/
theorem Do_run_exhausted (st : σ) (n : Nat) (hn : 1 ≤ n) (hmax : s.MaxAttempts = (n : Int))
    (hctx : ∀ i, i < n - 1 → ctx i = none)
    (hfail : ∀ i, i < n - 1 → ∃ e, outcome fn st i = some e ∧ sr e = true)
    (e : GoError) (he : outcome fn st (n - 1) = some e) (hsr : sr e = true) :
    Do oor ctx s sr fn st =
      ⟨some (exhaustedErr s (some e)), stateAfter fn st n,
        retryTrace oor s fn st 0 (n - 1) ++ [Event.invoke (some e)]⟩ := by
  obtain ⟨l1, hl1⟩ := doLoop_retryTrace oor s sr fn ctx (n - 1) 1 0 none st
    (by rw [hmax]; push_cast; omega) hfail (fun i hi => by simpa using hctx i hi)
  have hfuel : s.MaxAttempts.toNat = 1 + (n - 1) := by rw [hmax]; simp; omega
  have hfn : fn (stateAfter fn st (n - 1)) = (some e, (fn (stateAfter fn st (n - 1))).2) := by
    have : (fn (stateAfter fn st (n - 1))).1 = some e := he
    rw [← this]
  have hlast : (((0 + (n - 1) : Nat)) : Int) = s.MaxAttempts - 1 := by rw [hmax]; omega
  have hst := stateAfter_succ fn (n - 1) st
  rw [show n - 1 + 1 = n by omega] at hst
  unfold Do
  rw [hfuel, hl1, doLoop_last oor s sr fn ctx 0 _ l1 _ _ e hfn hsr hlast, hst]

/-- The whole run when the first `k - 1` attempts fail with retryable errors, no wait is cut
short and attempt `k ≤ MaxAttempts` succeeds. -/
theorem Do_run_success (st : σ) (k : Nat) (hk1 : 1 ≤ k) (hk : (k : Int) ≤ s.MaxAttempts)
    (hctx : ∀ i, i < k - 1 → ctx i = none)
    (hfail : ∀ i, i < k - 1 → ∃ e, outcome fn st i = some e ∧ sr e = true)
    (hok : outcome fn st (k - 1) = none) :
    Do oor ctx s sr fn st =
      ⟨none, stateAfter fn st k, retryTrace oor s fn st 0 (k - 1) ++ [Event.invoke none]⟩ := by
  obtain ⟨f, hf⟩ : ∃ f, s.MaxAttempts.toNat = (f + 1) + (k - 1) :=
    ⟨s.MaxAttempts.toNat - k, by omega⟩
  obtain ⟨l1, hl1⟩ := doLoop_retryTrace oor s sr fn ctx (k - 1) (f + 1) 0 none st
    (by push_cast; omega) hfail (fun i hi => by simpa using hctx i hi)
  have hfn : fn (stateAfter fn st (k - 1)) = (none, (fn (stateAfter fn st (k - 1))).2) := by
    have : (fn (stateAfter fn st (k - 1))).1 = none := hok
    rw [← this]
  have hlt : (((0 + (k - 1) : Nat)) : Int) < s.MaxAttempts := by omega
  have hst := stateAfter_succ fn (k - 1) st
  rw [show k - 1 + 1 = k by omega] at hst
  unfold Do
  rw [hf, hl1, doLoop_success oor s sr fn ctx f _ l1 _ _ hlt hfn, hst]

/-- The whole run when attempts `0..j` fail with retryable errors, the waits before the one
after attempt `j` run to completion, a wait follows attempt `j` and the context is done during
it. -/
theorem Do_run_cancelled (st : σ) (j : Nat) (ce : GoError)
    (hj : (j : Int) + 1 < s.MaxAttempts)
    (hfail : ∀ i, i < j → ∃ e, outcome fn st i = some e ∧ sr e = true)
    (e : GoError) (he : outcome fn st j = some e) (hsr : sr e = true)
    (hprev : ∀ i, i < j → ctx i = none) (hcancel : ctx j = some ce) :
    Do oor ctx s sr fn st =
      ⟨some (cancelledErr ce), stateAfter fn st (j + 1),
        retryTrace oor s fn st 0 j ++
          [Event.invoke (some e), Event.cancelled (s.calculateDelay oor j) ce]⟩ := by
  obtain ⟨f, hf⟩ : ∃ f, s.MaxAttempts.toNat = (f + 1) + j :=
    ⟨s.MaxAttempts.toNat - j - 1, by omega⟩
  obtain ⟨l1, hl1⟩ := doLoop_retryTrace oor s sr fn ctx j (f + 1) 0 none st
    (by push_cast; omega) hfail (fun i hi => by simpa using hprev i hi)
  have hfn : fn (stateAfter fn st j) = (some e, (fn (stateAfter fn st j)).2) := by
    have : (fn (stateAfter fn st j)).1 = some e := he
    rw [← this]
  have hlt : (((0 + j : Nat)) : Int) < s.MaxAttempts := by push_cast; omega
  have hne : (((0 + j : Nat)) : Int) ≠ s.MaxAttempts - 1 := by push_cast; omega
  have hc : ctx (0 + j) = some ce := by simpa using hcancel
  have hst := stateAfter_succ fn j st
  unfold Do
  rw [hf, hl1, doLoop_cancel oor s sr fn ctx f _ l1 _ _ e ce hlt hfn hsr hne hc, hst]
  simp

/-- Number of invocations in a run made of `j` retried attempts and `tail`. -/
theorem calls_retryTrace_append (st : σ) (a j : Nat) (err : Option GoError) (st1 : σ)
    (tail : List Event) :
    (DoResult.mk err st1 (retryTrace oor s fn st a j ++ tail)).calls =
      j + (tail.filter Event.isInvoke).length := by
  simp [DoResult.calls, List.filter_append, retryTrace_calls]

end RetryRunShapes

section RetryClaims2

variable {σ : Type} (oor : Float64 → Int) (s : Strategy) (sr : GoError → Bool)
  (fn : σ → Option GoError × σ) (ctx : Nat → Option GoError)

/-- C3: with `MaxAttempts = n ≥ 1` and no cancellation, if every invocation fails with a
retryable error, `retry.Do` invokes the operation exactly `n` times (a wait after each attempt
but the last) and returns the attempts-exhausted error: the error that `fmt.Errorf` builds
with the text `max retry attempts (n) exceeded: ` followed by the text of the error `e` of the
last invocation, and with `e` as its wrapped error. It matches `e` under `errors.Is`, its
`Unwrap` is `e`, and it is not `e` itself. -/
theorem Do_exhausted_after_MaxAttempts (st : σ) (n : Nat) (hn : 1 ≤ n)
    (hmax : s.MaxAttempts = (n : Int)) (hctx : ∀ i, ctx i = none)
    (hfail : ∀ i, i < n → ∃ e, outcome fn st i = some e ∧ sr e = true) :
    ∃ e, outcome fn st (n - 1) = some e ∧
      (Do oor ctx s sr fn st).err = some (exhaustedErr s (some e)) ∧
      (exhaustedErr s (some e)).Is e = true ∧
      (Do oor ctx s sr fn st).calls = n ∧
      (Do oor ctx s sr fn st).trace =
        retryTrace oor s fn st 0 (n - 1) ++ [Event.invoke (some e)] ∧
      (Do oor ctx s sr fn st).state = stateAfter fn st n ∧
      (Do oor ctx s sr fn st).err =
        some (GoError.wrapError
          ("max retry attempts (" ++ toString (n : Int) ++ ") exceeded: " ++ e.Error) e) ∧
      (∀ x, (Do oor ctx s sr fn st).err = some x → x.Unwrap = some e ∧ x ≠ e) := by
  obtain ⟨e, he, hsr⟩ := hfail (n - 1) (by omega)
  have hrun := Do_run_exhausted oor s sr fn ctx st n hn hmax (fun i _ => hctx i)
    (fun i hi => hfail i (by omega)) e he hsr
  refine ⟨e, he, by rw [hrun], GoError.Is_wrapError _ e, ?_, by rw [hrun], by rw [hrun],
    by rw [hrun, ← hmax]; rfl, ?_⟩
  · rw [hrun, calls_retryTrace_append]
    simp [Event.isInvoke]
    omega
  · intro x hx
    rw [hrun] at hx
    simp only [Option.some.injEq] at hx
    subst hx
    exact ⟨rfl, GoError.wrapError_ne_self _ e⟩

/-- C4: for `1 ≤ k ≤ MaxAttempts` and no cancellation, if the first `k - 1` invocations fail
with retryable errors and invocation `k` returns nil, `retry.Do` returns nil after exactly `k`
invocations; the successful invocation is the last event of the run. -/
theorem Do_success_on_attempt (st : σ) (k : Nat) (hk1 : 1 ≤ k)
    (hk : (k : Int) ≤ s.MaxAttempts) (hctx : ∀ i, ctx i = none)
    (hfail : ∀ i, i < k - 1 → ∃ e, outcome fn st i = some e ∧ sr e = true)
    (hok : outcome fn st (k - 1) = none) :
    (Do oor ctx s sr fn st).err = none ∧
    (Do oor ctx s sr fn st).calls = k ∧
    (Do oor ctx s sr fn st).trace = retryTrace oor s fn st 0 (k - 1) ++ [Event.invoke none] ∧
    (Do oor ctx s sr fn st).state = stateAfter fn st k := by
  have hrun := Do_run_success oor s sr fn ctx st k hk1 hk (fun i _ => hctx i) hfail hok
  refine ⟨by rw [hrun], ?_, by rw [hrun], by rw [hrun]⟩
  rw [hrun, calls_retryTrace_append]
  simp [Event.isInvoke]
  omega

/-- C5: if the context is done while `retry.Do` waits after attempt number `j` (from zero),
`Do` returns the cancellation error, which wraps the context's error and differs from every
attempts-exhausted error; the operation has been invoked `j + 1 < MaxAttempts` times and the
cancellation is the last event of the run. -/
theorem Do_cancelled_during_wait (st : σ) (j : Nat) (ce : GoError)
    (hj : (j : Int) + 1 < s.MaxAttempts)
    (hfail : ∀ i, i ≤ j → ∃ e, outcome fn st i = some e ∧ sr e = true)
    (hprev : ∀ i, i < j → ctx i = none) (hcancel : ctx j = some ce) :
    (Do oor ctx s sr fn st).err = some (cancelledErr ce) ∧
    (cancelledErr ce).Is ce = true ∧
    (∀ l, cancelledErr ce ≠ exhaustedErr s l) ∧
    (Do oor ctx s sr fn st).calls = j + 1 ∧
    ((Do oor ctx s sr fn st).calls : Int) < s.MaxAttempts ∧
    (Do oor ctx s sr fn st).trace =
      retryTrace oor s fn st 0 j ++
        [Event.invoke (outcome fn st j), Event.cancelled (s.calculateDelay oor j) ce] ∧
    (Do oor ctx s sr fn st).state = stateAfter fn st (j + 1) := by
  obtain ⟨e, he, hsr⟩ := hfail j (le_refl j)
  have hrun := Do_run_cancelled oor s sr fn ctx st j ce hj (fun i hi => hfail i (by omega))
    e he hsr hprev hcancel
  have hcalls : (Do oor ctx s sr fn st).calls = j + 1 := by
    rw [hrun, calls_retryTrace_append]
    simp [Event.isInvoke]
  refine ⟨by rw [hrun], GoError.Is_wrapError _ ce,
    fun l => cancelledErr_ne_exhaustedErr s ce l, hcalls, ?_, by rw [hrun, he], by rw [hrun]⟩
  rw [hcalls]; push_cast; omega

end RetryClaims2

/-- Witness of C2 on `TestDo_NoRetryOnNonRetryableError`: one invocation, the error returned
unchanged. -/
theorem Do_nonretryable_returns_unchanged_witness :
    ((Do amd64OutOfRange Background DefaultStrategy (isErr (GoError.leaf "retryable"))
        (alwaysFail (GoError.leaf "non-retryable")) 0).err = some (GoError.leaf "non-retryable") ∧
      ∃ pre, (Do amd64OutOfRange Background DefaultStrategy (isErr (GoError.leaf "retryable"))
        (alwaysFail (GoError.leaf "non-retryable")) 0).trace =
          pre ++ [Event.invoke (some (GoError.leaf "non-retryable"))] ∧
        Event.invoke (some (GoError.leaf "non-retryable")) ∉ pre) ∧
    ((Do amd64OutOfRange Background DefaultStrategy (isErr (GoError.leaf "retryable"))
        (alwaysFail (GoError.leaf "non-retryable")) 0).err = some (GoError.leaf "non-retryable") ∧
      (Do amd64OutOfRange Background DefaultStrategy (isErr (GoError.leaf "retryable"))
        (alwaysFail (GoError.leaf "non-retryable")) 0).trace =
          [Event.invoke (some (GoError.leaf "non-retryable"))] ∧
      (Do amd64OutOfRange Background DefaultStrategy (isErr (GoError.leaf "retryable"))
        (alwaysFail (GoError.leaf "non-retryable")) 0).calls = 1) :=
  ⟨(Do_nonretryable_returns_unchanged amd64OutOfRange DefaultStrategy
      (isErr (GoError.leaf "retryable")) (alwaysFail (GoError.leaf "non-retryable"))
      Background 0).1 (GoError.leaf "non-retryable") (by decide) (by decide),
   (Do_nonretryable_returns_unchanged amd64OutOfRange DefaultStrategy
      (isErr (GoError.leaf "retryable")) (alwaysFail (GoError.leaf "non-retryable"))
      Background 0).2 (GoError.leaf "non-retryable") (by decide) rfl (by decide)⟩

/-- Witness of C3 on `TestDo_MaxRetriesExceeded`: three invocations, then the exhausted error
`max retry attempts (3) exceeded: persistent error` wrapping the test error. -/
theorem Do_exhausted_after_MaxAttempts_witness :
    ∃ e, outcome (alwaysFail (GoError.leaf "persistent error")) 0 (3 - 1) = some e ∧
      (Do amd64OutOfRange Background testStrategy3 (isErr (GoError.leaf "persistent error"))
        (alwaysFail (GoError.leaf "persistent error")) 0).err =
          some (exhaustedErr testStrategy3 (some e)) ∧
      (exhaustedErr testStrategy3 (some e)).Is e = true ∧
      (Do amd64OutOfRange Background testStrategy3 (isErr (GoError.leaf "persistent error"))
        (alwaysFail (GoError.leaf "persistent error")) 0).calls = 3 ∧
      (Do amd64OutOfRange Background testStrategy3 (isErr (GoError.leaf "persistent error"))
        (alwaysFail (GoError.leaf "persistent error")) 0).trace =
          retryTrace amd64OutOfRange testStrategy3
            (alwaysFail (GoError.leaf "persistent error")) 0 0 (3 - 1) ++
            [Event.invoke (some e)] ∧
      (Do amd64OutOfRange Background testStrategy3 (isErr (GoError.leaf "persistent error"))
        (alwaysFail (GoError.leaf "persistent error")) 0).state =
          stateAfter (alwaysFail (GoError.leaf "persistent error")) 0 3 ∧
      (Do amd64OutOfRange Background testStrategy3 (isErr (GoError.leaf "persistent error"))
        (alwaysFail (GoError.leaf "persistent error")) 0).err =
          some (GoError.wrapError
            ("max retry attempts (" ++ toString ((3 : Nat) : Int) ++ ") exceeded: " ++ e.Error)
            e) ∧
      (∀ x, (Do amd64OutOfRange Background testStrategy3
        (isErr (GoError.leaf "persistent error"))
        (alwaysFail (GoError.leaf "persistent error")) 0).err = some x →
          x.Unwrap = some e ∧ x ≠ e) :=
  Do_exhausted_after_MaxAttempts amd64OutOfRange testStrategy3
    (isErr (GoError.leaf "persistent error")) (alwaysFail (GoError.leaf "persistent error"))
    Background 0 3 (by decide) rfl (fun _ => rfl)
    (fun _ _ => ⟨GoError.leaf "persistent error", rfl, by decide⟩)

/-- Witness of C4 on `TestDo_SuccessAfterRetries`: success on the third of three attempts. -/
theorem Do_success_on_attempt_witness :
    (Do amd64OutOfRange Background testStrategy3 (isErr (GoError.leaf "test error"))
      (failTwice (GoError.leaf "test error")) 0).err = none ∧
    (Do amd64OutOfRange Background testStrategy3 (isErr (GoError.leaf "test error"))
      (failTwice (GoError.leaf "test error")) 0).calls = 3 ∧
    (Do amd64OutOfRange Background testStrategy3 (isErr (GoError.leaf "test error"))
      (failTwice (GoError.leaf "test error")) 0).trace =
        retryTrace amd64OutOfRange testStrategy3 (failTwice (GoError.leaf "test error")) 0 0
          (3 - 1) ++ [Event.invoke none] ∧
    (Do amd64OutOfRange Background testStrategy3 (isErr (GoError.leaf "test error"))
      (failTwice (GoError.leaf "test error")) 0).state =
        stateAfter (failTwice (GoError.leaf "test error")) 0 3 :=
  Do_success_on_attempt amd64OutOfRange testStrategy3 (isErr (GoError.leaf "test error"))
    (failTwice (GoError.leaf "test error")) Background 0 3 (by decide) (by decide)
    (fun _ => rfl)
    (fun i hi => by
      have h : i = 0 ∨ i = 1 := by omega
      rcases h with h | h <;> subst h <;> exact ⟨GoError.leaf "test error", rfl, by decide⟩)
    rfl

/-- Witness of C5 on `TestDo_ContextCancellation`: the context is cancelled during the first
wait, after one invocation out of five allowed. -/
theorem Do_cancelled_during_wait_witness :
    (Do amd64OutOfRange (cancelledDuringWait 0) testStrategy5 (isErr (GoError.leaf "test error"))
      (alwaysFail (GoError.leaf "test error")) 0).err = some (cancelledErr ctxCanceled) ∧
    (cancelledErr ctxCanceled).Is ctxCanceled = true ∧
    (∀ l, cancelledErr ctxCanceled ≠ exhaustedErr testStrategy5 l) ∧
    (Do amd64OutOfRange (cancelledDuringWait 0) testStrategy5 (isErr (GoError.leaf "test error"))
      (alwaysFail (GoError.leaf "test error")) 0).calls = 0 + 1 ∧
    ((Do amd64OutOfRange (cancelledDuringWait 0) testStrategy5
      (isErr (GoError.leaf "test error"))
      (alwaysFail (GoError.leaf "test error")) 0).calls : Int) < testStrategy5.MaxAttempts ∧
    (Do amd64OutOfRange (cancelledDuringWait 0) testStrategy5 (isErr (GoError.leaf "test error"))
      (alwaysFail (GoError.leaf "test error")) 0).trace =
        retryTrace amd64OutOfRange testStrategy5 (alwaysFail (GoError.leaf "test error")) 0 0 0 ++
          [Event.invoke (outcome (alwaysFail (GoError.leaf "test error")) 0 0),
           Event.cancelled (testStrategy5.calculateDelay amd64OutOfRange 0) ctxCanceled] ∧
    (Do amd64OutOfRange (cancelledDuringWait 0) testStrategy5 (isErr (GoError.leaf "test error"))
      (alwaysFail (GoError.leaf "test error")) 0).state =
        stateAfter (alwaysFail (GoError.leaf "test error")) 0 (0 + 1) :=
  Do_cancelled_during_wait amd64OutOfRange testStrategy5 (isErr (GoError.leaf "test error"))
    (alwaysFail (GoError.leaf "test error")) (cancelledDuringWait 0) 0 0 ctxCanceled
    (by decide) (fun _ _ => ⟨GoError.leaf "test error", rfl, by decide⟩)
    (fun i hi => absurd hi (Nat.not_lt_zero i)) rfl

/-- The delay is the smaller of the converted float64 product and `MaxDelay`. -/
theorem calculateDelay_eq_min_toDuration (oor : Float64 → Int) (s : Strategy) (attempt : Nat) :
    s.calculateDelay oor attempt =
      min (toDuration oor (Float64.mul (Float64.ofInt s.InitialDelay)
        (Pow s.Multiplier (roundToFloat (attempt : ℚ))))) s.MaxDelay := by
  unfold Strategy.calculateDelay
  simp only [gt_iff_lt]
  split_ifs with h
  · exact (min_eq_right (le_of_lt h)).symm
  · exact (min_eq_left (not_lt.mp h)).symm

/-- The delay when the float64 product is the finite number `q` and `q` without its fraction is
an int64. -/
theorem calculateDelay_of_finite (oor : Float64 → Int) (s : Strategy) (attempt : Nat) (q : ℚ)
    (hq : Float64.mul (Float64.ofInt s.InitialDelay)
      (Pow s.Multiplier (roundToFloat (attempt : ℚ))) = Float64.finite q)
    (h1 : minInt64 ≤ truncate q) (h2 : truncate q ≤ maxInt64) :
    s.calculateDelay oor attempt = min (truncate q) s.MaxDelay := by
  rw [calculateDelay_eq_min_toDuration, hq]
  simp only [toDuration]
  rw [if_pos ⟨h1, h2⟩]

/-- C6, as amended: `calculateDelay(attempt)` is the smaller of `MaxDelay` and the float64
product `float64(InitialDelay) * math.Pow(Multiplier, float64(attempt))` with its fraction of a
nanosecond dropped, whenever that product is a finite number whose whole part is an int64; with
`InitialDelay = 1s`, `Multiplier = 2.0`, `MaxDelay = 10s` the delays of attempts 0..5 are 1s,
2s, 4s, 8s, 10s, 10s. -/
theorem calculateDelay_eq_min_truncate :
    (∀ (oor : Float64 → Int) (s : Strategy) (attempt : Nat) (q : ℚ),
      Float64.mul (Float64.ofInt s.InitialDelay)
        (Pow s.Multiplier (roundToFloat (attempt : ℚ))) = Float64.finite q →
      minInt64 ≤ truncate q → truncate q ≤ maxInt64 →
      s.calculateDelay oor attempt = min (truncate q) s.MaxDelay) ∧
    (∀ (oor : Float64 → Int),
      testStrategyDelay.calculateDelay oor 0 = 1 * Second ∧
      testStrategyDelay.calculateDelay oor 1 = 2 * Second ∧
      testStrategyDelay.calculateDelay oor 2 = 4 * Second ∧
      testStrategyDelay.calculateDelay oor 3 = 8 * Second ∧
      testStrategyDelay.calculateDelay oor 4 = 10 * Second ∧
      testStrategyDelay.calculateDelay oor 5 = 10 * Second) := by
  refine ⟨calculateDelay_of_finite, fun oor => ⟨?_, ?_, ?_, ?_, ?_, ?_⟩⟩
  · rw [calculateDelay_of_finite oor testStrategyDelay 0 1000000000 (by decide!) (by decide!)
      (by decide!)]
    decide!
  · rw [calculateDelay_of_finite oor testStrategyDelay 1 2000000000 (by decide!) (by decide!)
      (by decide!)]
    decide!
  · rw [calculateDelay_of_finite oor testStrategyDelay 2 4000000000 (by decide!) (by decide!)
      (by decide!)]
    decide!
  · rw [calculateDelay_of_finite oor testStrategyDelay 3 8000000000 (by decide!) (by decide!)
      (by decide!)]
    decide!
  · rw [calculateDelay_of_finite oor testStrategyDelay 4 16000000000 (by decide!) (by decide!)
      (by decide!)]
    decide!
  · rw [calculateDelay_of_finite oor testStrategyDelay 5 32000000000 (by decide!) (by decide!)
      (by decide!)]
    decide!

/-- Witness of C6 as amended, at `InitialDelay = 1ns`, `Multiplier = 1.5`, `MaxDelay = 10ns`,
attempt 1: the float64 product is 1.5 and the delay is 1ns. -/
theorem calculateDelay_eq_min_truncate_witness :
    Float64.mul (Float64.ofInt fractionalStrategy.InitialDelay)
        (Pow fractionalStrategy.Multiplier (roundToFloat ((1 : Nat) : ℚ))) =
        Float64.finite (3 / 2) ∧
      fractionalStrategy.calculateDelay amd64OutOfRange 1 =
        min (truncate (3 / 2)) fractionalStrategy.MaxDelay :=
  ⟨by decide!,
   calculateDelay_eq_min_truncate.1 amd64OutOfRange fractionalStrategy 1 (3 / 2)
    (by decide!) (by decide!) (by decide!)⟩

/-- C6 fails as stated. With `InitialDelay = 1ns`, `Multiplier = 1.5`, `MaxDelay = 10ns` the
product at attempt 1 is 1.5ns, below the cap, and `calculateDelay(1)` is 1ns. With
`InitialDelay = 1s`, `MaxDelay = 10s` and the float64 nearest to 1.2 as `Multiplier`, the
product at attempt 1 is a little below 1200000000ns and `calculateDelay(1)` is 1200000000ns,
the float64 product being rounded. With `InitialDelay = 1s`, `Multiplier = 2.0`,
`MaxDelay = 10s` the product at attempt 34 is no int64, so that on amd64 `calculateDelay(34)` is
`math.MinInt64` and not the cap of 10s. -/
theorem calculateDelay_ne_min_product :
    (fractionalStrategy.calculateDelay amd64OutOfRange 1 = 1 ∧
      min ((fractionalStrategy.InitialDelay : ℚ) * fractionalStrategy.Multiplier ^ 1)
        (fractionalStrategy.MaxDelay : ℚ) = 3 / 2 ∧
      ((fractionalStrategy.calculateDelay amd64OutOfRange 1 : Int) : ℚ) ≠
        min ((fractionalStrategy.InitialDelay : ℚ) * fractionalStrategy.Multiplier ^ 1)
          (fractionalStrategy.MaxDelay : ℚ)) ∧
    (roundedStrategy.calculateDelay amd64OutOfRange 1 = 1200000000 ∧
      min ((roundedStrategy.InitialDelay : ℚ) * roundedStrategy.Multiplier ^ 1)
        (roundedStrategy.MaxDelay : ℚ) < 1200000000 ∧
      truncate (min ((roundedStrategy.InitialDelay : ℚ) * roundedStrategy.Multiplier ^ 1)
        (roundedStrategy.MaxDelay : ℚ)) = 1199999999) ∧
    (testStrategyDelay.calculateDelay amd64OutOfRange 34 = minInt64 ∧
      min ((testStrategyDelay.InitialDelay : ℚ) * testStrategyDelay.Multiplier ^ 34)
        (testStrategyDelay.MaxDelay : ℚ) = ((10 * Second : Int) : ℚ)) := by
  have h1 : fractionalStrategy.calculateDelay amd64OutOfRange 1 = 1 := by decide!
  have h2 : min ((fractionalStrategy.InitialDelay : ℚ) * fractionalStrategy.Multiplier ^ 1)
      (fractionalStrategy.MaxDelay : ℚ) = 3 / 2 := by
    norm_num [fractionalStrategy]
  refine ⟨⟨h1, h2, ?_⟩, ⟨by decide!, by decide!, by decide!⟩, by decide!, ?_⟩
  · rw [h1, h2]
    norm_num
  · norm_num [testStrategyDelay, Second]

/-- Values on which the rounding of float64 shows. `1s * 1.5^39` is 7371554880626674.9...ns
in exact arithmetic and the delay is 7371554880626675ns; `float64(math.MaxInt64)` is `2^63`, no
int64, so that with `InitialDelay = math.MaxInt64` and `Multiplier = 1` the delay of attempt 0
is `math.MinInt64` on amd64; and `1 / 49` times 49 is `1 - 2^-53`. -/
theorem float64_rounding_examples :
    Strategy.calculateDelay amd64OutOfRange
      { MaxAttempts := 4, InitialDelay := 1 * Second, MaxDelay := maxInt64, Multiplier := 3 / 2 }
      39 = 7371554880626675 ∧
    truncate (((1 * Second : Int) : ℚ) * (3 / 2) ^ 39) = 7371554880626674 ∧
    Float64.ofInt maxInt64 = Float64.finite (2 ^ 63) ∧
    Strategy.calculateDelay amd64OutOfRange
      { MaxAttempts := 4, InitialDelay := maxInt64, MaxDelay := maxInt64, Multiplier := 1 }
      0 = minInt64 ∧
    Float64.mul (Float64.div (Float64.finite 1) (Float64.finite 49)) (Float64.finite 49) =
      Float64.finite (9007199254740991 / 9007199254740992) := by
  refine ⟨by decide!, by decide!, by decide!, by decide!, by decide!⟩

/-- An error built by `wrapDomain` matches exactly the domain error it wraps. -/
theorem kindsOf_wrapDomain (d : DomainError) (detail : String) :
    kindsOf (wrapDomain d detail) = [d] := by
  cases d <;> simp [kindsOf, wrapDomain, GoError.Is, List.filter]

/-- A domain error value matches exactly itself. -/
theorem kindsOf_domain (d : DomainError) : kindsOf (GoError.domain d) = [d] := by
  cases d <;> simp [kindsOf, GoError.Is, List.filter]

/-- The retry predicate of the repository rejects every error built by `fmt.Errorf`. -/
theorem shouldRetry_wrapError (msg : String) (e : GoError) :
    shouldRetry (GoError.wrapError msg e) = false := by
  simp [shouldRetry]

/-- The test `a == b` on two different integers. -/
theorem int_beq_false_of_ne {a b : Int} (h : ¬ a = b) : (a == b) = false := by
  simpa using h

/-- C7: for every HTTP status code and every body, `handleHTTPError` gives an error of exactly
one domain kind, the one of the policy table (400 InvalidCurrency, 401 Unauthorized,
403 Forbidden, 429 RateLimitExceeded, 500/502/503/504 ServerError, otherwise APIFailure), and
`shouldRetry` of that error is true exactly for 429, 500, 502, 503 and 504, whatever the
body. -/
theorem handleHTTPError_policy (statusCode : Int) (body : String) :
    kindsOf (handleHTTPError statusCode body) = [(httpPolicy statusCode).1] ∧
    shouldRetry (handleHTTPError statusCode body) = (httpPolicy statusCode).2 ∧
    (shouldRetry (handleHTTPError statusCode body) = true ↔
      statusCode = 429 ∨ statusCode = 500 ∨ statusCode = 502 ∨ statusCode = 503 ∨
        statusCode = 504) := by
  by_cases h400 : statusCode = 400
  · subst h400
    refine ⟨?_, ?_, ?_⟩
    · exact kindsOf_wrapDomain _ _
    · rfl
    · simp [handleHTTPError, StatusBadRequest, wrapDomain, shouldRetry]
  by_cases h401 : statusCode = 401
  · subst h401
    have hc : handleHTTPError 401 body = GoError.domain DomainError.ErrUnauthorized := rfl
    have hp : httpPolicy 401 = (DomainError.ErrUnauthorized, false) := by decide
    rw [hc, hp]
    exact ⟨kindsOf_domain _, by decide, by decide⟩
  by_cases h403 : statusCode = 403
  · subst h403
    have hc : handleHTTPError 403 body = GoError.domain DomainError.ErrForbidden := rfl
    have hp : httpPolicy 403 = (DomainError.ErrForbidden, false) := by decide
    rw [hc, hp]
    exact ⟨kindsOf_domain _, by decide, by decide⟩
  by_cases h429 : statusCode = 429
  · subst h429
    have hc : handleHTTPError 429 body = GoError.domain DomainError.ErrRateLimitExceeded := rfl
    have hp : httpPolicy 429 = (DomainError.ErrRateLimitExceeded, true) := by decide
    rw [hc, hp]
    exact ⟨kindsOf_domain _, by decide, by decide⟩
  by_cases h500 : statusCode = 500
  · subst h500
    have hc : handleHTTPError 500 body = GoError.domain DomainError.ErrServerError := rfl
    have hp : httpPolicy 500 = (DomainError.ErrServerError, true) := by decide
    rw [hc, hp]
    exact ⟨kindsOf_domain _, by decide, by decide⟩
  by_cases h502 : statusCode = 502
  · subst h502
    have hc : handleHTTPError 502 body = GoError.domain DomainError.ErrServerError := rfl
    have hp : httpPolicy 502 = (DomainError.ErrServerError, true) := by decide
    rw [hc, hp]
    exact ⟨kindsOf_domain _, by decide, by decide⟩
  by_cases h503 : statusCode = 503
  · subst h503
    have hc : handleHTTPError 503 body = GoError.domain DomainError.ErrServerError := rfl
    have hp : httpPolicy 503 = (DomainError.ErrServerError, true) := by decide
    rw [hc, hp]
    exact ⟨kindsOf_domain _, by decide, by decide⟩
  by_cases h504 : statusCode = 504
  · subst h504
    have hc : handleHTTPError 504 body = GoError.domain DomainError.ErrServerError := rfl
    have hp : httpPolicy 504 = (DomainError.ErrServerError, true) := by decide
    rw [hc, hp]
    exact ⟨kindsOf_domain _, by decide, by decide⟩
  have hcode : handleHTTPError statusCode body =
      wrapDomain DomainError.ErrAPIFailure ("HTTP " ++ toString statusCode) := by
    simp [handleHTTPError, StatusBadRequest, StatusUnauthorized, StatusForbidden,
      StatusTooManyRequests, StatusInternalServerError, StatusBadGateway,
      StatusServiceUnavailable, StatusGatewayTimeout, h400, h401, h403, h429, h500, h502, h503,
      h504]
  have hpol : httpPolicy statusCode = (DomainError.ErrAPIFailure, false) := by
    simp [httpPolicy, httpPolicyTable, List.lookup, int_beq_false_of_ne h400, int_beq_false_of_ne h401,
      int_beq_false_of_ne h403, int_beq_false_of_ne h429, int_beq_false_of_ne h500, int_beq_false_of_ne h502,
      int_beq_false_of_ne h503, int_beq_false_of_ne h504]
  rw [hcode, hpol]
  refine ⟨kindsOf_wrapDomain _ _, ?_, ?_⟩
  · exact shouldRetry_wrapError _ _
  · simp [wrapDomain, shouldRetry_wrapError, h429, h500, h502, h503, h504]

/-- C8: for every provider error code and every optional message, `handleAPIError` gives an
error of exactly one domain kind (1001, 1002 Unauthorized; 1005, 1006, 1007 Forbidden;
1008..1011 RateLimitExceeded; otherwise APIFailure), and `shouldRetry` of that error is true
exactly for the codes 1008..1011, whatever the message, absent or not. -/
theorem handleAPIError_policy (errorCode : Int) (errorMsg : Option String) :
    kindsOf (handleAPIError errorCode errorMsg) = [(providerPolicy errorCode).1] ∧
    shouldRetry (handleAPIError errorCode errorMsg) = (providerPolicy errorCode).2 ∧
    (shouldRetry (handleAPIError errorCode errorMsg) = true ↔
      1008 ≤ errorCode ∧ errorCode ≤ 1011) := by
  by_cases h1 : errorCode = 1001
  · subst h1
    have hc : handleAPIError 1001 errorMsg = GoError.domain DomainError.ErrUnauthorized := rfl
    have hp : providerPolicy 1001 = (DomainError.ErrUnauthorized, false) := by decide
    rw [hc, hp]
    exact ⟨kindsOf_domain _, by decide, by decide⟩
  by_cases h2 : errorCode = 1002
  · subst h2
    have hc : handleAPIError 1002 errorMsg = GoError.domain DomainError.ErrUnauthorized := rfl
    have hp : providerPolicy 1002 = (DomainError.ErrUnauthorized, false) := by decide
    rw [hc, hp]
    exact ⟨kindsOf_domain _, by decide, by decide⟩
  by_cases h5 : errorCode = 1005
  · subst h5
    have hc : handleAPIError 1005 errorMsg = GoError.domain DomainError.ErrForbidden := rfl
    have hp : providerPolicy 1005 = (DomainError.ErrForbidden, false) := by decide
    rw [hc, hp]
    exact ⟨kindsOf_domain _, by decide, by decide⟩
  by_cases h6 : errorCode = 1006
  · subst h6
    have hc : handleAPIError 1006 errorMsg = GoError.domain DomainError.ErrForbidden := rfl
    have hp : providerPolicy 1006 = (DomainError.ErrForbidden, false) := by decide
    rw [hc, hp]
    exact ⟨kindsOf_domain _, by decide, by decide⟩
  by_cases h7 : errorCode = 1007
  · subst h7
    have hc : handleAPIError 1007 errorMsg = GoError.domain DomainError.ErrForbidden := rfl
    have hp : providerPolicy 1007 = (DomainError.ErrForbidden, false) := by decide
    rw [hc, hp]
    exact ⟨kindsOf_domain _, by decide, by decide⟩
  by_cases h8 : errorCode = 1008
  · subst h8
    have hc : handleAPIError 1008 errorMsg = GoError.domain DomainError.ErrRateLimitExceeded := rfl
    have hp : providerPolicy 1008 = (DomainError.ErrRateLimitExceeded, true) := by decide
    rw [hc, hp]
    exact ⟨kindsOf_domain _, by decide, by decide⟩
  by_cases h9 : errorCode = 1009
  · subst h9
    have hc : handleAPIError 1009 errorMsg = GoError.domain DomainError.ErrRateLimitExceeded := rfl
    have hp : providerPolicy 1009 = (DomainError.ErrRateLimitExceeded, true) := by decide
    rw [hc, hp]
    exact ⟨kindsOf_domain _, by decide, by decide⟩
  by_cases h10 : errorCode = 1010
  · subst h10
    have hc : handleAPIError 1010 errorMsg = GoError.domain DomainError.ErrRateLimitExceeded := rfl
    have hp : providerPolicy 1010 = (DomainError.ErrRateLimitExceeded, true) := by decide
    rw [hc, hp]
    exact ⟨kindsOf_domain _, by decide, by decide⟩
  by_cases h11 : errorCode = 1011
  · subst h11
    have hc : handleAPIError 1011 errorMsg = GoError.domain DomainError.ErrRateLimitExceeded := rfl
    have hp : providerPolicy 1011 = (DomainError.ErrRateLimitExceeded, true) := by decide
    rw [hc, hp]
    exact ⟨kindsOf_domain _, by decide, by decide⟩
  have hcode : handleAPIError errorCode errorMsg =
      wrapDomain DomainError.ErrAPIFailure
        ("code " ++ toString errorCode ++ " - " ++
          (match errorMsg with
            | some m => m
            | none => "")) := by
    simp [handleAPIError, h1, h2, h5, h6, h7, h8, h9, h10, h11]
  have hpol : providerPolicy errorCode = (DomainError.ErrAPIFailure, false) := by
    simp [providerPolicy, providerPolicyTable, List.lookup, int_beq_false_of_ne h1,
      int_beq_false_of_ne h2, int_beq_false_of_ne h5, int_beq_false_of_ne h6, int_beq_false_of_ne h7,
      int_beq_false_of_ne h8, int_beq_false_of_ne h9, int_beq_false_of_ne h10, int_beq_false_of_ne h11]
  rw [hcode, hpol]
  refine ⟨kindsOf_wrapDomain _ _, ?_, ?_⟩
  · exact shouldRetry_wrapError _ _
  · simp only [wrapDomain, shouldRetry_wrapError]
    constructor
    · intro h; cases h
    · intro h; omega

section RepositoryClaims

variable {Data ω : Type} (oor : Float64 → Int) (json : JSONPkg Data) (strs : StringsPkg)

/-- The closure leaves in `lastErr` the error it returns. -/
theorem fetchClosure_lastErr (net : ω → Attempt × ω) (amount : Float64) (fromSym toSym : String)
    (st : FetchState ω) :
    (fetchClosure json strs net amount fromSym toSym st).2.lastErr =
      (fetchClosure json strs net amount fromSym toSym st).1 :=
  rfl

/-- After at least one invocation, `lastErr` holds what the last invocation returned. -/
theorem fetchClosure_stateAfter_lastErr (net : ω → Attempt × ω) (amount : Float64)
    (fromSym toSym : String) (st : FetchState ω) (k : Nat) :
    (stateAfter (fetchClosure json strs net amount fromSym toSym) st (k + 1)).lastErr =
      outcome (fetchClosure json strs net amount fromSym toSym) st k := by
  rw [← stateAfter_succ]
  rfl

/-- An error accepted by the retry predicate of the repository is one of the three bare
package-level values, never an error built by `fmt.Errorf`. -/
theorem shouldRetry_true_iff (e : GoError) :
    shouldRetry e = true ↔
      e = GoError.domain DomainError.ErrRateLimitExceeded ∨
      e = GoError.domain DomainError.ErrServerError ∨
      e = GoError.domain DomainError.ErrNetworkFailure := by
  simp [shouldRetry, or_assoc]

/-- C9 on the code: when `httpClient.Do` fails, `fetchConversionPrice` returns an error of kind
NetworkFailure built by `fmt.Errorf`, the retry predicate of the repository is false for it,
and `GetConversionPrice` (four attempts allowed) makes one fetch and returns that error. -/
theorem sendFailed_is_not_retried (apiKey baseURL : String) (ctx : Nat → Option GoError)
    (te : GoError) (amount : Float64) (fromSym toSym : String) (w : Nat) :
    fetchConversionPrice json strs (constantNet (Exchange.sendFailed te) w).1 amount fromSym
        toSym = (none, some (wrapDomain DomainError.ErrNetworkFailure te.Error)) ∧
    kindsOf (wrapDomain DomainError.ErrNetworkFailure te.Error) =
      [DomainError.ErrNetworkFailure] ∧
    shouldRetry (wrapDomain DomainError.ErrNetworkFailure te.Error) = false ∧
    (getConversionPriceDo oor json strs (NewCoinMarketCapRepository apiKey baseURL)
      (constantNet (Exchange.sendFailed te)) ctx w amount fromSym toSym).calls = 1 ∧
    GetConversionPrice oor json strs (NewCoinMarketCapRepository apiKey baseURL)
      (constantNet (Exchange.sendFailed te)) ctx w amount fromSym toSym =
        (none, some (wrapDomain DomainError.ErrNetworkFailure te.Error)) := by
  have hrun : getConversionPriceDo oor json strs (NewCoinMarketCapRepository apiKey baseURL)
      (constantNet (Exchange.sendFailed te)) ctx w amount fromSym toSym =
      ⟨some (wrapDomain DomainError.ErrNetworkFailure te.Error),
        { world := w + 1, result := none,
          lastErr := some (wrapDomain DomainError.ErrNetworkFailure te.Error) },
        [Event.invoke (some (wrapDomain DomainError.ErrNetworkFailure te.Error))]⟩ := by
    unfold getConversionPriceDo Do
    exact doLoop_stop oor _ shouldRetry _ ctx 3 0 none _ _ _
      (by simp [NewCoinMarketCapRepository, DefaultStrategy]) rfl (shouldRetry_wrapError _ _)
  refine ⟨rfl, kindsOf_wrapDomain _ _, shouldRetry_wrapError _ _, ?_, ?_⟩
  · rw [hrun]; rfl
  · unfold GetConversionPrice
    rw [hrun]
    rfl

/-- C10, as amended: if each of the `MaxAttempts = n ≥ 1` fetch attempts fails with a retryable
error and nothing is cancelled, `retry.Do` ends with the attempts-exhausted error after `n`
fetches, and `GetConversionPrice` returns a nil result with the error of the last attempt
itself, a bare package-level error value that is not the attempts-exhausted error. -/
theorem GetConversionPrice_returns_last_error (c : CoinMarketCapRepository)
    (net : ω → Attempt × ω) (ctx : Nat → Option GoError) (w : ω) (amount : Float64)
    (fromSym toSym : String) (n : Nat) (hn : 1 ≤ n) (hmax : c.retry.MaxAttempts = (n : Int))
    (hctx : ∀ i, ctx i = none)
    (hfail : ∀ i, i < n → ∃ e,
      outcome (fetchClosure json strs net amount fromSym toSym)
        { world := w, result := none, lastErr := none } i = some e ∧ shouldRetry e = true) :
    ∃ e, outcome (fetchClosure json strs net amount fromSym toSym)
        { world := w, result := none, lastErr := none } (n - 1) = some e ∧
      (getConversionPriceDo oor json strs c net ctx w amount fromSym toSym).calls = n ∧
      (getConversionPriceDo oor json strs c net ctx w amount fromSym toSym).err =
        some (exhaustedErr c.retry (some e)) ∧
      GetConversionPrice oor json strs c net ctx w amount fromSym toSym = (none, some e) ∧
      (e = GoError.domain DomainError.ErrRateLimitExceeded ∨
        e = GoError.domain DomainError.ErrServerError ∨
        e = GoError.domain DomainError.ErrNetworkFailure) ∧
      e ≠ exhaustedErr c.retry (some e) := by
  obtain ⟨e, he, hsr⟩ := hfail (n - 1) (by omega)
  have hrun := Do_run_exhausted oor c.retry shouldRetry
    (fetchClosure json strs net amount fromSym toSym) ctx
    { world := w, result := none, lastErr := none } n hn hmax (fun i _ => hctx i)
    (fun i hi => hfail i (by omega)) e he hsr
  have hlast := fetchClosure_stateAfter_lastErr json strs net amount fromSym toSym
    { world := w, result := none, lastErr := none } (n - 1)
  rw [show n - 1 + 1 = n by omega, he] at hlast
  have hkind := (shouldRetry_true_iff e).mp hsr
  refine ⟨e, he, ?_, ?_, ?_, hkind, ?_⟩
  · unfold getConversionPriceDo
    rw [hrun, calls_retryTrace_append]
    simp [Event.isInvoke]
    omega
  · unfold getConversionPriceDo
    rw [hrun]
  · unfold GetConversionPrice getConversionPriceDo
    rw [hrun]
    simp [hlast]
  · rcases hkind with h | h | h <;> subst h <;> simp [exhaustedErr]

/-- Witness of C10 as amended: every exchange is an HTTP 500, four attempts are made, and the
caller receives `ErrServerError` itself. -/
theorem GetConversionPrice_returns_last_error_witness :
    ∃ e, outcome (fetchClosure failingJSON asciiStrings
          (constantNet (Exchange.response 500 "")) (Float64.finite 1) "BTC" "USD")
        { world := 0, result := none, lastErr := none } (4 - 1) = some e ∧
      (getConversionPriceDo amd64OutOfRange failingJSON asciiStrings
        (NewCoinMarketCapRepository "key" "https://pro-api.coinmarketcap.com")
        (constantNet (Exchange.response 500 "")) Background 0
          (Float64.finite 1) "BTC" "USD").calls = 4 ∧
      (getConversionPriceDo amd64OutOfRange failingJSON asciiStrings
        (NewCoinMarketCapRepository "key" "https://pro-api.coinmarketcap.com")
        (constantNet (Exchange.response 500 "")) Background 0 (Float64.finite 1) "BTC" "USD").err =
          some (exhaustedErr
            (NewCoinMarketCapRepository "key" "https://pro-api.coinmarketcap.com").retry
            (some e)) ∧
      GetConversionPrice amd64OutOfRange failingJSON asciiStrings
        (NewCoinMarketCapRepository "key" "https://pro-api.coinmarketcap.com")
        (constantNet (Exchange.response 500 "")) Background 0
          (Float64.finite 1) "BTC" "USD" = (none, some e) ∧
      (e = GoError.domain DomainError.ErrRateLimitExceeded ∨
        e = GoError.domain DomainError.ErrServerError ∨
        e = GoError.domain DomainError.ErrNetworkFailure) ∧
      e ≠ exhaustedErr
        (NewCoinMarketCapRepository "key" "https://pro-api.coinmarketcap.com").retry (some e) :=
  GetConversionPrice_returns_last_error amd64OutOfRange failingJSON asciiStrings
    (NewCoinMarketCapRepository "key" "https://pro-api.coinmarketcap.com")
    (constantNet (Exchange.response 500 "")) Background 0
      (Float64.finite 1) "BTC" "USD" 4 (by decide) rfl
    (fun _ => rfl) (fun _ _ => ⟨GoError.domain DomainError.ErrServerError, rfl, rfl⟩)

/-- C10 fails as stated: with an HTTP 500 on each of the four attempts and no cancellation,
`retry.Do` ends with the attempts-exhausted error, and `GetConversionPrice` returns
`ErrServerError` itself, which is not that attempts-exhausted error. -/
theorem GetConversionPrice_not_exhaustedErr :
    (getConversionPriceDo amd64OutOfRange failingJSON asciiStrings
      (NewCoinMarketCapRepository "key" "https://pro-api.coinmarketcap.com")
      (constantNet (Exchange.response 500 "")) Background 0
        (Float64.finite 1) "BTC" "USD").calls = 4 ∧
    (getConversionPriceDo amd64OutOfRange failingJSON asciiStrings
      (NewCoinMarketCapRepository "key" "https://pro-api.coinmarketcap.com")
      (constantNet (Exchange.response 500 "")) Background 0 (Float64.finite 1) "BTC" "USD").err =
        some (exhaustedErr DefaultStrategy (some (GoError.domain DomainError.ErrServerError))) ∧
    GetConversionPrice amd64OutOfRange failingJSON asciiStrings
      (NewCoinMarketCapRepository "key" "https://pro-api.coinmarketcap.com")
      (constantNet (Exchange.response 500 "")) Background 0 (Float64.finite 1) "BTC" "USD" =
        (none, some (GoError.domain DomainError.ErrServerError)) ∧
    (GetConversionPrice amd64OutOfRange failingJSON asciiStrings
      (NewCoinMarketCapRepository "key" "https://pro-api.coinmarketcap.com")
      (constantNet (Exchange.response 500 "")) Background 0 (Float64.finite 1) "BTC" "USD").2 ≠
        some (exhaustedErr DefaultStrategy (some (GoError.domain DomainError.ErrServerError))) := by
  refine ⟨by decide, by decide, by decide, by decide⟩

end RepositoryClaims


section CancellationAndDelays

variable {σ : Type} (oor : Float64 → Int) (s : Strategy) (sr : GoError → Bool)
  (fn : σ → Option GoError × σ) (ctx : Nat → Option GoError)

/-- An iteration that passes the loop test invokes the operation. -/
theorem doLoop_calls_pos (fuel a : Nat) (l : Option GoError) (st : σ)
    (h : (a : Int) < s.MaxAttempts) :
    1 ≤ (doLoop oor s sr fn ctx (fuel + 1) a l st).calls := by
  rcases doLoop_cases s sr fn ctx a st with h1 | ⟨h1, st1, hfn⟩ |
    ⟨h1, e, st1, hfn, hsr⟩ | ⟨e, st1, hfn, hsr, hlast⟩ | ⟨h1, e, st1, ce, hfn, hsr, hlast, hctx⟩ |
    ⟨h1, e, st1, hfn, hsr, hlast, hctx⟩
  · exact absurd h h1
  · rw [doLoop_success oor s sr fn ctx _ a l st st1 h1 hfn]; simp [DoResult.calls, Event.isInvoke]
  · rw [doLoop_stop oor s sr fn ctx _ a l st st1 e h1 hfn hsr]
    simp [DoResult.calls, Event.isInvoke]
  · rw [doLoop_last oor s sr fn ctx _ a l st st1 e hfn hsr hlast]
    simp [DoResult.calls, Event.isInvoke]
  · rw [doLoop_cancel oor s sr fn ctx _ a l st st1 e ce h1 hfn hsr hlast hctx]
    simp [DoResult.calls, Event.isInvoke]
  · rw [doLoop_next oor s sr fn ctx _ a l st st1 e h1 hfn hsr hlast hctx]
    simp [DoResult.calls, Event.isInvoke]

/-- A select that receives from `ctx.Done()` is the last event of the loop, and the loop
returns the cancellation error. -/
theorem doLoop_cancelled_last : ∀ (fuel a : Nat) (l : Option GoError) (st : σ) (d : Int)
    (ce : GoError), Event.cancelled d ce ∈ (doLoop oor s sr fn ctx fuel a l st).trace →
    (doLoop oor s sr fn ctx fuel a l st).err = some (cancelledErr ce) ∧
    ∃ pre, (doLoop oor s sr fn ctx fuel a l st).trace = pre ++ [Event.cancelled d ce] ∧
      ∀ d1 ce1, Event.cancelled d1 ce1 ∉ pre := by
  intro fuel
  induction fuel with
  | zero => intro a l st d ce hin; simp [doLoop] at hin
  | succ n ih =>
    intro a l st d ce hin
    rcases doLoop_cases s sr fn ctx a st with h1 | ⟨h1, st1, hfn⟩ |
      ⟨h1, e1, st1, hfn, hsr⟩ | ⟨e1, st1, hfn, hsr, hlast⟩ |
      ⟨h1, e1, st1, ce1, hfn, hsr, hlast, hctx⟩ | ⟨h1, e1, st1, hfn, hsr, hlast, hctx⟩
    · rw [doLoop_exit oor s sr fn ctx _ a l st h1] at hin; simp at hin
    · rw [doLoop_success oor s sr fn ctx _ a l st st1 h1 hfn] at hin; simp at hin
    · rw [doLoop_stop oor s sr fn ctx _ a l st st1 e1 h1 hfn hsr] at hin; simp at hin
    · rw [doLoop_last oor s sr fn ctx _ a l st st1 e1 hfn hsr hlast] at hin; simp at hin
    · rw [doLoop_cancel oor s sr fn ctx _ a l st st1 e1 ce1 h1 hfn hsr hlast hctx] at hin ⊢
      have he : d = s.calculateDelay oor a ∧ ce = ce1 := by simpa using hin
      obtain ⟨hd, hce⟩ := he
      subst hd; subst hce
      exact ⟨rfl, [Event.invoke (some e1)], rfl, by simp⟩
    · rw [doLoop_next oor s sr fn ctx _ a l st st1 e1 h1 hfn hsr hlast hctx] at hin ⊢
      have hin1 : Event.cancelled d ce ∈
          (doLoop oor s sr fn ctx n (a + 1) (some e1) st1).trace := by
        simpa using hin
      obtain ⟨herr, pre, hpre, hnot⟩ := ih (a + 1) (some e1) st1 d ce hin1
      refine ⟨herr, Event.invoke (some e1) :: Event.wait (s.calculateDelay oor a) :: pre, ?_, ?_⟩
      · simp [hpre]
      · intro d1 ce1
        simp [hnot d1 ce1]

/-- The delay is never above `MaxDelay`. -/
theorem calculateDelay_le (oor : Float64 → Int) (s : Strategy) (attempt : Nat) :
    s.calculateDelay oor attempt ≤ s.MaxDelay := by
  rw [calculateDelay_eq_min_toDuration]
  exact min_le_right _ _

/-- The timer of every select of the loop is set to a value of `calculateDelay`. -/
theorem doLoop_timer : ∀ (fuel a : Nat) (l : Option GoError) (st : σ) (ev : Event) (d : Int),
    ev ∈ (doLoop oor s sr fn ctx fuel a l st).trace → ev.timer = some d →
    ∃ i, a ≤ i ∧ (i : Int) + 1 < s.MaxAttempts ∧ d = s.calculateDelay oor i := by
  intro fuel
  induction fuel with
  | zero => intro a l st ev d hin; simp [doLoop] at hin
  | succ n ih =>
    intro a l st ev d hin htimer
    rcases doLoop_cases s sr fn ctx a st with h1 | ⟨h1, st1, hfn⟩ |
      ⟨h1, e1, st1, hfn, hsr⟩ | ⟨e1, st1, hfn, hsr, hlast⟩ |
      ⟨h1, e1, st1, ce1, hfn, hsr, hlast, hctx⟩ | ⟨h1, e1, st1, hfn, hsr, hlast, hctx⟩
    · rw [doLoop_exit oor s sr fn ctx _ a l st h1] at hin; simp at hin
    · rw [doLoop_success oor s sr fn ctx _ a l st st1 h1 hfn] at hin
      simp at hin; subst hin; simp [Event.timer] at htimer
    · rw [doLoop_stop oor s sr fn ctx _ a l st st1 e1 h1 hfn hsr] at hin
      simp at hin; subst hin; simp [Event.timer] at htimer
    · rw [doLoop_last oor s sr fn ctx _ a l st st1 e1 hfn hsr hlast] at hin
      simp at hin; subst hin; simp [Event.timer] at htimer
    · rw [doLoop_cancel oor s sr fn ctx _ a l st st1 e1 ce1 h1 hfn hsr hlast hctx] at hin
      simp at hin
      rcases hin with hin | hin
      · subst hin; simp [Event.timer] at htimer
      · subst hin
        simp [Event.timer] at htimer
        exact ⟨a, le_refl a, by omega, htimer.symm⟩
    · rw [doLoop_next oor s sr fn ctx _ a l st st1 e1 h1 hfn hsr hlast hctx] at hin
      simp at hin
      rcases hin with hin | hin | hin
      · subst hin; simp [Event.timer] at htimer
      · subst hin
        simp [Event.timer] at htimer
        exact ⟨a, le_refl a, by omega, htimer.symm⟩
      · obtain ⟨i, hi, hlt, hd⟩ := ih (a + 1) (some e1) st1 ev d hin htimer
        exact ⟨i, by omega, hlt, hd⟩

/-- C12, as amended: the first attempt is always made, whatever the state of the context (with
`MaxAttempts ≥ 1` the operation is invoked at least once, and exactly once when the first
select receives from `ctx.Done()`); and a select that receives from `ctx.Done()`, whatever its
delay, is the last event of the run: no attempt is started after it. -/
theorem Do_no_attempt_after_cancelled_select (st : σ) :
    (1 ≤ s.MaxAttempts → 1 ≤ (Do oor ctx s sr fn st).calls) ∧
    (∀ ce, 1 ≤ s.MaxAttempts → ctx 0 = some ce → (Do oor ctx s sr fn st).calls = 1) ∧
    (∀ d ce, Event.cancelled d ce ∈ (Do oor ctx s sr fn st).trace →
      (Do oor ctx s sr fn st).err = some (cancelledErr ce) ∧
      ∃ pre, (Do oor ctx s sr fn st).trace = pre ++ [Event.cancelled d ce] ∧
        ∀ d1 ce1, Event.cancelled d1 ce1 ∉ pre) := by
  refine ⟨?_, ?_, ?_⟩
  · intro hmax
    obtain ⟨f, hf⟩ : ∃ f, s.MaxAttempts.toNat = f + 1 := ⟨s.MaxAttempts.toNat - 1, by omega⟩
    unfold Do
    rw [hf]
    exact doLoop_calls_pos oor s sr fn ctx f 0 none st (by omega)
  · intro ce hmax hctx
    obtain ⟨f, hf⟩ : ∃ f, s.MaxAttempts.toNat = f + 1 := ⟨s.MaxAttempts.toNat - 1, by omega⟩
    unfold Do
    rw [hf]
    rcases doLoop_cases s sr fn ctx 0 st with h1 | ⟨h1, st1, hfn⟩ |
      ⟨h1, e, st1, hfn, hsr⟩ | ⟨e, st1, hfn, hsr, hlast⟩ |
      ⟨h1, e, st1, ce1, hfn, hsr, hlast, hc⟩ | ⟨h1, e, st1, hfn, hsr, hlast, hc⟩
    · exact absurd (by omega) h1
    · rw [doLoop_success oor s sr fn ctx _ 0 none st st1 h1 hfn]; rfl
    · rw [doLoop_stop oor s sr fn ctx _ 0 none st st1 e h1 hfn hsr]; rfl
    · rw [doLoop_last oor s sr fn ctx _ 0 none st st1 e hfn hsr hlast]; rfl
    · rw [doLoop_cancel oor s sr fn ctx _ 0 none st st1 e ce1 h1 hfn hsr hlast hc]; rfl
    · rw [hctx] at hc; cases hc
  · intro d ce hin
    exact doLoop_cancelled_last oor s sr fn ctx _ 0 none st d ce hin

end CancellationAndDelays

/-- Witness of C12 as amended, on `TestDo_ContextCancellation` with the context done during the
first wait: one invocation, and the cancelled select is the last event. -/
theorem Do_no_attempt_after_cancelled_select_witness :
    1 ≤ (Do amd64OutOfRange (cancelledDuringWait 0) testStrategy5
      (isErr (GoError.leaf "test error")) (alwaysFail (GoError.leaf "test error")) 0).calls ∧
    (Do amd64OutOfRange (cancelledDuringWait 0) testStrategy5
      (isErr (GoError.leaf "test error")) (alwaysFail (GoError.leaf "test error")) 0).calls = 1 ∧
    ((Do amd64OutOfRange (cancelledDuringWait 0) testStrategy5
      (isErr (GoError.leaf "test error")) (alwaysFail (GoError.leaf "test error")) 0).err =
        some (cancelledErr ctxCanceled) ∧
      ∃ pre, (Do amd64OutOfRange (cancelledDuringWait 0) testStrategy5
        (isErr (GoError.leaf "test error")) (alwaysFail (GoError.leaf "test error")) 0).trace =
          pre ++ [Event.cancelled (testStrategy5.calculateDelay amd64OutOfRange 0) ctxCanceled] ∧
        ∀ d1 ce1, Event.cancelled d1 ce1 ∉ pre) :=
  ⟨(Do_no_attempt_after_cancelled_select amd64OutOfRange testStrategy5
      (isErr (GoError.leaf "test error")) (alwaysFail (GoError.leaf "test error"))
      (cancelledDuringWait 0) 0).1 (by decide),
    (Do_no_attempt_after_cancelled_select amd64OutOfRange testStrategy5
      (isErr (GoError.leaf "test error")) (alwaysFail (GoError.leaf "test error"))
      (cancelledDuringWait 0) 0).2.1 ctxCanceled (by decide) rfl,
    (Do_no_attempt_after_cancelled_select amd64OutOfRange testStrategy5
      (isErr (GoError.leaf "test error")) (alwaysFail (GoError.leaf "test error"))
      (cancelledDuringWait 0) 0).2.2 (testStrategy5.calculateDelay amd64OutOfRange 0) ctxCanceled
      (List.mem_cons_of_mem _ (List.mem_singleton.mpr rfl))⟩

/-- C12 fails as stated: with a context already cancelled on entry, the default strategy and
an operation that fails with a retryable error, `retry.Do` invokes the operation once, not zero
times, before it returns the cancellation error. -/
theorem Do_invokes_when_cancelled_on_entry :
    (Do amd64OutOfRange cancelledOnEntry DefaultStrategy (isErr (GoError.leaf "test error"))
      (alwaysFail (GoError.leaf "test error")) 0).calls = 1 ∧
    (Do amd64OutOfRange cancelledOnEntry DefaultStrategy (isErr (GoError.leaf "test error"))
      (alwaysFail (GoError.leaf "test error")) 0).calls ≠ 0 ∧
    (Do amd64OutOfRange cancelledOnEntry DefaultStrategy (isErr (GoError.leaf "test error"))
      (alwaysFail (GoError.leaf "test error")) 0).state = 1 ∧
    (Do amd64OutOfRange cancelledOnEntry DefaultStrategy (isErr (GoError.leaf "test error"))
      (alwaysFail (GoError.leaf "test error")) 0).err = some (cancelledErr ctxCanceled) := by
  refine ⟨by decide, by decide, by decide, by decide⟩

/-- C19: for every strategy and every attempt, `calculateDelay(attempt) ≤ MaxDelay` (whatever
an out-of-range conversion yields), and the timer of every select of `retry.Do`, whether it
fires or is cut short by the context, is set to at most `MaxDelay`. -/
theorem calculateDelay_le_MaxDelay :
    (∀ (oor : Float64 → Int) (s : Strategy) (attempt : Nat),
      s.calculateDelay oor attempt ≤ s.MaxDelay) ∧
    (∀ (σ : Type) (oor : Float64 → Int) (ctx : Nat → Option GoError) (s : Strategy)
      (sr : GoError → Bool) (fn : σ → Option GoError × σ) (st : σ) (ev : Event) (d : Int),
      ev ∈ (Do oor ctx s sr fn st).trace → ev.timer = some d → d ≤ s.MaxDelay) := by
  refine ⟨calculateDelay_le, ?_⟩
  intro σ oor ctx s sr fn st ev d hin htimer
  obtain ⟨i, _, _, hd⟩ := doLoop_timer oor s sr fn ctx _ 0 none st ev d hin htimer
  rw [hd]
  exact calculateDelay_le oor s i

/-- Witness of C19 on `TestDo_ContextCancellation`: the timer of the cancelled select is at
most one second. -/
theorem calculateDelay_le_MaxDelay_witness :
    testStrategy5.calculateDelay amd64OutOfRange 0 ≤ testStrategy5.MaxDelay :=
  calculateDelay_le_MaxDelay.2 Nat amd64OutOfRange (cancelledDuringWait 0) testStrategy5
    (isErr (GoError.leaf "test error")) (alwaysFail (GoError.leaf "test error")) 0
    (Event.cancelled (testStrategy5.calculateDelay amd64OutOfRange 0) ctxCanceled)
    (testStrategy5.calculateDelay amd64OutOfRange 0)
    (List.mem_cons_of_mem _ (List.mem_singleton.mpr rfl)) rfl

section WaitsBetweenAttempts

variable {σ : Type} (oor : Float64 → Int) (s : Strategy) (sr : GoError → Bool)
  (fn : σ → Option GoError × σ) (ctx : Nat → Option GoError)

/-- The outcomes of the first `c + 1` invocations: the first one, then those counted from the
state it leaves. -/
theorem map_outcome_succ (st : σ) (c : Nat) :
    (List.range (c + 1)).map (outcome fn st) =
      (fn st).1 :: (List.range c).map (outcome fn (fn st).2) := by
  rw [List.range_succ_eq_map, List.map_cons, List.map_map]
  rfl

/-- The waits of an alternating run are the delays of the attempts but the last, in order. -/
theorem waitsOf_alternating : ∀ (outs : List (Option GoError)) (a : Nat),
    waitsOf (alternating oor s a outs) =
      (List.range (outs.length - 1)).map (fun i => s.calculateDelay oor (a + i)) := by
  intro outs
  induction outs with
  | nil => intro a; rfl
  | cons r rest ih =>
    intro a
    cases rest with
    | nil => rfl
    | cons r1 rest1 =>
      have h := ih (a + 1)
      simp only [alternating, waitsOf, h, List.length_cons, Nat.add_sub_cancel]
      rw [List.range_succ_eq_map, List.map_cons, List.map_map]
      congr 1
      apply List.map_congr_left
      intro i _
      simp only [Function.comp, Nat.succ_eq_add_one]
      congr 1
      omega

/-- A run of the loop that no select cuts short alternates invocations and waits. -/
theorem doLoop_alternating : ∀ (fuel a : Nat) (l : Option GoError) (st : σ),
    s.MaxAttempts.toNat - a ≤ fuel →
    (∀ d ce, Event.cancelled d ce ∉ (doLoop oor s sr fn ctx fuel a l st).trace) →
    (doLoop oor s sr fn ctx fuel a l st).trace =
      alternating oor s a
        ((List.range (doLoop oor s sr fn ctx fuel a l st).calls).map (outcome fn st)) := by
  intro fuel
  induction fuel with
  | zero =>
    intro a l st _ _
    rfl
  | succ n ih =>
    intro a l st hfuel hnc
    rcases doLoop_cases s sr fn ctx a st with h1 | ⟨h1, st1, hfn⟩ |
      ⟨h1, e, st1, hfn, hsr⟩ | ⟨e, st1, hfn, hsr, hlast⟩ | ⟨h1, e, st1, ce, hfn, hsr, hlast, hctx⟩ |
      ⟨h1, e, st1, hfn, hsr, hlast, hctx⟩
    · rw [doLoop_exit oor s sr fn ctx _ a l st h1]; rfl
    · rw [doLoop_success oor s sr fn ctx _ a l st st1 h1 hfn]
      have hc : (DoResult.mk (none : Option GoError) st1 [Event.invoke none]).calls = 0 + 1 := rfl
      rw [hc, map_outcome_succ, hfn]
      rfl
    · rw [doLoop_stop oor s sr fn ctx _ a l st st1 e h1 hfn hsr]
      have hc : (DoResult.mk (some e) st1 [Event.invoke (some e)]).calls = 0 + 1 := rfl
      rw [hc, map_outcome_succ, hfn]
      rfl
    · rw [doLoop_last oor s sr fn ctx _ a l st st1 e hfn hsr hlast]
      have hc : (DoResult.mk (some (exhaustedErr s (some e))) st1
          [Event.invoke (some e)]).calls = 0 + 1 := rfl
      rw [hc, map_outcome_succ, hfn]
      rfl
    · rw [doLoop_cancel oor s sr fn ctx _ a l st st1 e ce h1 hfn hsr hlast hctx] at hnc
      exact absurd (by simp) (hnc (s.calculateDelay oor a) ce)
    · rw [doLoop_next oor s sr fn ctx _ a l st st1 e h1 hfn hsr hlast hctx] at hnc ⊢
      obtain ⟨m, hm⟩ : ∃ m, n = m + 1 := ⟨n - 1, by omega⟩
      have hpos : 1 ≤ (doLoop oor s sr fn ctx n (a + 1) (some e) st1).calls := by
        rw [hm]
        exact doLoop_calls_pos oor s sr fn ctx m (a + 1) (some e) st1 (by push_cast; omega)
      have hrest := ih (a + 1) (some e) st1 (by omega)
        (fun d ce hin => hnc d ce (by simp [hin]))
      obtain ⟨c, hc⟩ : ∃ c, (doLoop oor s sr fn ctx n (a + 1) (some e) st1).calls = c + 1 :=
        ⟨(doLoop oor s sr fn ctx n (a + 1) (some e) st1).calls - 1, by omega⟩
      have hst1 : (fn st).2 = st1 := by rw [hfn]
      have hfst : (fn st).1 = some e := by rw [hfn]
      have hcalls : (DoResult.mk (doLoop oor s sr fn ctx n (a + 1) (some e) st1).err
          (doLoop oor s sr fn ctx n (a + 1) (some e) st1).state
          (Event.invoke (some e) :: Event.wait (s.calculateDelay oor a) ::
            (doLoop oor s sr fn ctx n (a + 1) (some e) st1).trace)).calls = (c + 1) + 1 := by
        rw [← hc]
        simp [DoResult.calls, Event.isInvoke]
      rw [hcalls, map_outcome_succ, hst1, hfst]
      rw [hc, map_outcome_succ] at hrest
      rw [map_outcome_succ]
      simp only [alternating]
      rw [hrest]

end WaitsBetweenAttempts

section WaitsClaim

variable {σ : Type} (oor : Float64 → Int) (s : Strategy) (sr : GoError → Bool)
  (fn : σ → Option GoError × σ) (ctx : Nat → Option GoError)

/-- The waits of `j` retried attempts followed by `tail`. -/
theorem waitsOf_retryTrace_append : ∀ (j : Nat) (st : σ) (a : Nat) (tail : List Event),
    waitsOf (retryTrace oor s fn st a j ++ tail) =
      (List.range j).map (fun i => s.calculateDelay oor (a + i)) ++ waitsOf tail := by
  intro j
  induction j with
  | zero => intro st a tail; rfl
  | succ j ih =>
    intro st a tail
    have hunfold : retryTrace oor s fn st a (j + 1) ++ tail =
        Event.invoke (fn st).1 :: Event.wait (s.calculateDelay oor a) ::
          (retryTrace oor s fn (fn st).2 (a + 1) j ++ tail) := rfl
    have hwaits : ∀ (r : Option GoError) (d : Int) (rest : List Event),
        waitsOf (Event.invoke r :: Event.wait d :: rest) = d :: waitsOf rest := fun _ _ _ => rfl
    have hmap : (List.range j).map (fun i => s.calculateDelay oor (a + 1 + i)) =
        (List.range j).map ((fun i => s.calculateDelay oor (a + i)) ∘ Nat.succ) := by
      apply List.map_congr_left
      intro i _
      simp only [Function.comp, Nat.succ_eq_add_one]
      congr 1
      omega
    rw [hunfold, hwaits, ih, List.range_succ_eq_map, List.map_cons, List.map_map, hmap]
    rfl

/-- The delays of the first three attempts under the default strategy. -/
theorem DefaultStrategy_delays (oor : Float64 → Int) :
    DefaultStrategy.calculateDelay oor 0 = 1 * Second ∧
    DefaultStrategy.calculateDelay oor 1 = 2 * Second ∧
    DefaultStrategy.calculateDelay oor 2 = 4 * Second := by
  refine ⟨?_, ?_, ?_⟩
  · rw [calculateDelay_of_finite oor DefaultStrategy 0 1000000000 (by decide!) (by decide!)
      (by decide!)]
    decide!
  · rw [calculateDelay_of_finite oor DefaultStrategy 1 2000000000 (by decide!) (by decide!)
      (by decide!)]
    decide!
  · rw [calculateDelay_of_finite oor DefaultStrategy 2 4000000000 (by decide!) (by decide!)
      (by decide!)]
    decide!

/-- C20: in a run of `retry.Do` that no cancellation cuts short, with `m` invocations, the
events alternate: an invocation, a wait, an invocation, ..., the last event being the last
invocation; the waits are `calculateDelay(0), ..., calculateDelay(m-2)` in that order. Under
the default strategy a persistently retryable failure gives 4 invocations with waits 1s, 2s,
4s. -/
theorem Do_waits_between_attempts (st : σ) :
    ((∀ d ce, Event.cancelled d ce ∉ (Do oor ctx s sr fn st).trace) →
      (Do oor ctx s sr fn st).trace =
        alternating oor s 0
          ((List.range (Do oor ctx s sr fn st).calls).map (outcome fn st)) ∧
      waitsOf (Do oor ctx s sr fn st).trace =
        (List.range ((Do oor ctx s sr fn st).calls - 1)).map (s.calculateDelay oor)) ∧
    ((∀ i, i < 4 → ∃ e, outcome fn st i = some e ∧ sr e = true) →
      (Do oor Background DefaultStrategy sr fn st).calls = 4 ∧
      waitsOf (Do oor Background DefaultStrategy sr fn st).trace =
        [1 * Second, 2 * Second, 4 * Second]) := by
  constructor
  · intro hnc
    have htrace := doLoop_alternating oor s sr fn ctx s.MaxAttempts.toNat 0 none st
      (by omega) hnc
    have htrace2 : (Do oor ctx s sr fn st).trace =
        alternating oor s 0
          ((List.range (Do oor ctx s sr fn st).calls).map (outcome fn st)) := htrace
    refine ⟨htrace2, ?_⟩
    rw [htrace2, waitsOf_alternating]
    simp
  · intro hfail
    obtain ⟨e, he, hsr⟩ := hfail 3 (by decide)
    have hrun := Do_run_exhausted oor DefaultStrategy sr fn Background st 4 (by decide) rfl
      (fun _ _ => rfl) (fun i hi => hfail i (by omega)) e he hsr
    obtain ⟨h0, h1, h2⟩ := DefaultStrategy_delays oor
    constructor
    · rw [hrun, calls_retryTrace_append]
      rfl
    · rw [hrun]
      simp only [waitsOf_retryTrace_append]
      simp [List.range_succ_eq_map, waitsOf, h0, h1, h2]

end WaitsClaim

/-- Witness of C20 on `TestDo_MaxRetriesExceeded` run under the default strategy: four
invocations, waits of 1s, 2s and 4s between them. -/
theorem Do_waits_between_attempts_witness :
    ((Do amd64OutOfRange Background DefaultStrategy (isErr (GoError.leaf "persistent error"))
        (alwaysFail (GoError.leaf "persistent error")) 0).trace =
        alternating amd64OutOfRange DefaultStrategy 0
          ((List.range (Do amd64OutOfRange Background DefaultStrategy
            (isErr (GoError.leaf "persistent error"))
            (alwaysFail (GoError.leaf "persistent error")) 0).calls).map
              (outcome (alwaysFail (GoError.leaf "persistent error")) 0)) ∧
      waitsOf (Do amd64OutOfRange Background DefaultStrategy
        (isErr (GoError.leaf "persistent error"))
        (alwaysFail (GoError.leaf "persistent error")) 0).trace =
        (List.range ((Do amd64OutOfRange Background DefaultStrategy
          (isErr (GoError.leaf "persistent error"))
          (alwaysFail (GoError.leaf "persistent error")) 0).calls - 1)).map
            (DefaultStrategy.calculateDelay amd64OutOfRange)) ∧
    ((Do amd64OutOfRange Background DefaultStrategy (isErr (GoError.leaf "persistent error"))
        (alwaysFail (GoError.leaf "persistent error")) 0).calls = 4 ∧
      waitsOf (Do amd64OutOfRange Background DefaultStrategy
        (isErr (GoError.leaf "persistent error"))
        (alwaysFail (GoError.leaf "persistent error")) 0).trace =
        [1 * Second, 2 * Second, 4 * Second]) :=
  ⟨(Do_waits_between_attempts amd64OutOfRange DefaultStrategy
      (isErr (GoError.leaf "persistent error")) (alwaysFail (GoError.leaf "persistent error"))
      Background 0).1 (fun d ce hin => by
        have h : (Do amd64OutOfRange Background DefaultStrategy
            (isErr (GoError.leaf "persistent error"))
            (alwaysFail (GoError.leaf "persistent error")) 0).trace =
            retryTrace amd64OutOfRange DefaultStrategy
              (alwaysFail (GoError.leaf "persistent error")) 0 0 3 ++
              [Event.invoke (some (GoError.leaf "persistent error"))] := rfl
        rw [h] at hin
        simp [retryTrace] at hin),
    (Do_waits_between_attempts amd64OutOfRange DefaultStrategy
      (isErr (GoError.leaf "persistent error")) (alwaysFail (GoError.leaf "persistent error"))
      Background 0).2 (fun _ _ => ⟨GoError.leaf "persistent error", rfl, by decide⟩)⟩

/-- C18 on the code, for `InitialDelay = 1s`, `Multiplier = 2.0`, `MaxDelay = 10s` on amd64: the
delay of attempt 33 is the cap of 10s, the product of attempt 34 is no int64 and the delay of
attempt 34 is `math.MinInt64`, below the delay of attempt 33 and not the cap. -/
theorem calculateDelay_drops_after_overflow :
    (0 ≤ testStrategyDelay.InitialDelay ∧ 1 ≤ testStrategyDelay.Multiplier) ∧
    testStrategyDelay.calculateDelay amd64OutOfRange 33 = testStrategyDelay.MaxDelay ∧
    testStrategyDelay.calculateDelay amd64OutOfRange 34 = minInt64 ∧
    ¬ (testStrategyDelay.calculateDelay amd64OutOfRange 33 ≤
        testStrategyDelay.calculateDelay amd64OutOfRange 34) ∧
    testStrategyDelay.calculateDelay amd64OutOfRange 34 ≠ testStrategyDelay.MaxDelay := by
  have h33 : testStrategyDelay.calculateDelay amd64OutOfRange 33 = 10000000000 := by decide!
  have h34 : testStrategyDelay.calculateDelay amd64OutOfRange 34 = -9223372036854775808 := by
    decide!
  refine ⟨⟨by decide, by norm_num [testStrategyDelay]⟩, ?_, ?_, ?_, ?_⟩
  · rw [h33]; decide
  · rw [h34]; rfl
  · rw [h33, h34]; decide
  · rw [h34]; decide

section FetchClaims

variable {Data : Type} (json : JSONPkg Data) (strs : StringsPkg)

/-- A list without an entry keyed by `k` has no value for `k`. -/
theorem lookup_eq_none_of_no_entry {β : Type} (k : String) :
    ∀ (l : List (String × β)), (∀ v, (k, v) ∉ l) → l.lookup k = none := by
  intro l
  induction l with
  | nil => intro _; rfl
  | cons p rest ih =>
    intro h
    obtain ⟨k1, v1⟩ := p
    have hne : k ≠ k1 := by
      intro hk
      exact h v1 (by simp [hk])
    have hb : (k == k1) = false := by simpa using hne
    rw [List.lookup_cons, hb]
    exact ih (fun v hv => h v (List.mem_cons_of_mem _ hv))

/-- C14, as amended: a response whose status is not 200, a status 201..299 included, is turned
into the error `handleHTTPError(status, body)`; a response whose status is 200 has its envelope
decoded: a decoding failure is an InvalidResponse error, and an envelope with error code 0 goes
on to `parseConversionData` (quote extraction). -/
theorem fetchConversionPrice_status_gate (now : Time) (amount : Float64) (fromSym toSym : String)
    (statusCode : Int) (body : String) :
    (statusCode ≠ 200 →
      fetchConversionPrice json strs
          { exchange := Exchange.response statusCode body, now := now } amount fromSym toSym =
        (none, some (handleHTTPError statusCode body))) ∧
    (statusCode = 200 → ∀ err, json.UnmarshalAPIResponse body = .error err →
      fetchConversionPrice json strs
          { exchange := Exchange.response statusCode body, now := now } amount fromSym toSym =
        (none, some (wrapDomain DomainError.ErrInvalidResponse err.Error))) ∧
    (statusCode = 200 → ∀ apiResp, json.UnmarshalAPIResponse body = .ok apiResp →
      apiResp.Status.ErrorCode = 0 →
      fetchConversionPrice json strs
          { exchange := Exchange.response statusCode body, now := now } amount fromSym toSym =
        parseConversionData json strs now apiResp.Data amount fromSym toSym) := by
  refine ⟨?_, ?_, ?_⟩
  · intro h
    simp [fetchConversionPrice, StatusOK, h]
  · intro h err herr
    simp [fetchConversionPrice, StatusOK, h, herr]
  · intro h apiResp hok hcode
    simp [fetchConversionPrice, StatusOK, h, hok, hcode]

/-- C15: for an HTTP 200 response whose envelope decodes and carries a non-zero error code,
`fetchConversionPrice` returns no result and the error `handleAPIError(error_code,
error_message)`, whatever the data block is. -/
theorem fetchConversionPrice_provider_error (att : Attempt) (body : String)
    (apiResp : APIResponse Data) (amount : Float64) (fromSym toSym : String)
    (hx : att.exchange = Exchange.response StatusOK body)
    (hdec : json.UnmarshalAPIResponse body = .ok apiResp)
    (hcode : apiResp.Status.ErrorCode ≠ 0) :
    fetchConversionPrice json strs att amount fromSym toSym =
      (none, some (handleAPIError apiResp.Status.ErrorCode apiResp.Status.ErrorMessage)) := by
  simp [fetchConversionPrice, hx, hdec, hcode]

/-- C16: if the data block, as far as it decodes, has no quote entry keyed by the target symbol
(an empty or missing quote map included), `parseConversionData` returns a nil result and an
error of kind InvalidResponse and of no other kind, for which `shouldRetry` is false; when the
data block decodes, the error is "no quote found for" the target symbol. -/
theorem parseConversionData_quote_absent (now : Time) (data : Data) (amount : Float64)
    (fromSym toSym : String)
    (habsent : ∀ dataBytes convData, json.Marshal data = .ok dataBytes →
      json.UnmarshalPriceConversionData dataBytes = .ok convData →
      ∀ q, (toSym, q) ∉ convData.Quote) :
    (∃ e, parseConversionData json strs now data amount fromSym toSym = (none, some e) ∧
      kindsOf e = [DomainError.ErrInvalidResponse] ∧ shouldRetry e = false) ∧
    (∀ dataBytes convData, json.Marshal data = .ok dataBytes →
      json.UnmarshalPriceConversionData dataBytes = .ok convData →
      parseConversionData json strs now data amount fromSym toSym =
        (none, some (wrapDomain DomainError.ErrInvalidResponse
          ("no quote found for " ++ toSym)))) := by
  have hdecoded : ∀ dataBytes convData, json.Marshal data = .ok dataBytes →
      json.UnmarshalPriceConversionData dataBytes = .ok convData →
      parseConversionData json strs now data amount fromSym toSym =
        (none, some (wrapDomain DomainError.ErrInvalidResponse
          ("no quote found for " ++ toSym))) := by
    intro dataBytes convData hm hu
    have hq := lookup_eq_none_of_no_entry toSym convData.Quote (habsent dataBytes convData hm hu)
    simp [parseConversionData, hm, hu, hq]
  refine ⟨?_, hdecoded⟩
  rcases hm : json.Marshal data with merr | dataBytes
  · exact ⟨wrapDomain DomainError.ErrInvalidResponse "failed to marshal data",
      by simp [parseConversionData, hm], kindsOf_wrapDomain _ _, shouldRetry_wrapError _ _⟩
  · rcases hu : json.UnmarshalPriceConversionData dataBytes with uerr | convData
    · exact ⟨wrapDomain DomainError.ErrInvalidResponse "failed to parse conversion data",
        by simp [parseConversionData, hm, hu], kindsOf_wrapDomain _ _,
        shouldRetry_wrapError _ _⟩
    · exact ⟨_, hdecoded dataBytes convData hm hu, kindsOf_wrapDomain _ _,
        shouldRetry_wrapError _ _⟩

/-- Every result of `parseConversionData` carries the requested amount, the price of a quote
as converted amount and their quotient as exchange rate. -/
theorem parseConversionData_result (now : Time) (data : Data) (amount : Float64)
    (fromSym toSym : String) (r : ConversionResult) (e : Option GoError)
    (hr : parseConversionData json strs now data amount fromSym toSym = (some r, e)) :
    e = none ∧ r.OriginalAmount = amount ∧
      r.ExchangeRate = Float64.div r.ConvertedAmount amount := by
  unfold parseConversionData at hr
  split at hr
  · simp at hr
  · split at hr
    · simp at hr
    · split at hr
      · simp at hr
      · split at hr
        · simp at hr
        · split at hr
          · simp at hr
          · simp only [Prod.mk.injEq, Option.some.injEq] at hr
            obtain ⟨hres, he⟩ := hr
            subst hres
            exact ⟨he.symm, rfl, rfl⟩

/-- A result of `fetchConversionPrice` is a result of `parseConversionData`. -/
theorem fetchConversionPrice_result (att : Attempt) (amount : Float64) (fromSym toSym : String)
    (r : ConversionResult) (e : Option GoError)
    (hr : fetchConversionPrice json strs att amount fromSym toSym = (some r, e)) :
    ∃ data, parseConversionData json strs att.now data amount fromSym toSym = (some r, e) := by
  unfold fetchConversionPrice at hr
  split at hr
  · simp at hr
  · simp at hr
  · simp at hr
  · split at hr
    · simp at hr
    · split at hr
      · simp at hr
      · split at hr
        · simp at hr
        · exact ⟨_, hr⟩

/-- C17, as amended: every result of `parseConversionData`, and so of `fetchConversionPrice`,
carries the requested amount as `OriginalAmount`, and its `ExchangeRate` is the float64 quotient
`ConvertedAmount / OriginalAmount`. When the amount is a finite number above zero, the rate is
a finite number and the exact quotient is zero or of magnitude `2^-1022` or more (it is not in
the subnormal range), the exact product `ExchangeRate * OriginalAmount` differs from
`ConvertedAmount` by at most `2^-53 * |ConvertedAmount|`. -/
theorem exchangeRate_times_amount (now : Time) (att : Attempt) (data : Data) (amount : Float64)
    (fromSym toSym : String) (r : ConversionResult) (e : Option GoError)
    (hr : parseConversionData json strs now data amount fromSym toSym = (some r, e) ∨
      fetchConversionPrice json strs att amount fromSym toSym = (some r, e)) :
    r.OriginalAmount = amount ∧
    r.ExchangeRate = Float64.div r.ConvertedAmount r.OriginalAmount ∧
    ∀ a c ρ : ℚ, r.OriginalAmount = Float64.finite a → 0 < a →
      r.ConvertedAmount = Float64.finite c → r.ExchangeRate = Float64.finite ρ →
      (c = 0 ∨ (1 : ℚ) / 2 ^ 1022 ≤ |c / a|) →
      |ρ * a - c| ≤ |c| / 2 ^ 53 := by
  have key : ∃ (now1 : Time) (data1 : Data),
      parseConversionData json strs now1 data1 amount fromSym toSym = (some r, e) := by
    rcases hr with h | h
    · exact ⟨now, data, h⟩
    · obtain ⟨data1, h1⟩ := fetchConversionPrice_result json strs att amount fromSym toSym r e h
      exact ⟨att.now, data1, h1⟩
  obtain ⟨now1, data1, hp⟩ := key
  obtain ⟨_, ho, hrate⟩ := parseConversionData_result json strs now1 data1 amount fromSym
    toSym r e hp
  refine ⟨ho, by rw [ho]; exact hrate, ?_⟩
  intro a c ρ ha hpos hc hρ hn
  rw [ho] at ha
  rw [hc, ha, hρ] at hrate
  exact Float64.div_error c a ρ hpos hrate.symm hn

end FetchClaims

/-- Witness of C14 as amended: a 204 response is classified by `handleHTTPError`, a 200 response
with an undecodable body is an InvalidResponse error, and a 200 response with a clean envelope
goes on to `parseConversionData`. -/
theorem fetchConversionPrice_status_gate_witness :
    fetchConversionPrice (decodesTo (sampleEnvelope 0 none)) identityStrings
        { exchange := Exchange.response 204 "", now := { unixNano := 0 } }
          (Float64.finite 1) "BTC" "USD" =
      (none, some (handleHTTPError 204 "")) ∧
    fetchConversionPrice failingJSON identityStrings
        { exchange := Exchange.response 200 "", now := { unixNano := 0 } }
          (Float64.finite 1) "BTC" "USD" =
      (none, some (wrapDomain DomainError.ErrInvalidResponse
        (GoError.leaf "unexpected end of JSON input").Error)) ∧
    fetchConversionPrice (decodesTo (sampleEnvelope 0 none)) identityStrings
        { exchange := Exchange.response 200 "", now := { unixNano := 0 } }
          (Float64.finite 1) "BTC" "USD" =
      parseConversionData (decodesTo (sampleEnvelope 0 none)) identityStrings { unixNano := 0 }
        (sampleEnvelope 0 none).Data (Float64.finite 1) "BTC" "USD" :=
  ⟨(fetchConversionPrice_status_gate (decodesTo (sampleEnvelope 0 none)) identityStrings
      { unixNano := 0 } (Float64.finite 1) "BTC" "USD" 204 "").1 (by decide),
    (fetchConversionPrice_status_gate failingJSON identityStrings
      { unixNano := 0 } (Float64.finite 1) "BTC" "USD" 200 "").2.1 rfl _ rfl,
    (fetchConversionPrice_status_gate (decodesTo (sampleEnvelope 0 none)) identityStrings
      { unixNano := 0 }
        (Float64.finite 1) "BTC" "USD" 200 "").2.2 rfl (sampleEnvelope 0 none) rfl rfl⟩

/-- C14 fails as stated: a response with status 204, a 2xx status, whose body would decode to a
clean envelope with a quote is not decoded; it is turned into an APIFailure error by
`handleHTTPError`, while the same body with status 200 gives a result. -/
theorem fetchConversionPrice_204_not_decoded :
    fetchConversionPrice (decodesTo (sampleEnvelope 0 none)) identityStrings
        { exchange := Exchange.response 204 "", now := { unixNano := 0 } }
          (Float64.finite 1) "BTC" "USD" =
      (none, some (handleHTTPError 204 "")) ∧
    kindsOf (handleHTTPError 204 "") = [DomainError.ErrAPIFailure] ∧
    fetchConversionPrice (decodesTo (sampleEnvelope 0 none)) identityStrings
        { exchange := Exchange.response 200 "", now := { unixNano := 0 } }
          (Float64.finite 1) "BTC" "USD" =
      (some (sampleResult { unixNano := 0 }), none) := by
  refine ⟨rfl, ?_, rfl⟩
  have h : handleHTTPError 204 "" =
      wrapDomain DomainError.ErrAPIFailure ("HTTP " ++ toString (204 : Int)) := rfl
  rw [h]
  exact kindsOf_wrapDomain _ _

/-- Witness of C15: an HTTP 200 whose envelope carries error code 1001 around a complete quote
gives no result and the error `handleAPIError(1001, message)`. -/
theorem fetchConversionPrice_provider_error_witness :
    fetchConversionPrice (decodesTo (sampleEnvelope 1001 (some "API key invalid")))
        identityStrings { exchange := Exchange.response StatusOK "", now := { unixNano := 0 } }
        (Float64.finite 1) "BTC" "USD" =
      (none, some (handleAPIError (sampleEnvelope 1001 (some "API key invalid")).Status.ErrorCode
        (sampleEnvelope 1001 (some "API key invalid")).Status.ErrorMessage)) :=
  fetchConversionPrice_provider_error (decodesTo (sampleEnvelope 1001 (some "API key invalid")))
    identityStrings { exchange := Exchange.response StatusOK "", now := { unixNano := 0 } } ""
    (sampleEnvelope 1001 (some "API key invalid"))
      (Float64.finite 1) "BTC" "USD" rfl rfl (by decide)

/-- Witness of C16: `sampleData` has a quote for USD only, so a request for EUR gives the
InvalidResponse error "no quote found for EUR". -/
theorem parseConversionData_quote_absent_witness :
    (∃ e, parseConversionData (decodesTo (sampleEnvelope 0 none)) identityStrings
        { unixNano := 0 } sampleData (Float64.finite 1) "BTC" "EUR" = (none, some e) ∧
      kindsOf e = [DomainError.ErrInvalidResponse] ∧ shouldRetry e = false) ∧
    (∀ dataBytes convData,
      (decodesTo (sampleEnvelope 0 none)).Marshal sampleData = .ok dataBytes →
      (decodesTo (sampleEnvelope 0 none)).UnmarshalPriceConversionData dataBytes =
        .ok convData →
      parseConversionData (decodesTo (sampleEnvelope 0 none)) identityStrings
        { unixNano := 0 } sampleData (Float64.finite 1) "BTC" "EUR" =
        (none, some (wrapDomain DomainError.ErrInvalidResponse
          ("no quote found for " ++ "EUR")))) :=
  parseConversionData_quote_absent (decodesTo (sampleEnvelope 0 none)) identityStrings
    { unixNano := 0 } sampleData (Float64.finite 1) "BTC" "EUR"
    (fun _ convData _ hu q hq => by
      have hc : convData = sampleData := by
        have : Except.ok sampleData = (Except.ok convData : Except GoError _) := hu
        injection this with h
        exact h.symm
      subst hc
      simp [sampleData] at hq)

/-- Witness of C17 as amended: three BTC quoted at 50000 USD give the rate
`4581298449066667 / 2^38` (the float64 nearest to 50000 / 3); three times that rate is within
`2^-53 * 50000` of 50000. -/
theorem exchangeRate_times_amount_witness :
    (threeBTC { unixNano := 0 }).OriginalAmount = Float64.finite 3 ∧
    (threeBTC { unixNano := 0 }).ExchangeRate =
      Float64.div (threeBTC { unixNano := 0 }).ConvertedAmount
        (threeBTC { unixNano := 0 }).OriginalAmount ∧
    (threeBTC { unixNano := 0 }).ExchangeRate =
      Float64.finite (4581298449066667 / 274877906944) ∧
    |(4581298449066667 / 274877906944 : ℚ) * 3 - 50000| ≤ |(50000 : ℚ)| / 2 ^ 53 :=
  ⟨(exchangeRate_times_amount (decodesTo (sampleEnvelope 0 none)) identityStrings
      { unixNano := 0 } { exchange := Exchange.response 200 "", now := { unixNano := 0 } }
      sampleData (Float64.finite 3) "BTC" "USD" (threeBTC { unixNano := 0 }) none
      (Or.inl rfl)).1,
    (exchangeRate_times_amount (decodesTo (sampleEnvelope 0 none)) identityStrings
      { unixNano := 0 } { exchange := Exchange.response 200 "", now := { unixNano := 0 } }
      sampleData (Float64.finite 3) "BTC" "USD" (threeBTC { unixNano := 0 }) none
      (Or.inl rfl)).2.1,
    by decide!,
    (exchangeRate_times_amount (decodesTo (sampleEnvelope 0 none)) identityStrings
      { unixNano := 0 } { exchange := Exchange.response 200 "", now := { unixNano := 0 } }
      sampleData (Float64.finite 3) "BTC" "USD" (threeBTC { unixNano := 0 }) none
      (Or.inl rfl)).2.2 3 50000 (4581298449066667 / 274877906944) rfl (by norm_num) rfl
      (by decide!) (Or.inr (by decide!))⟩

/-- C17 fails as stated. For the amount `+Inf`, which is above zero, a quote of 50000 gives the
rate 0, and `0 * +Inf` is NaN. For the amount `2^-1074`, the smallest float64 above zero, the
quotient overflows: the rate is `+Inf` and so is the rate times the amount. For the amount
`2^1023` and a quoted price of `2^-1074` the quotient underflows: the rate is 0 and so is the
rate times the amount, where the converted amount is not. -/
theorem exchangeRate_times_amount_fails :
    (Float64.gtZero Float64.posInf = true ∧
      ∃ r, parseConversionData (decodesTo (sampleEnvelope 0 none)) identityStrings
          { unixNano := 0 } sampleData Float64.posInf "BTC" "USD" = (some r, none) ∧
        r.OriginalAmount = Float64.posInf ∧
        r.ConvertedAmount = Float64.finite 50000 ∧
        r.ExchangeRate = Float64.finite 0 ∧
        Float64.mul r.ExchangeRate r.OriginalAmount = Float64.nan) ∧
    (Float64.gtZero (Float64.finite (1 / 2 ^ 1074)) = true ∧
      ∃ r, parseConversionData (decodesTo (sampleEnvelope 0 none)) identityStrings
          { unixNano := 0 } sampleData (Float64.finite (1 / 2 ^ 1074)) "BTC" "USD" =
            (some r, none) ∧
        r.OriginalAmount = Float64.finite (1 / 2 ^ 1074) ∧
        r.ConvertedAmount = Float64.finite 50000 ∧
        r.ExchangeRate = Float64.posInf ∧
        Float64.mul r.ExchangeRate r.OriginalAmount = Float64.posInf) ∧
    (Float64.gtZero (Float64.finite (2 ^ 1023)) = true ∧
      ∃ r, parseConversionData (decodesTo tinyEnvelope) identityStrings
          { unixNano := 0 } tinyEnvelope.Data (Float64.finite (2 ^ 1023)) "BTC" "USD" =
            (some r, none) ∧
        r.OriginalAmount = Float64.finite (2 ^ 1023) ∧
        r.ConvertedAmount = Float64.finite (1 / 2 ^ 1074) ∧
        r.ExchangeRate = Float64.finite 0 ∧
        Float64.mul r.ExchangeRate r.OriginalAmount = Float64.finite 0) := by
  refine ⟨⟨by decide!, _, rfl, rfl, rfl, by decide!, by decide!⟩,
    ⟨by decide!, _, rfl, rfl, rfl, by decide!, by decide!⟩,
    ⟨by decide!, _, rfl, rfl, rfl, by decide!, by decide!⟩⟩

section RepositoryClaims2

variable {Data ω : Type} (oor : Float64 → Int) (json : JSONPkg Data) (strs : StringsPkg)

/-- C11, as amended: if the context is done while `GetConversionPrice` waits after the failed
fetch number `j` (from zero), `retry.Do` ends with the cancellation error after `j + 1` fetches,
and `GetConversionPrice` returns a nil result with the error of that last fetch itself, a bare
retryable package-level error value, which is not the cancellation error. -/
theorem GetConversionPrice_cancelled_returns_last_error (c : CoinMarketCapRepository)
    (net : ω → Attempt × ω) (ctx : Nat → Option GoError) (w : ω) (amount : Float64)
    (fromSym toSym : String) (j : Nat) (ce : GoError)
    (hj : (j : Int) + 1 < c.retry.MaxAttempts)
    (hfail : ∀ i, i ≤ j → ∃ e,
      outcome (fetchClosure json strs net amount fromSym toSym)
        { world := w, result := none, lastErr := none } i = some e ∧ shouldRetry e = true)
    (hprev : ∀ i, i < j → ctx i = none) (hcancel : ctx j = some ce) :
    ∃ e, outcome (fetchClosure json strs net amount fromSym toSym)
        { world := w, result := none, lastErr := none } j = some e ∧
      (getConversionPriceDo oor json strs c net ctx w amount fromSym toSym).calls = j + 1 ∧
      (getConversionPriceDo oor json strs c net ctx w amount fromSym toSym).err =
        some (cancelledErr ce) ∧
      GetConversionPrice oor json strs c net ctx w amount fromSym toSym = (none, some e) ∧
      (e = GoError.domain DomainError.ErrRateLimitExceeded ∨
        e = GoError.domain DomainError.ErrServerError ∨
        e = GoError.domain DomainError.ErrNetworkFailure) ∧
      e ≠ cancelledErr ce := by
  obtain ⟨e, he, hsr⟩ := hfail j (le_refl j)
  have hrun := Do_run_cancelled oor c.retry shouldRetry
    (fetchClosure json strs net amount fromSym toSym) ctx
    { world := w, result := none, lastErr := none } j ce hj
    (fun i hi => hfail i (by omega)) e he hsr hprev hcancel
  have hlast := fetchClosure_stateAfter_lastErr json strs net amount fromSym toSym
    { world := w, result := none, lastErr := none } j
  rw [he] at hlast
  have hkind := (shouldRetry_true_iff e).mp hsr
  refine ⟨e, he, ?_, ?_, ?_, hkind, ?_⟩
  · unfold getConversionPriceDo
    rw [hrun, calls_retryTrace_append]
    simp [Event.isInvoke]
  · unfold getConversionPriceDo
    rw [hrun]
  · unfold GetConversionPrice getConversionPriceDo
    rw [hrun]
    simp [hlast]
  · rcases hkind with h | h | h <;> subst h <;> simp [cancelledErr]

/-- Witness of C11 as amended: every exchange is an HTTP 500 and the context is done during the
first wait; the caller receives `ErrServerError` itself after one fetch. -/
theorem GetConversionPrice_cancelled_returns_last_error_witness :
    ∃ e, outcome (fetchClosure failingJSON asciiStrings
          (constantNet (Exchange.response 500 "")) (Float64.finite 1) "BTC" "USD")
        { world := 0, result := none, lastErr := none } 0 = some e ∧
      (getConversionPriceDo amd64OutOfRange failingJSON asciiStrings
        (NewCoinMarketCapRepository "key" "https://pro-api.coinmarketcap.com")
        (constantNet (Exchange.response 500 "")) (cancelledDuringWait 0) 0
        (Float64.finite 1) "BTC" "USD").calls = 0 + 1 ∧
      (getConversionPriceDo amd64OutOfRange failingJSON asciiStrings
        (NewCoinMarketCapRepository "key" "https://pro-api.coinmarketcap.com")
        (constantNet (Exchange.response 500 "")) (cancelledDuringWait 0) 0
        (Float64.finite 1) "BTC" "USD").err = some (cancelledErr ctxCanceled) ∧
      GetConversionPrice amd64OutOfRange failingJSON asciiStrings
        (NewCoinMarketCapRepository "key" "https://pro-api.coinmarketcap.com")
        (constantNet (Exchange.response 500 "")) (cancelledDuringWait 0) 0
          (Float64.finite 1) "BTC" "USD" =
          (none, some e) ∧
      (e = GoError.domain DomainError.ErrRateLimitExceeded ∨
        e = GoError.domain DomainError.ErrServerError ∨
        e = GoError.domain DomainError.ErrNetworkFailure) ∧
      e ≠ cancelledErr ctxCanceled :=
  GetConversionPrice_cancelled_returns_last_error amd64OutOfRange failingJSON asciiStrings
    (NewCoinMarketCapRepository "key" "https://pro-api.coinmarketcap.com")
    (constantNet (Exchange.response 500 "")) (cancelledDuringWait 0) 0
      (Float64.finite 1) "BTC" "USD" 0
    ctxCanceled (by decide)
    (fun _ _ => ⟨GoError.domain DomainError.ErrServerError, rfl, rfl⟩)
    (fun i hi => absurd hi (Nat.not_lt_zero i)) rfl

/-- C11 fails as stated: with an HTTP 500 on the first fetch and the context cancelled during
the wait that follows, `retry.Do` ends with the cancellation error, and `GetConversionPrice`
returns `ErrServerError` itself: not the cancellation error, and not an error that wraps the
context's error. -/
theorem GetConversionPrice_not_cancelledErr :
    (getConversionPriceDo amd64OutOfRange failingJSON asciiStrings
      (NewCoinMarketCapRepository "key" "https://pro-api.coinmarketcap.com")
      (constantNet (Exchange.response 500 "")) (cancelledDuringWait 0) 0
        (Float64.finite 1) "BTC" "USD").err =
        some (cancelledErr ctxCanceled) ∧
    GetConversionPrice amd64OutOfRange failingJSON asciiStrings
      (NewCoinMarketCapRepository "key" "https://pro-api.coinmarketcap.com")
      (constantNet (Exchange.response 500 "")) (cancelledDuringWait 0) 0
        (Float64.finite 1) "BTC" "USD" =
        (none, some (GoError.domain DomainError.ErrServerError)) ∧
    GoError.domain DomainError.ErrServerError ≠ cancelledErr ctxCanceled ∧
    (GoError.domain DomainError.ErrServerError).Is ctxCanceled = false ∧
    shouldRetry (GoError.domain DomainError.ErrServerError) = true := by
  refine ⟨by decide, by decide, by decide, by decide, by decide⟩

end RepositoryClaims2


section NonPositiveBudget

variable {σ : Type} (oor : Float64 → Int) (s : Strategy) (sr : GoError → Bool)
  (fn : σ → Option GoError × σ) (ctx : Nat → Option GoError)

/-- The loop returns nil only right after an invocation that returned nil. -/
theorem doLoop_nil_after_success : ∀ (fuel a : Nat) (l : Option GoError) (st : σ),
    (doLoop oor s sr fn ctx fuel a l st).err = none →
    ∃ pre, (doLoop oor s sr fn ctx fuel a l st).trace = pre ++ [Event.invoke none] := by
  intro fuel
  induction fuel with
  | zero => intro a l st h; simp [doLoop] at h
  | succ n ih =>
    intro a l st h
    rcases doLoop_cases s sr fn ctx a st with h1 | ⟨h1, st1, hfn⟩ |
      ⟨h1, e, st1, hfn, hsr⟩ | ⟨e, st1, hfn, hsr, hlast⟩ | ⟨h1, e, st1, ce, hfn, hsr, hlast, hctx⟩ |
      ⟨h1, e, st1, hfn, hsr, hlast, hctx⟩
    · rw [doLoop_exit oor s sr fn ctx _ a l st h1] at h; simp at h
    · rw [doLoop_success oor s sr fn ctx _ a l st st1 h1 hfn]
      exact ⟨[], rfl⟩
    · rw [doLoop_stop oor s sr fn ctx _ a l st st1 e h1 hfn hsr] at h; simp at h
    · rw [doLoop_last oor s sr fn ctx _ a l st st1 e hfn hsr hlast] at h; simp at h
    · rw [doLoop_cancel oor s sr fn ctx _ a l st st1 e ce h1 hfn hsr hlast hctx] at h
      simp at h
    · rw [doLoop_next oor s sr fn ctx _ a l st st1 e h1 hfn hsr hlast hctx] at h ⊢
      obtain ⟨pre, hpre⟩ := ih (a + 1) (some e) st1 h
      exact ⟨Event.invoke (some e) :: Event.wait (s.calculateDelay oor a) :: pre, by
        simp [hpre]⟩

/-- C29: with `MaxAttempts ≤ 0`, `retry.Do` never invokes the operation, leaves its state as it
was and returns the attempts-exceeded error built from a nil `lastErr`, an error that wraps
nothing; and whatever `MaxAttempts` is, `retry.Do` returns nil only when the last event of the
run is an invocation that returned nil. -/
theorem Do_nonpositive_MaxAttempts (st : σ) :
    (s.MaxAttempts ≤ 0 →
      (Do oor ctx s sr fn st).calls = 0 ∧
      (Do oor ctx s sr fn st).trace = [] ∧
      (Do oor ctx s sr fn st).state = st ∧
      (Do oor ctx s sr fn st).err = some (exhaustedErr s none) ∧
      (exhaustedErr s none).Unwrap = none) ∧
    ((Do oor ctx s sr fn st).err = none →
      ∃ pre, (Do oor ctx s sr fn st).trace = pre ++ [Event.invoke none]) := by
  constructor
  · intro h
    have hrun : Do oor ctx s sr fn st = ⟨some (exhaustedErr s none), st, []⟩ := by
      unfold Do
      exact doLoop_exit oor s sr fn ctx _ 0 none st (by omega)
    rw [hrun]
    exact ⟨rfl, rfl, rfl, rfl, rfl⟩
  · intro h
    exact doLoop_nil_after_success oor s sr fn ctx _ 0 none st h

end NonPositiveBudget

/-- Witness of C29: the strategy of `TestStrategy_calculateDelay`, whose `MaxAttempts` is zero,
makes no invocation; and the nil of `TestDo_SuccessAfterRetries` follows an invocation that
returned nil. -/
theorem Do_nonpositive_MaxAttempts_witness :
    ((Do amd64OutOfRange Background testStrategyDelay (isErr (GoError.leaf "test error"))
        (alwaysFail (GoError.leaf "test error")) 0).calls = 0 ∧
      (Do amd64OutOfRange Background testStrategyDelay (isErr (GoError.leaf "test error"))
        (alwaysFail (GoError.leaf "test error")) 0).trace = [] ∧
      (Do amd64OutOfRange Background testStrategyDelay (isErr (GoError.leaf "test error"))
        (alwaysFail (GoError.leaf "test error")) 0).state = 0 ∧
      (Do amd64OutOfRange Background testStrategyDelay (isErr (GoError.leaf "test error"))
        (alwaysFail (GoError.leaf "test error")) 0).err =
          some (exhaustedErr testStrategyDelay none) ∧
      (exhaustedErr testStrategyDelay none).Unwrap = none) ∧
    (∃ pre, (Do amd64OutOfRange Background testStrategy3 (isErr (GoError.leaf "test error"))
        (failTwice (GoError.leaf "test error")) 0).trace = pre ++ [Event.invoke none]) :=
  ⟨(Do_nonpositive_MaxAttempts amd64OutOfRange testStrategyDelay
      (isErr (GoError.leaf "test error")) (alwaysFail (GoError.leaf "test error"))
      Background 0).1 (by decide),
    (Do_nonpositive_MaxAttempts amd64OutOfRange testStrategy3
      (isErr (GoError.leaf "test error")) (failTwice (GoError.leaf "test error"))
      Background 0).2 (by decide)⟩

section ParseAndStatus

variable {Data : Type} (json : JSONPkg Data) (strs : StringsPkg)

/-- The two results of `NewCurrency`: a currency holding the trimmed, upper-cased symbol, or
`ErrInvalidCurrency`. -/
theorem NewCurrency_cases (s : String) :
    NewCurrency strs s = (some { Symbol := strs.ToUpper (strs.TrimSpace s) }, none) ∨
    NewCurrency strs s = (none, some (GoError.domain DomainError.ErrInvalidCurrency)) := by
  unfold NewCurrency
  simp only []
  split_ifs
  · exact Or.inr rfl
  · exact Or.inr rfl
  · exact Or.inl rfl

/-- A result of `NewCurrency` without an error is the currency of the normalized symbol. -/
theorem NewCurrency_ok (s : String) (c : Option Currency)
    (h : NewCurrency strs s = (c, none)) :
    c = some { Symbol := strs.ToUpper (strs.TrimSpace s) } := by
  rcases NewCurrency_cases strs s with h1 | h1
  · rw [h1] at h
    exact (Prod.mk.inj h).1.symm
  · rw [h1] at h
    exact absurd (Prod.mk.inj h).2 (by simp)

/-- C27: every result of `parseConversionData` comes from a data block that decodes and has a
quote entry keyed by the target symbol; its OriginalAmount is the requested amount, its
ConvertedAmount the price of that entry, its LastUpdated the timestamp of that entry, its
Timestamp the current time, and its two currencies hold the trimmed, upper-cased forms of the
two symbols. -/
theorem parseConversionData_fields (now : Time) (data : Data) (amount : Float64)
    (fromSym toSym : String) (r : ConversionResult) (e : Option GoError)
    (hr : parseConversionData json strs now data amount fromSym toSym = (some r, e)) :
    ∃ dataBytes convData q, json.Marshal data = .ok dataBytes ∧
      json.UnmarshalPriceConversionData dataBytes = .ok convData ∧
      convData.Quote.lookup toSym = some q ∧
      e = none ∧
      r.OriginalAmount = amount ∧
      r.ConvertedAmount = q.Price ∧
      r.LastUpdated = q.LastUpdated ∧
      r.Timestamp = now ∧
      r.FromCurrency = some { Symbol := strs.ToUpper (strs.TrimSpace fromSym) } ∧
      r.ToCurrency = some { Symbol := strs.ToUpper (strs.TrimSpace toSym) } := by
  unfold parseConversionData at hr
  split at hr
  · simp at hr
  · rename_i dataBytes hm
    split at hr
    · simp at hr
    · rename_i convData hu
      split at hr
      · simp at hr
      · rename_i q hq
        split at hr
        · simp at hr
        · rename_i fromCurrency hfrom
          split at hr
          · simp at hr
          · rename_i toCurrency hto
            simp only [Prod.mk.injEq, Option.some.injEq] at hr
            obtain ⟨hres, he⟩ := hr
            subst hres
            have h1 := NewCurrency_ok strs fromSym fromCurrency hfrom
            have h2 := NewCurrency_ok strs toSym toCurrency hto
            exact ⟨dataBytes, convData, q, hm, hu, hq, he.symm, rfl, rfl, rfl, rfl, h1, h2⟩

/-- The kind of the error of `handleHTTPError` does not depend on the body. -/
theorem kindsOf_handleHTTPError_body (statusCode : Int) (body body1 : String) :
    kindsOf (handleHTTPError statusCode body1) = kindsOf (handleHTTPError statusCode body) := by
  unfold handleHTTPError
  split_ifs <;> simp only [kindsOf_wrapDomain]

/-- C28: for a response whose status is not 200, `fetchConversionPrice` returns no result and
the error `handleHTTPError(status, body)`; the JSON decoder is not consulted (any decoder
gives the same outcome), and the kind of the error is the same for every body. A 429 gives
`ErrRateLimitExceeded` whatever the body carries. -/
theorem fetchConversionPrice_non200 (now : Time) (amount : Float64) (fromSym toSym : String)
    (statusCode : Int) (body : String) (h : statusCode ≠ 200) :
    fetchConversionPrice json strs
        { exchange := Exchange.response statusCode body, now := now } amount fromSym toSym =
      (none, some (handleHTTPError statusCode body)) ∧
    (∀ (Data1 : Type) (json1 : JSONPkg Data1),
      fetchConversionPrice json1 strs
          { exchange := Exchange.response statusCode body, now := now } amount fromSym toSym =
        fetchConversionPrice json strs
          { exchange := Exchange.response statusCode body, now := now } amount fromSym toSym) ∧
    (∀ body1, kindsOf (handleHTTPError statusCode body1) =
      kindsOf (handleHTTPError statusCode body)) ∧
    fetchConversionPrice json strs
        { exchange := Exchange.response 429 body, now := now } amount fromSym toSym =
      (none, some (GoError.domain DomainError.ErrRateLimitExceeded)) := by
  have hgate : ∀ (D : Type) (j : JSONPkg D),
      fetchConversionPrice j strs
          { exchange := Exchange.response statusCode body, now := now } amount fromSym toSym =
        (none, some (handleHTTPError statusCode body)) := by
    intro D j
    simp [fetchConversionPrice, StatusOK, h]
  refine ⟨hgate Data json, ?_, ?_, ?_⟩
  · intro D j
    rw [hgate D j, hgate Data json]
  · intro body1
    exact kindsOf_handleHTTPError_body statusCode body body1
  · rfl

end ParseAndStatus

/-- Witness of C27: `sampleData` for one BTC in USD gives `sampleResult`, whose fields are the
requested amount, the price and timestamp of the USD quote, and the two symbols. -/
theorem parseConversionData_fields_witness :
    ∃ dataBytes convData q,
      (decodesTo (sampleEnvelope 0 none)).Marshal sampleData = .ok dataBytes ∧
      (decodesTo (sampleEnvelope 0 none)).UnmarshalPriceConversionData dataBytes =
        .ok convData ∧
      convData.Quote.lookup "USD" = some q ∧
      (none : Option GoError) = none ∧
      (sampleResult { unixNano := 0 }).OriginalAmount = Float64.finite 1 ∧
      (sampleResult { unixNano := 0 }).ConvertedAmount = q.Price ∧
      (sampleResult { unixNano := 0 }).LastUpdated = q.LastUpdated ∧
      (sampleResult { unixNano := 0 }).Timestamp = { unixNano := 0 } ∧
      (sampleResult { unixNano := 0 }).FromCurrency =
        some { Symbol := identityStrings.ToUpper (identityStrings.TrimSpace "BTC") } ∧
      (sampleResult { unixNano := 0 }).ToCurrency =
        some { Symbol := identityStrings.ToUpper (identityStrings.TrimSpace "USD") } :=
  parseConversionData_fields (decodesTo (sampleEnvelope 0 none)) identityStrings
    { unixNano := 0 } sampleData
      (Float64.finite 1) "BTC" "USD" (sampleResult { unixNano := 0 }) none rfl

/-- Witness of C28: a 429 whose body decodes to an envelope with error code 1001 around a
complete quote gives `ErrRateLimitExceeded`, the error of `handleHTTPError`. -/
theorem fetchConversionPrice_non200_witness :
    fetchConversionPrice (decodesTo (sampleEnvelope 1001 (some "API key invalid")))
        identityStrings { exchange := Exchange.response 429 "", now := { unixNano := 0 } }
        (Float64.finite 1) "BTC" "USD" = (none, some (handleHTTPError 429 "")) ∧
    (∀ (Data1 : Type) (json1 : JSONPkg Data1),
      fetchConversionPrice json1 identityStrings
          { exchange := Exchange.response 429 "", now := { unixNano := 0 } }
            (Float64.finite 1) "BTC" "USD" =
        fetchConversionPrice (decodesTo (sampleEnvelope 1001 (some "API key invalid")))
          identityStrings { exchange := Exchange.response 429 "", now := { unixNano := 0 } }
          (Float64.finite 1) "BTC" "USD") ∧
    (∀ body1, kindsOf (handleHTTPError 429 body1) = kindsOf (handleHTTPError 429 "")) ∧
    fetchConversionPrice (decodesTo (sampleEnvelope 1001 (some "API key invalid")))
        identityStrings { exchange := Exchange.response 429 "", now := { unixNano := 0 } }
        (Float64.finite 1) "BTC" "USD" =
      (none, some (GoError.domain DomainError.ErrRateLimitExceeded)) :=
  fetchConversionPrice_non200 (decodesTo (sampleEnvelope 1001 (some "API key invalid")))
    identityStrings { unixNano := 0 } (Float64.finite 1) "BTC" "USD" 429 "" (by decide)

/-- C21, as amended: `NewConversionRequest` rejects every amount with `amount <= 0` (zero,
negative, minus infinity) with a nil request and `ErrInvalidAmount`, and for every amount with
`amount > 0`, plus infinity included, and two non-nil currencies it returns a request holding
that amount and those currencies; so a finite amount is accepted exactly when it is
positive. -/
theorem NewConversionRequest_sign_check (amount : Float64) (fromCur toCur : Option Currency) :
    (amount.leZero = true →
      NewConversionRequest amount fromCur toCur =
        (none, some (GoError.domain DomainError.ErrInvalidAmount))) ∧
    (amount.gtZero = true → ∀ f t, fromCur = some f → toCur = some t →
      NewConversionRequest amount fromCur toCur =
        (some { Amount := amount, FromCurrency := some f, ToCurrency := some t }, none)) ∧
    (amount.isFinite = true → (amount.leZero = true ↔ amount.gtZero = false)) := by
  refine ⟨?_, ?_, ?_⟩
  · intro h
    simp [NewConversionRequest, h]
  · intro h f t hf ht
    have hle : amount.leZero = false := by
      cases amount with
      | finite q =>
        simp only [Float64.gtZero, decide_eq_true_eq] at h
        simp only [Float64.leZero, decide_eq_false_iff_not, not_le]
        exact h
      | negZero => simp [Float64.gtZero] at h
      | posInf => rfl
      | negInf => simp [Float64.gtZero] at h
      | nan => rfl
    subst hf; subst ht
    simp [NewConversionRequest, hle]
  · intro h
    cases amount with
    | finite q => simp [Float64.leZero, Float64.gtZero]
    | negZero => simp [Float64.leZero, Float64.gtZero]
    | posInf => simp [Float64.isFinite] at h
    | negInf => simp [Float64.isFinite] at h
    | nan => simp [Float64.isFinite] at h

/-- Witness of C21 as amended, on the amounts of `TestNewConversionRequest`: zero is rejected
and 100 with USD and BTC gives the request. -/
theorem NewConversionRequest_sign_check_witness :
    NewConversionRequest (Float64.finite 0) (some usd) (some btc) =
      (none, some (GoError.domain DomainError.ErrInvalidAmount)) ∧
    NewConversionRequest (Float64.finite 100) (some usd) (some btc) =
      (some { Amount := Float64.finite 100, FromCurrency := some usd, ToCurrency := some btc },
        none) ∧
    ((Float64.finite 100).leZero = true ↔ (Float64.finite 100).gtZero = false) :=
  ⟨(NewConversionRequest_sign_check (Float64.finite 0) (some usd) (some btc)).1
      (by simp [Float64.leZero]),
    (NewConversionRequest_sign_check (Float64.finite 100) (some usd) (some btc)).2.1
      (by simp [Float64.gtZero]) usd btc rfl rfl,
    (NewConversionRequest_sign_check (Float64.finite 100) (some usd) (some btc)).2.2 rfl⟩

/-- C21 fails as stated: plus infinity is not a finite number, yet `NewConversionRequest`
accepts it with USD and BTC and returns a request holding it; NaN passes the test
`amount <= 0` in the same way. -/
theorem NewConversionRequest_accepts_infinity :
    Float64.posInf.isFinite = false ∧
    NewConversionRequest Float64.posInf (some usd) (some btc) =
      (some { Amount := Float64.posInf, FromCurrency := some usd, ToCurrency := some btc },
        none) ∧
    Float64.nan.isFinite = false ∧
    NewConversionRequest Float64.nan (some usd) (some btc) =
      (some { Amount := Float64.nan, FromCurrency := some usd, ToCurrency := some btc },
        none) :=
  ⟨rfl, rfl, rfl, rfl⟩

/-- One byte encodes a character below 128. -/
theorem utf8Size_of_ascii (c : Char) (h : c.toNat < 128) : c.utf8Size = 1 := by
  have h1 : c.val ≤ UInt32.ofNatCore 0x7F (by decide) := by
    show c.val.toNat ≤ 127
    have : c.val.toNat = c.toNat := rfl
    omega
  unfold Char.utf8Size
  simp only []
  rw [if_pos h1]

/-- A text of characters below 128 has as many bytes as characters. -/
theorem utf8ByteSize_of_ascii (s : String) (h : ∀ c ∈ s.data, c.toNat < 128) :
    s.utf8ByteSize = s.length := by
  obtain ⟨l⟩ := s
  show String.utf8ByteSize.go l = l.length
  induction l with
  | nil => rfl
  | cons c cs ih =>
    have hc := utf8Size_of_ascii c (h c (List.mem_cons_self c cs))
    have hcs := ih (fun d hd => h d (List.mem_cons_of_mem c hd))
    simp only [String.utf8ByteSize.go, List.length_cons, hc, hcs]

/-- C22, as amended: for every string, `NewCurrency` succeeds exactly when the trimmed,
upper-cased form has between 2 and 10 bytes in UTF-8; on success the Symbol is that form, and
otherwise the result is nil with `ErrInvalidCurrency`. For a form made of characters below 128
the number of bytes is the number of characters. -/
theorem NewCurrency_byte_length (strs : StringsPkg) (s : String) :
    NewCurrency strs s =
      (if 2 ≤ (strs.ToUpper (strs.TrimSpace s)).utf8ByteSize ∧
          (strs.ToUpper (strs.TrimSpace s)).utf8ByteSize ≤ 10 then
        (some { Symbol := strs.ToUpper (strs.TrimSpace s) }, none)
      else (none, some (GoError.domain DomainError.ErrInvalidCurrency))) ∧
    ((∀ c ∈ (strs.ToUpper (strs.TrimSpace s)).data, c.toNat < 128) →
      (strs.ToUpper (strs.TrimSpace s)).utf8ByteSize =
        (strs.ToUpper (strs.TrimSpace s)).length) := by
  refine ⟨?_, utf8ByteSize_of_ascii _⟩
  unfold NewCurrency
  simp only []
  by_cases hempty : strs.ToUpper (strs.TrimSpace s) = ""
  · rw [if_pos hempty, if_neg]
    rw [hempty]
    decide
  · rw [if_neg hempty]
    by_cases hlen : (strs.ToUpper (strs.TrimSpace s)).utf8ByteSize < 2 ∨
        (strs.ToUpper (strs.TrimSpace s)).utf8ByteSize > 10
    · rw [if_pos hlen, if_neg (by omega)]
    · rw [if_neg hlen, if_pos (by omega)]

/-- Witness of C22 as amended: the form `BTC` is made of characters below 128 and has three
bytes. -/
theorem NewCurrency_byte_length_witness :
    (testStrings.ToUpper (testStrings.TrimSpace " btc ")).utf8ByteSize =
      (testStrings.ToUpper (testStrings.TrimSpace " btc ")).length :=
  (NewCurrency_byte_length testStrings " btc ").2 (by decide)

/-- C22 fails as stated: the euro sign is its own trimmed, upper-cased form and is one
character, below the two characters asked for, yet `NewCurrency` accepts it, because it has
three bytes. -/
theorem NewCurrency_accepts_one_character :
    identityStrings.ToUpper (identityStrings.TrimSpace "€") = "€" ∧
    "€".length = 1 ∧
    "€".utf8ByteSize = 3 ∧
    NewCurrency identityStrings "€" = (some { Symbol := "€" }, none) :=
  ⟨rfl, rfl, rfl, rfl⟩

/-- C23: for two strings accepted by `NewCurrency`, the two currencies satisfy `Equals` exactly
when the trimmed, upper-cased forms of the strings are the same; `Equals` is reflexive and
symmetric; and `Equals(nil)` is false for every currency. -/
theorem Equals_iff_same_normalized (strs : StringsPkg) (a b : String) (ca cb : Currency)
    (ha : NewCurrency strs a = (some ca, none)) (hb : NewCurrency strs b = (some cb, none)) :
    (ca.Equals (some cb) = true ↔
      strs.ToUpper (strs.TrimSpace a) = strs.ToUpper (strs.TrimSpace b)) ∧
    ca.Equals (some ca) = true ∧
    ca.Equals (some cb) = cb.Equals (some ca) ∧
    (∀ c : Currency, c.Equals none = false) := by
  have h1 := NewCurrency_ok strs a (some ca) ha
  have h2 := NewCurrency_ok strs b (some cb) hb
  simp only [Option.some.injEq] at h1 h2
  subst h1; subst h2
  refine ⟨?_, ?_, ?_, fun _ => rfl⟩
  · simp [Currency.Equals]
  · simp [Currency.Equals]
  · simp only [Currency.Equals]
    by_cases h : strs.ToUpper (strs.TrimSpace a) = strs.ToUpper (strs.TrimSpace b)
    · simp [h]
    · have h' : ¬ strs.ToUpper (strs.TrimSpace b) = strs.ToUpper (strs.TrimSpace a) :=
        fun hh => h hh.symm
      simp [h, h']

/-- Witness of C23: ` btc ` and `BTC` give currencies that are equal under `Equals`. -/
theorem Equals_iff_same_normalized_witness :
    (btc.Equals (some btc) = true ↔
      testStrings.ToUpper (testStrings.TrimSpace " btc ") =
        testStrings.ToUpper (testStrings.TrimSpace "BTC")) ∧
    btc.Equals (some btc) = true ∧
    btc.Equals (some btc) = btc.Equals (some btc) ∧
    (∀ c : Currency, c.Equals none = false) :=
  Equals_iff_same_normalized testStrings " btc " "BTC" btc btc rfl rfl

section UseCase

variable {ρ : Type} (strs : StringsPkg) (priceRepo : PriceRepository ρ)

/-- C24: when `NewCurrency` rejects the source or the target symbol, `Execute` returns a nil
result and `ErrInvalidCurrency`; when it accepts both and `amount <= 0`, `Execute` returns a nil
result and `ErrInvalidAmount`; in both cases no call of the price repository is made and its
state is left as it was. -/
theorem Execute_rejects_before_repository (st : ρ) (amount : Float64)
    (fromSymbol toSymbol : String) :
    (((NewCurrency strs fromSymbol).2 ≠ none ∨ (NewCurrency strs toSymbol).2 ≠ none) →
      Execute strs priceRepo st amount fromSymbol toSymbol =
        some ⟨none, some (GoError.domain DomainError.ErrInvalidCurrency), st, []⟩) ∧
    ((NewCurrency strs fromSymbol).2 = none → (NewCurrency strs toSymbol).2 = none →
      amount.leZero = true →
      Execute strs priceRepo st amount fromSymbol toSymbol =
        some ⟨none, some (GoError.domain DomainError.ErrInvalidAmount), st, []⟩) := by
  rcases NewCurrency_cases strs fromSymbol with hf | hf <;>
    rcases NewCurrency_cases strs toSymbol with ht | ht
  · refine ⟨fun h => ?_, fun _ _ hle => ?_⟩
    · rw [hf, ht] at h; simp at h
    · simp [Execute, hf, ht, NewConversionRequest, hle]
  · refine ⟨fun _ => ?_, fun _ h _ => ?_⟩
    · simp [Execute, hf, ht]
    · rw [ht] at h; simp at h
  · refine ⟨fun _ => ?_, fun h _ _ => ?_⟩
    · simp [Execute, hf]
    · rw [hf] at h; simp at h
  · refine ⟨fun _ => ?_, fun h _ _ => ?_⟩
    · simp [Execute, hf]
    · rw [hf] at h; simp at h

/-- C26: when `NewCurrency` accepts both symbols and the amount is not `<= 0`, `Execute` calls
the price repository exactly once, with the amount and the trimmed, upper-cased forms of the
two symbols; it returns the repository's result as it is when the repository returns no error,
and a nil result with the repository's error as it is otherwise. -/
theorem Execute_delegates_once (st : ρ) (amount : Float64) (fromSymbol toSymbol : String)
    (hf : (NewCurrency strs fromSymbol).2 = none) (ht : (NewCurrency strs toSymbol).2 = none)
    (ha : amount.leZero = false) :
    (∀ result st1,
      priceRepo st amount (strs.ToUpper (strs.TrimSpace fromSymbol))
        (strs.ToUpper (strs.TrimSpace toSymbol)) = ((result, none), st1) →
      Execute strs priceRepo st amount fromSymbol toSymbol =
        some ⟨result, none, st1,
          [(amount, strs.ToUpper (strs.TrimSpace fromSymbol),
            strs.ToUpper (strs.TrimSpace toSymbol))]⟩) ∧
    (∀ result err st1,
      priceRepo st amount (strs.ToUpper (strs.TrimSpace fromSymbol))
        (strs.ToUpper (strs.TrimSpace toSymbol)) = ((result, some err), st1) →
      Execute strs priceRepo st amount fromSymbol toSymbol =
        some ⟨none, some err, st1,
          [(amount, strs.ToUpper (strs.TrimSpace fromSymbol),
            strs.ToUpper (strs.TrimSpace toSymbol))]⟩) := by
  have hf1 : NewCurrency strs fromSymbol =
      (some { Symbol := strs.ToUpper (strs.TrimSpace fromSymbol) }, none) := by
    rcases NewCurrency_cases strs fromSymbol with h | h
    · exact h
    · rw [h] at hf; simp at hf
  have ht1 : NewCurrency strs toSymbol =
      (some { Symbol := strs.ToUpper (strs.TrimSpace toSymbol) }, none) := by
    rcases NewCurrency_cases strs toSymbol with h | h
    · exact h
    · rw [h] at ht; simp at ht
  constructor
  · intro result st1 hrepo
    simp [Execute, hf1, ht1, NewConversionRequest, ha, Currency.String, hrepo]
  · intro result err st1 hrepo
    simp [Execute, hf1, ht1, NewConversionRequest, ha, Currency.String, hrepo]

end UseCase

/-- Witness of C24 on `TestConvertCurrencyUseCase_Execute`: the target symbol `X` is rejected
with `ErrInvalidCurrency`, the amount zero with `ErrInvalidAmount`, and the mock repository is
not called. -/
theorem Execute_rejects_before_repository_witness :
    Execute testStrings (mockRepo (none, some (GoError.domain DomainError.ErrServerError))) 0
        (Float64.finite 100) "USD" "X" =
      some ⟨none, some (GoError.domain DomainError.ErrInvalidCurrency), 0, []⟩ ∧
    Execute testStrings (mockRepo (none, some (GoError.domain DomainError.ErrServerError))) 0
        (Float64.finite 0) "USD" "BTC" =
      some ⟨none, some (GoError.domain DomainError.ErrInvalidAmount), 0, []⟩ :=
  ⟨(Execute_rejects_before_repository testStrings
      (mockRepo (none, some (GoError.domain DomainError.ErrServerError))) 0
      (Float64.finite 100) "USD" "X").1 (Or.inr (by decide)),
    (Execute_rejects_before_repository testStrings
      (mockRepo (none, some (GoError.domain DomainError.ErrServerError))) 0
      (Float64.finite 0) "USD" "BTC").2 rfl rfl (by simp [Float64.leZero])⟩

/-- Witness of C26 on `TestConvertCurrencyUseCase_Execute`: with 100, `usd` and ` btc ` the mock
repository is called once with 100, `USD` and `BTC`; its result, and in the other case its
error `ErrRateLimitExceeded`, come back as they are. -/
theorem Execute_delegates_once_witness :
    Execute testStrings (mockRepo (some (sampleResult { unixNano := 0 }), none)) 0
        (Float64.finite 100) "usd" " btc " =
      some ⟨some (sampleResult { unixNano := 0 }), none, 1,
        [(Float64.finite 100, testStrings.ToUpper (testStrings.TrimSpace "usd"),
          testStrings.ToUpper (testStrings.TrimSpace " btc "))]⟩ ∧
    Execute testStrings (mockRepo (none, some (GoError.domain DomainError.ErrRateLimitExceeded)))
        0 (Float64.finite 100) "usd" " btc " =
      some ⟨none, some (GoError.domain DomainError.ErrRateLimitExceeded), 1,
        [(Float64.finite 100, testStrings.ToUpper (testStrings.TrimSpace "usd"),
          testStrings.ToUpper (testStrings.TrimSpace " btc "))]⟩ :=
  ⟨(Execute_delegates_once testStrings
      (mockRepo (some (sampleResult { unixNano := 0 }), none)) 0 (Float64.finite 100)
      "usd" " btc " rfl rfl (by simp [Float64.leZero])).1 _ _ rfl,
    (Execute_delegates_once testStrings
      (mockRepo (none, some (GoError.domain DomainError.ErrRateLimitExceeded))) 0
      (Float64.finite 100) "usd" " btc " rfl rfl (by simp [Float64.leZero])).2 _ _ _ rfl⟩

/-- What `ParseArgs` does on an argument list whose flags parse and carry neither help nor
version: it succeeds exactly when three arguments remain and the first parses as a float64
that is not `<= 0` (a positive number, plus infinity or NaN), and then the amount is that
value and the two currencies are the second and third remaining arguments as they are. -/
theorem ParseArgs_succeeds_iff (lib : CliPkg) (args : List String) (verbose : Bool)
    (remaining : List String)
    (hparse : lib.Parse args = .ok ((verbose, false, false), remaining)) :
    ((ParseArgs lib args).2 = none ↔
      remaining.length = 3 ∧ ∃ amount,
        lib.ParseFloat (remaining.getD 0 "") = .ok amount ∧ amount.leZero = false) ∧
    (∀ amount, remaining.length = 3 → lib.ParseFloat (remaining.getD 0 "") = .ok amount →
      amount.leZero = false →
      ParseArgs lib args =
        (some { Amount := amount
                FromCurrency := remaining.getD 1 ""
                ToCurrency := remaining.getD 2 ""
                Verbose := verbose
                ShowHelp := false
                ShowVersion := false }, none)) := by
  have hunfold : ParseArgs lib args =
      (if remaining.length ≠ 3 then
        (none, some (GoError.leaf
          ("invalid number of arguments: expected 3 (amount, from_currency, to_currency), got " ++
            toString remaining.length)))
      else
        match lib.ParseFloat (remaining.getD 0 "") with
        | .error _ =>
          (none, some (GoError.leaf
            ("invalid amount '" ++ remaining.getD 0 "" ++ "': must be a number")))
        | .ok amount =>
          if amount.leZero then
            (none, some (GoError.leaf
              ("invalid amount '" ++ lib.FormatF amount ++ "': must be greater than zero")))
          else
            (some { Amount := amount
                    FromCurrency := remaining.getD 1 ""
                    ToCurrency := remaining.getD 2 ""
                    Verbose := verbose
                    ShowHelp := false
                    ShowVersion := false }, none)) := by
    unfold ParseArgs
    rw [hparse]
    rfl
  have hok : ∀ amount, remaining.length = 3 →
      lib.ParseFloat (remaining.getD 0 "") = .ok amount → amount.leZero = false →
      ParseArgs lib args =
        (some { Amount := amount
                FromCurrency := remaining.getD 1 ""
                ToCurrency := remaining.getD 2 ""
                Verbose := verbose
                ShowHelp := false
                ShowVersion := false }, none) := by
    intro amount hlen hfloat hle
    rw [hunfold, if_neg (not_not.mpr hlen), hfloat]
    simp only [hle, Bool.false_eq_true, if_false]
  refine ⟨⟨?_, ?_⟩, hok⟩
  · intro h
    rw [hunfold] at h
    by_cases hlen : remaining.length = 3
    · rw [if_neg (not_not.mpr hlen)] at h
      rcases hfloat : lib.ParseFloat (remaining.getD 0 "") with e | amount
      · rw [hfloat] at h
        simp at h
      · rw [hfloat] at h
        cases hle : amount.leZero
        · exact ⟨hlen, amount, rfl, hle⟩
        · simp [hle] at h
    · rw [if_pos hlen] at h
      simp at h
  · rintro ⟨hlen, amount, hfloat, hle⟩
    rw [hok amount hlen hfloat hle]

/-- C25 on the code: the argument list `NaN USD BTC` carries no flag and has three positional
arguments; `strconv.ParseFloat` reads the first as NaN, which is not a number greater than zero,
yet the test `amount <= 0` is false for it and `ParseArgs` succeeds with the amount NaN. By
contrast `100 USD BTC` succeeds with 100, and `0 USD BTC`, `abc USD BTC` and `100 USD` return an
error. -/
theorem ParseArgs_accepts_NaN :
    ParseArgs sampleCli ["NaN", "USD", "BTC"] =
      (some { Amount := Float64.nan
              FromCurrency := "USD"
              ToCurrency := "BTC"
              Verbose := false
              ShowHelp := false
              ShowVersion := false }, none) ∧
    Float64.nan.gtZero = false ∧
    ParseArgs sampleCli ["100", "USD", "BTC"] =
      (some { Amount := Float64.finite 100
              FromCurrency := "USD"
              ToCurrency := "BTC"
              Verbose := false
              ShowHelp := false
              ShowVersion := false }, none) ∧
    (ParseArgs sampleCli ["0", "USD", "BTC"]).1 = none ∧
    (ParseArgs sampleCli ["0", "USD", "BTC"]).2 ≠ none ∧
    (ParseArgs sampleCli ["abc", "USD", "BTC"]).2 ≠ none ∧
    (ParseArgs sampleCli ["100", "USD"]).2 ≠ none := by
  refine ⟨rfl, rfl, ?_, ?_, ?_, ?_, ?_⟩
  · simp [ParseArgs, sampleCli, Float64.leZero]
  · simp [ParseArgs, sampleCli, Float64.leZero]
  · simp [ParseArgs, sampleCli, Float64.leZero]
  · simp [ParseArgs, sampleCli]
  · simp [ParseArgs, sampleCli]

section RetryPredicate

variable {Data : Type} (json : JSONPkg Data) (strs : StringsPkg)

/-- An error of `handleHTTPError` has one of the two forms of `isFetchError`. -/
theorem handleHTTPError_isFetchError (statusCode : Int) (body : String) :
    isFetchError (handleHTTPError statusCode body) = true := by
  unfold handleHTTPError
  split_ifs <;> rfl

/-- An error of `handleAPIError` has one of the two forms of `isFetchError`. -/
theorem handleAPIError_isFetchError (errorCode : Int) (errorMsg : Option String) :
    isFetchError (handleAPIError errorCode errorMsg) = true := by
  unfold handleAPIError
  simp only []
  split_ifs <;> rfl

/-- An error of `NewCurrency` is `ErrInvalidCurrency`. -/
theorem NewCurrency_error (sym : String) (c : Option Currency) (e : GoError)
    (h : NewCurrency strs sym = (c, some e)) :
    e = GoError.domain DomainError.ErrInvalidCurrency := by
  rcases NewCurrency_cases strs sym with h1 | h1
  · rw [h1] at h
    simp at h
  · rw [h1] at h
    simp only [Prod.mk.injEq, Option.some.injEq] at h
    exact h.2.symm

/-- An error of `parseConversionData` has one of the two forms of `isFetchError`. -/
theorem parseConversionData_isFetchError (now : Time) (data : Data) (amount : Float64)
    (fromSym toSym : String) (r : Option ConversionResult) (e : GoError)
    (h : parseConversionData json strs now data amount fromSym toSym = (r, some e)) :
    isFetchError e = true := by
  unfold parseConversionData at h
  split at h
  · simp only [Prod.mk.injEq, Option.some.injEq] at h
    rw [← h.2]
    rfl
  · split at h
    · simp only [Prod.mk.injEq, Option.some.injEq] at h
      rw [← h.2]
      rfl
    · split at h
      · simp only [Prod.mk.injEq, Option.some.injEq] at h
        rw [← h.2]
        rfl
      · split at h
        · rename_i c1 err1 heq
          simp only [Prod.mk.injEq, Option.some.injEq] at h
          rw [← h.2, NewCurrency_error strs fromSym c1 err1 heq]
          rfl
        · split at h
          · rename_i c2 err2 heq
            simp only [Prod.mk.injEq, Option.some.injEq] at h
            rw [← h.2, NewCurrency_error strs toSym c2 err2 heq]
            rfl
          · simp at h

/-- Every error that `fetchConversionPrice` returns has one of the two forms of
`isFetchError`. -/
theorem fetchConversionPrice_isFetchError (att : Attempt) (amount : Float64)
    (fromSym toSym : String) (r : Option ConversionResult) (e : GoError)
    (h : fetchConversionPrice json strs att amount fromSym toSym = (r, some e)) :
    isFetchError e = true := by
  unfold fetchConversionPrice at h
  split at h
  · simp only [Prod.mk.injEq, Option.some.injEq] at h
    rw [← h.2]
    rfl
  · simp only [Prod.mk.injEq, Option.some.injEq] at h
    rw [← h.2]
    rfl
  · simp only [Prod.mk.injEq, Option.some.injEq] at h
    rw [← h.2]
    rfl
  · split at h
    · simp only [Prod.mk.injEq, Option.some.injEq] at h
      rw [← h.2]
      exact handleHTTPError_isFetchError _ _
    · split at h
      · simp only [Prod.mk.injEq, Option.some.injEq] at h
        rw [← h.2]
        rfl
      · split at h
        · simp only [Prod.mk.injEq, Option.some.injEq] at h
          rw [← h.2]
          exact handleAPIError_isFetchError _ _
        · exact parseConversionData_isFetchError json strs _ _ _ _ _ r e h

/-- The two forms of `isFetchError`, spelled out. -/
theorem isFetchError_cases (e : GoError) (h : isFetchError e = true) :
    (∃ d, e = GoError.domain d ∧ d ≠ DomainError.ErrNetworkFailure) ∨
    (∃ d msg, e = GoError.wrapError msg (GoError.domain d) ∧
      d ≠ DomainError.ErrRateLimitExceeded ∧ d ≠ DomainError.ErrServerError) := by
  cases e with
  | domain d =>
    simp only [isFetchError, decide_eq_true_eq] at h
    exact Or.inl ⟨d, rfl, h⟩
  | leaf msg => simp [isFetchError] at h
  | wrapError msg err =>
    cases err with
    | domain d =>
      simp only [isFetchError, decide_eq_true_eq] at h
      exact Or.inr ⟨d, msg, rfl, h.1, h.2⟩
    | leaf m => simp [isFetchError] at h
    | wrapError m e1 => simp [isFetchError] at h

/-- The package-level value matched by an error built around a package-level value is the
wrapped one. -/
theorem wrapError_domain_Is_domain (d d1 : DomainError) (msg : String)
    (h : (GoError.wrapError msg (GoError.domain d)).Is (GoError.domain d1) = true) :
    d = d1 := by
  simpa [GoError.Is] using h

/-- The package-level value that a package-level value matches is itself. -/
theorem domain_Is_domain (d d1 : DomainError)
    (h : (GoError.domain d).Is (GoError.domain d1) = true) : d = d1 := by
  simpa [GoError.Is] using h

/-- On errors of the two forms of `isFetchError` that match one package-level value, the retry
predicate of the repository gives one answer. -/
theorem shouldRetry_eq_of_isFetchError (e1 e2 : GoError) (h1 : isFetchError e1 = true)
    (h2 : isFetchError e2 = true) (d : DomainError) (hd1 : e1.Is (GoError.domain d) = true)
    (hd2 : e2.Is (GoError.domain d) = true) : shouldRetry e1 = shouldRetry e2 := by
  rcases isFetchError_cases e1 h1 with ⟨d1, rfl, hn1⟩ | ⟨d1, t1, rfl, hr1, hs1⟩ <;>
    rcases isFetchError_cases e2 h2 with ⟨d2, rfl, hn2⟩ | ⟨d2, t2, rfl, hr2, hs2⟩
  · have ha := domain_Is_domain d1 d hd1
    have hb := domain_Is_domain d2 d hd2
    rw [ha, hb]
  · have ha := domain_Is_domain d1 d hd1
    have hb := wrapError_domain_Is_domain d2 d t2 hd2
    subst ha
    subst hb
    rw [shouldRetry_wrapError]
    cases d2 <;> first | rfl | exact absurd rfl hn1 | exact absurd rfl hr2 | exact absurd rfl hs2
  · have ha := wrapError_domain_Is_domain d1 d t1 hd1
    have hb := domain_Is_domain d2 d hd2
    subst ha
    subst hb
    rw [shouldRetry_wrapError]
    cases d2 <;> first | rfl | exact absurd rfl hn2 | exact absurd rfl hr1 | exact absurd rfl hs1
  · rw [shouldRetry_wrapError, shouldRetry_wrapError]

/-- C13, as amended: on the errors that `fetchConversionPrice` returns, which are the errors the
retry predicate of the repository receives, the predicate is a function of the kind: two such
errors that match the same package-level value under `errors.Is` get the same answer, whatever
the requests, the responses and the detail texts they come from. -/
theorem shouldRetry_same_on_fetch_errors (att1 att2 : Attempt) (amount1 amount2 : Float64)
    (fromSym1 toSym1 fromSym2 toSym2 : String) (r1 r2 : Option ConversionResult)
    (e1 e2 : GoError) (d : DomainError)
    (h1 : fetchConversionPrice json strs att1 amount1 fromSym1 toSym1 = (r1, some e1))
    (h2 : fetchConversionPrice json strs att2 amount2 fromSym2 toSym2 = (r2, some e2))
    (hd1 : e1.Is (GoError.domain d) = true) (hd2 : e2.Is (GoError.domain d) = true) :
    shouldRetry e1 = shouldRetry e2 :=
  shouldRetry_eq_of_isFetchError e1 e2
    (fetchConversionPrice_isFetchError json strs att1 amount1 fromSym1 toSym1 r1 e1 h1)
    (fetchConversionPrice_isFetchError json strs att2 amount2 fromSym2 toSym2 r2 e2 h2)
    d hd1 hd2

end RetryPredicate

/-- Witness of C13 as amended: a 200 response with a clean envelope and the one-letter symbol
`B` gives `ErrInvalidCurrency` itself (from `NewCurrency`), an HTTP 400 with the body
`bad symbol` gives an error built around `ErrInvalidCurrency`; both match `ErrInvalidCurrency`
and the retry predicate gives the same answer for both. -/
theorem shouldRetry_same_on_fetch_errors_witness :
    shouldRetry (GoError.domain DomainError.ErrInvalidCurrency) =
      shouldRetry (wrapDomain DomainError.ErrInvalidCurrency "bad symbol") :=
  shouldRetry_same_on_fetch_errors (decodesTo (sampleEnvelope 0 none)) identityStrings
    { exchange := Exchange.response 200 "", now := { unixNano := 0 } }
    { exchange := Exchange.response 400 "bad symbol", now := { unixNano := 0 } }
    (Float64.finite 1) (Float64.finite 1) "B" "USD" "BTC" "USD" none none
    (GoError.domain DomainError.ErrInvalidCurrency)
    (wrapDomain DomainError.ErrInvalidCurrency "bad symbol")
    DomainError.ErrInvalidCurrency rfl rfl rfl rfl

/-- C13 fails as stated: `domain.ErrNetworkFailure` and the error that `fmt.Errorf` builds
around it (the one `fetchConversionPrice` returns when the transport fails with
`connection refused`) both match `ErrNetworkFailure` under `errors.Is` and no other
package-level value, yet the retry predicate of the repository is true for the first and false
for the second. -/
theorem shouldRetry_differs_within_kind :
    fetchConversionPrice failingJSON identityStrings
        { exchange := Exchange.sendFailed (GoError.leaf "connection refused"),
          now := { unixNano := 0 } } (Float64.finite 1) "BTC" "USD" =
      (none, some (wrapDomain DomainError.ErrNetworkFailure "connection refused")) ∧
    (GoError.domain DomainError.ErrNetworkFailure).Is
      (GoError.domain DomainError.ErrNetworkFailure) = true ∧
    (wrapDomain DomainError.ErrNetworkFailure "connection refused").Is
      (GoError.domain DomainError.ErrNetworkFailure) = true ∧
    kindsOf (GoError.domain DomainError.ErrNetworkFailure) = [DomainError.ErrNetworkFailure] ∧
    kindsOf (wrapDomain DomainError.ErrNetworkFailure "connection refused") =
      [DomainError.ErrNetworkFailure] ∧
    shouldRetry (GoError.domain DomainError.ErrNetworkFailure) = true ∧
    shouldRetry (wrapDomain DomainError.ErrNetworkFailure "connection refused") = false ∧
    shouldRetry (GoError.domain DomainError.ErrNetworkFailure) ≠
      shouldRetry (wrapDomain DomainError.ErrNetworkFailure "connection refused") :=
  ⟨rfl, by decide, by decide, kindsOf_domain _, kindsOf_wrapDomain _ _, rfl,
    shouldRetry_wrapError _ _, by decide⟩

end CurrencyConversion
